import Mathlib

/-!
# mirador-nrt-aggregator: exporter identity, pipeline fan-out, and the Grafana plugin

A shallow embedding of

* `internal/exporters/weaviate/weaviate.go` (`New`, `Start`, `upsert`, `renderID`, `toUUID5`),
* `internal/pipeline/pipeline.go` (`BuildAndRun`, the fan-out task, `runSinglePipeline`, the
  factory builders),
* `internal/receivers/otlpgrpc/otlpgrpc.go` (`New`, `Start`, the two `Export` services),
* `pkg/backend/plugin.go`, `pkg/backend/client.go` and `cmd/plugin/main.go` of the Grafana
  plugin (`New`, `CheckHealth`, `QueryData`, the client, `main`),

followed by the properties proved about them.

Conventions.  A Go `string` is a Lean `String`; `[]byte(s)` is its UTF-8 encoding.  A byte and
a 32-bit word are natural numbers, reduced `% 256` and `% 2 ^ 32` where the Go operation wraps.
Go's `crypto/sha1`, the `%x` verb of `fmt` and the part of `text/template` the exporter uses are
library code; they are embedded here as far as the exporter exercises them.
-/

set_option autoImplicit false

/-! ## `crypto/sha1` -/

namespace Sha1

/-- Rotate a 32-bit word left by `n` bits (`bits.RotateLeft32`). -/
def rotl (n x : Nat) : Nat := ((x <<< n) ||| (x >>> (32 - n))) % 2 ^ 32

/-- The 32-bit word whose big-endian bytes are `b0 b1 b2 b3`. -/
def be32 (b0 b1 b2 b3 : Nat) : Nat := b0 <<< 24 ||| b1 <<< 16 ||| b2 <<< 8 ||| b3

/-- Big-endian bytes of a 32-bit word. -/
def putBe32 (x : Nat) : List Nat :=
  [(x >>> 24) % 256, (x >>> 16) % 256, (x >>> 8) % 256, x % 256]

/-- Big-endian bytes of a 64-bit word. -/
def putBe64 (x : Nat) : List Nat :=
  putBe32 ((x >>> 32) % 2 ^ 32) ++ putBe32 (x % 2 ^ 32)

/-- The padding `checkSum` appends to a message of `len` bytes: `0x80`, zero bytes up to
56 modulo 64, then the length in bits as a 64-bit big-endian word. -/
def pad (len : Nat) : List Nat :=
  0x80 :: List.replicate ((55 + 64 - len % 64) % 64) 0 ++ putBe64 ((len * 8) % 2 ^ 64)

/-- The big-endian words of a block. -/
def wordsOf : List Nat → List Nat
  | b0 :: b1 :: b2 :: b3 :: rest => be32 b0 b1 b2 b3 :: wordsOf rest
  | _ => []

/-- The five chaining words `h[0..4]` of the digest. -/
structure Digest where
  h0 : Nat
  h1 : Nat
  h2 : Nat
  h3 : Nat
  h4 : Nat
deriving DecidableEq, Repr

/-- The initial chaining value (`init0 .. init4`). -/
def init : Digest := ⟨0x67452301, 0xEFCDAB89, 0x98BADCFE, 0x10325476, 0xC3D2E1F0⟩

/-- The round function of round `i` applied to `b c d`, plus the round constant. -/
def fk (i b c d : Nat) : Nat :=
  if i < 20 then ((b &&& c) ||| ((b ^^^ 0xFFFFFFFF) &&& d)) + 0x5A827999
  else if i < 40 then (b ^^^ c ^^^ d) + 0x6ED9EBA1
  else if i < 60 then (((b ||| c) &&& d) ||| (b &&& c)) + 0x8F1BBCDC
  else (b ^^^ c ^^^ d) + 0xCA62C1D6

/-- Rounds `i, i + 1, ...` of `blockGeneric`, `fuel` of them.  `w` is the sliding window of
the sixteen schedule words `w[i], .., w[i + 15]`; the word entering the window is
`rotl 1 (w[i + 13] ^ w[i + 8] ^ w[i + 2] ^ w[i])`. -/
def rounds : Nat → Nat → List Nat → Digest → Digest
  | 0, _, _, s => s
  | fuel + 1, i, w, s =>
    match w with
    | w0 :: rest =>
      let t := (rotl 5 s.h0 + fk i s.h1 s.h2 s.h3 + s.h4 + w0) % 2 ^ 32
      let nw := rotl 1 (rest.getD 12 0 ^^^ rest.getD 7 0 ^^^ rest.getD 1 0 ^^^ w0)
      rounds fuel (i + 1) (rest ++ [nw]) ⟨t, s.h0, rotl 30 s.h1, s.h2, s.h3⟩
    | [] => s

/-- One 64-byte block folded into the chaining value. -/
def block (s : Digest) (p : List Nat) : Digest :=
  let r := rounds 80 0 (wordsOf p) s
  ⟨(s.h0 + r.h0) % 2 ^ 32, (s.h1 + r.h1) % 2 ^ 32, (s.h2 + r.h2) % 2 ^ 32,
   (s.h3 + r.h3) % 2 ^ 32, (s.h4 + r.h4) % 2 ^ 32⟩

/-- The first `n` blocks of `p` folded into the chaining value. -/
def blocks : Nat → Digest → List Nat → Digest
  | 0, s, _ => s
  | n + 1, s, p => blocks n (block s (p.take 64)) (p.drop 64)

/-- The 20-byte SHA-1 digest of `msg` (`h.Write(msg); h.Sum(nil)`). -/
def sum (msg : List Nat) : List Nat :=
  let m := msg ++ pad msg.length
  let d := blocks (m.length / 64) init m
  putBe32 d.h0 ++ putBe32 d.h1 ++ putBe32 d.h2 ++ putBe32 d.h3 ++ putBe32 d.h4

end Sha1

/-! ## `fmt`: the `%x` and `%d` verbs -/

namespace Fmt

/-- The digit table of `fmt` (`ldigits`). -/
def ldigits : List Char := "0123456789abcdefx".data

/-- The two hex digits `fmtSbx` writes for the byte `c`: `digits[c>>4]`, `digits[c&0xF]`. -/
def hexByte (c : Nat) : List Char := [ldigits.getD (c >>> 4) '0', ldigits.getD (c &&& 0xF) '0']

/-- The verb `%0Nx` on a byte slice: two lower-case hex digits per byte, padded on the left
with zeros up to width `N`. -/
def sbx (width : Nat) (bs : List Nat) : String :=
  let body := bs.flatMap hexByte
  ⟨List.replicate (width - body.length) '0' ++ body⟩

/-- The verb `%d` (and `Fprint`) on a signed integer: decimal, with `-` for negatives. -/
def formatInt : Int → String
  | .ofNat n => Nat.repr n
  | .negSucc n => "-" ++ Nat.repr (n + 1)

end Fmt

/-- The bytes of a Go string: `[]byte(s)`. -/
def bytesOf (s : String) : List Nat :=
  (s.data.flatMap String.utf8EncodeChar).map UInt8.toNat

/-- The Go slice expression `s[lo:hi]`. -/
def subslice (s : List Nat) (lo hi : Nat) : List Nat := (s.take hi).drop lo

namespace Weaviate

/-- UUID v5 namespace (DNS): 6ba7b810-9dad-11d1-80b4-00c04fd430c8. -/
def namespaceDNS : List Nat :=
  [0x6b, 0xa7, 0xb8, 0x10, 0x9d, 0xad, 0x11, 0xd1,
   0x80, 0xb4, 0x00, 0xc0, 0x4f, 0xd4, 0x30, 0xc8]

/-- `toUUID5` of weaviate.go: SHA-1 over namespace and name, the version and variant bits set
in place in bytes 6 and 8 of the digest, then `Sprintf("%08x-%04x-%04x-%04x-%012x", ...)` over
the slices `sum[0:4]`, `sum[4:6]`, `sum[6:8]`, `sum[8:10]`, `sum[10:16]`. -/
def toUUID5 (name : String) : String :=
  let sum := Sha1.sum (namespaceDNS ++ bytesOf name)
  -- Set version 5
  let sum := sum.set 6 ((sum.getD 6 0 &&& 0x0f) ||| 0x50)
  -- Set variant to RFC 4122
  let sum := sum.set 8 ((sum.getD 8 0 &&& 0x3f) ||| 0x80)
  Fmt.sbx 8 (subslice sum 0 4) ++ "-" ++ Fmt.sbx 4 (subslice sum 4 6) ++ "-" ++
    Fmt.sbx 4 (subslice sum 6 8) ++ "-" ++ Fmt.sbx 4 (subslice sum 8 10) ++ "-" ++
    Fmt.sbx 12 (subslice sum 10 16)

/-- The version-5 UUID as the specification words it: with `d` the first 16 bytes of
SHA-1(namespace bytes followed by name bytes), byte 6 becomes `(d[6] & 0x0f) | 0x50`, byte 8
becomes `(d[8] & 0x3f) | 0x80`, every other byte is kept. -/
def uuid5Bytes (ns : List Nat) (name : List Nat) : List Nat :=
  let d := (Sha1.sum (ns ++ name)).take 16
  (List.range 16).map fun i =>
    if i = 6 then (d.getD 6 0 &&& 0x0f) ||| 0x50
    else if i = 8 then (d.getD 8 0 &&& 0x3f) ||| 0x80
    else d.getD i 0

/-- The rendering `xxxxxxxx-xxxx-xxxx-xxxx-xxxxxxxxxxxx` of sixteen bytes: 32 lower-case
hex digits with a dash after the 8th, 12th, 16th and 20th digit. -/
def hexRendering (bs : List Nat) : String :=
  let h := bs.flatMap fun b => [Nat.digitChar (b / 16), Nat.digitChar (b % 16)]
  ⟨h.take 8 ++ '-' :: (h.drop 8).take 4 ++ '-' :: (h.drop 12).take 4 ++
    '-' :: (h.drop 16).take 4 ++ '-' :: h.drop 20⟩

end Weaviate

/-! ## The data model -/

/-- A `float64`, held as its IEEE-754 bit pattern.  No arithmetic on it is embedded: the
exporter only carries these values into the request body. -/
structure Float64 where
  bits : Nat
deriving DecidableEq, Repr

/-- A float that is neither an infinity nor a NaN: its exponent bits are not all ones. -/
def Float64.isFinite (f : Float64) : Bool := (f.bits / 2 ^ 52) % 2048 != 2047

/-- Modelled from the spec: `model.Aggregate`, whose declaration is not among the sources.
The fields are those of the emitted aggregate (data model: service, window_start, window_end,
p50, p95, p99, rps, error_rate, count, labels, summary_text, vector, anomaly_score, locator)
under the names weaviate.go reads them by.  `WindowStart` is the integer `%d` prints;
`Labels` is a Go map, `none` when nil, otherwise its entries. -/
structure Aggregate where
  Service : String
  WindowStart : Int
  WindowEnd : Int
  P50 : Float64
  P95 : Float64
  P99 : Float64
  RPS : Float64
  ErrorRate : Float64
  Count : Int
  Labels : Option (List (String × String))
  SummaryText : String
  Vector : List Float64
  AnomalyScore : Float64
  Locator : String
deriving DecidableEq, Repr

/-- Modelled from the spec: `config.ExporterCfg`, whose declaration is not among the sources:
the `type` tag (here `Type_`) and the recognized exporter options `endpoint`, `class`,
`id_template`. -/
structure ExporterCfg where
  Type_ : String
  Endpoint : String
  Class : String
  IDTemplate : String
deriving DecidableEq, Repr

/-! ## `text/template`, as far as an id template uses it

The embedded fragment is: literal text, and actions `{{.Name}}` that print one field of the
aggregate (blanks allowed inside the delimiters).  Pipelines, variables, functions, control
structures, comments and trim markers are outside the fragment.  Of a template outside the
fragment the embedding says one thing only: that `Parse` rejects it when one of its actions
is never closed.  Whether `Parse` accepts any other such template is left to a parameter
where it matters (`Pipeline.newExporter`), and what it prints is not described. -/

namespace Template

/-- A parsed template: literal text and field actions, in order. -/
inductive Node where
  | text (s : String)
  | field (name : String)
deriving DecidableEq, Repr

/-- Blanks inside an action. -/
def isSpace (c : Char) : Bool := c == ' ' || c == '\t' || c == '\r' || c == '\n'

/-- Characters of a field name after the first. -/
def isAlphaNumeric (c : Char) : Bool := c == '_' || c.isAlphanum

/-- Fields of `Aggregate` whose printed form (`fmt.Fprint` of a float, a map, a slice, or of a
field whose Go type the sources do not show) is not embedded: a template that prints one of
them is outside the fragment. -/
def unprinted : List String :=
  ["WindowEnd", "P50", "P95", "P99", "RPS", "ErrorRate", "Count", "Labels", "Vector",
   "AnomalyScore", "Locator"]

/-- The text between `{{` and `}}`: blanks, a dot, a field name (ASCII letters, digits and
underscores, not starting with a digit), blanks.  Anything else is outside the fragment. -/
def parseAction (cs : List Char) : Option Node :=
  match ((cs.dropWhile isSpace).reverse.dropWhile isSpace).reverse with
  | '.' :: c :: rest =>
    if (c == '_' || c.isAlpha) && rest.all isAlphaNumeric && !(unprinted.contains ⟨c :: rest⟩)
    then some (.field ⟨c :: rest⟩) else none
  | _ => none

/-- Where the scanner is: in literal text, or inside an action; with what it has read of
the current item. -/
inductive Mode where
  | text (acc : List Char)
  | action (acc : List Char)

/-- The text node for accumulated literal text; nothing for empty text. -/
def flush (acc : List Char) : List Node := if acc.isEmpty then [] else [.text ⟨acc⟩]

/-- The scanner: text runs up to the next `{{`, an action up to the next `}}`. -/
def scan : List Char → Mode → List Node → Option (List Node)
  | [], .text acc, out => some (out ++ flush acc)
  | [], .action _, _ => none
  | c :: rest, .text acc, out =>
    match rest with
    | c2 :: rest2 =>
      if c = '{' ∧ c2 = '{' then scan rest2 (.action []) (out ++ flush acc)
      else scan (c2 :: rest2) (.text (acc ++ [c])) out
    | [] => some (out ++ flush (acc ++ [c]))
  | c :: rest, .action acc, out =>
    match rest with
    | c2 :: rest2 =>
      if c = '}' ∧ c2 = '}' then
        match parseAction acc with
        | some n => scan rest2 (.text []) (out ++ [n])
        | none => none
      else scan (c2 :: rest2) (.action (acc ++ [c])) out
    | [] => none

/-- Whether `}}` occurs in the text. -/
def hasClose : List Char → Bool
  | [] => false
  | c :: rest => (c == '}' && rest.head? == some '}') || hasClose rest

/-- Whether some `{{` of the text has no `}}` after it.  The lexer of `text/template` leaves
an action only at a `}}`, so it reaches the end of such a text inside an action (or inside a
comment or a quoted string of one) and `Parse` returns an error. -/
def unclosed : List Char → Bool
  | [] => false
  | c :: rest => (c == '{' && rest.head? == some '{' && !hasClose rest.tail) || unclosed rest

/-- What `template.New("id").Parse(tmpl)` gives, as far as it is embedded:
* `tree nodes`: the template lies in the embedded fragment, `Parse` returns it parsed;
* `error`: `Parse` returns an error (here: for an action that is never closed);
* `foreign`: the template lies outside the embedded fragment and every action in it is
  closed; whether `Parse` accepts it, and what it then prints, is not embedded. -/
inductive Parsed where
  | tree (nodes : List Node)
  | error
  | foreign
deriving DecidableEq, Repr

/-- `template.New("id").Parse(tmpl)`. -/
def Parse (tmpl : String) : Parsed :=
  match scan tmpl.data (.text []) [] with
  | some nodes => .tree nodes
  | none => if unclosed tmpl.data then .error else .foreign

/-- What `{{.name}}` prints for aggregate `a`: strings as they are, integers in decimal;
`none` when `a` has no such field (an execution error). -/
def fieldText (a : Aggregate) (name : String) : Option String :=
  if name = "Service" then some a.Service
  else if name = "WindowStart" then some (Fmt.formatInt a.WindowStart)
  else if name = "SummaryText" then some a.SummaryText
  else none

/-- `t.Execute(&sb, a)`: the text written when every action succeeds, `none` on an error. -/
def Execute : List Node → Aggregate → Option String
  | [], _ => some ""
  | .text s :: rest, a => (Execute rest a).map (s ++ ·)
  | .field name :: rest, a =>
    match fieldText a name with
    | none => none
    | some v => (Execute rest a).map (v ++ ·)

end Template

/-! ## `internal/exporters/weaviate` -/

namespace Weaviate

/-- The exporter: `endpoint`, `class` (here `className`), the parsed `idTemplate`, and the
timeout in seconds of its HTTP client. -/
structure Exporter where
  endpoint : String
  className : String
  idTemplate : List Template.Node
  clientTimeout : Nat
deriving DecidableEq, Repr

/-- `strings.TrimSuffix`. -/
def trimSuffix (s suffix : String) : String :=
  if suffix.data.isSuffixOf s.data then ⟨s.data.take (s.data.length - suffix.data.length)⟩ else s

/-- The template `New` falls back on. -/
def defaultTemplate : String := "{{.Service}}:{{.WindowStart}}:{{.SummaryText}}"

/-- The template `New` parses: `cfg.IDTemplate`, or the default when that is empty. -/
def templateOf (cfg : ExporterCfg) : String :=
  if cfg.IDTemplate ≠ "" then cfg.IDTemplate else defaultTemplate

/-- How a call of `New` ends:
* `exporter e`: it returns the exporter `e`;
* `fatal`: `Parse` returned an error and `log.Fatalf` ends the process;
* `foreign`: the id template is outside the embedded fragment of `text/template`; `New`
  ends the process if `Parse` rejects the template and returns an exporter otherwise, and
  neither that choice nor the exporter is described here. -/
inductive Built where
  | exporter (e : Exporter)
  | fatal
  | foreign
deriving DecidableEq, Repr

/-- `New` creates a new Weaviate exporter from config. -/
def New (cfg : ExporterCfg) : Built :=
  match Template.Parse (templateOf cfg) with
  | .tree tt =>
    .exporter { endpoint := trimSuffix cfg.Endpoint "/", className := cfg.Class,
                idTemplate := tt, clientTimeout := 10 }
  | .error => .fatal
  | .foreign => .foreign

/-- `renderID`: the executed id template, or `service:window_start` when execution fails. -/
def Exporter.renderID (e : Exporter) (a : Aggregate) : String :=
  match Template.Execute e.idTemplate a with
  | none => a.Service ++ ":" ++ Fmt.formatInt a.WindowStart
  | some s => s

/-- A value under a key of the `properties` map (`map[string]any`): a string, an integer
or a float. -/
inductive PropValue where
  | str (s : String)
  | int (i : Int)
  | float (f : Float64)
deriving DecidableEq, Repr

/-- A value under a top-level key of the `body` map: a string, a float slice, or the
`properties` map. -/
inductive BodyValue where
  | str (s : String)
  | floats (v : List Float64)
  | props (m : List (String × PropValue))
deriving DecidableEq, Repr

/-- Whether `encoding/json` encodes the value: it returns an `UnsupportedValueError` for a
float that is an infinity or a NaN, and encodes every string and every integer. -/
def PropValue.marshals : PropValue → Bool
  | .str _ => true
  | .int _ => true
  | .float f => f.isFinite

/-- Whether `encoding/json` encodes the value. -/
def BodyValue.marshals : BodyValue → Bool
  | .str _ => true
  | .floats v => v.all Float64.isFinite
  | .props m => m.all (fun x => x.2.marshals)

/-- Whether `json.Marshal(body)` succeeds. -/
def marshals (body : List (String × BodyValue)) : Bool := body.all (fun x => x.2.marshals)

/-- The request `upsert` sends: method, URL, `Content-Type` header, and the body.  The body
`some m` is the bytes `json.Marshal` returned for the map `m`; `none` is the empty body of
`bytes.NewReader(nil)`, sent when `json.Marshal` failed, its error being discarded. -/
structure Request where
  method : String
  url : String
  contentType : String
  body : Option (List (String × BodyValue))
deriving DecidableEq, Repr

/-- What `upsert` reads of an `http.Response`. -/
structure Response where
  StatusCode : Int
  Body : String
deriving DecidableEq, Repr

/-- Two of the checks by which `url.Parse` rejects a URL: an ASCII control byte anywhere
(`stringContainsCTLByte`), and a colon as first byte (`getScheme`: missing protocol scheme). -/
def urlRejected (rawURL : String) : Bool :=
  rawURL.data.any (fun c => c.toNat < 0x20 || c.toNat == 0x7f) || rawURL.data.head? == some ':'

/-- The libraries and the network `upsert` runs against; `σ` is the state of the outside
world (the vector store).
* `jsonMarshalLabels` is `json.Marshal` on a label map;
* `urlParses` tells whether `url.Parse` accepts a URL that passes the checks of `urlRejected`;
* `clientDo` is `e.client.Do(req)`: a transport error or a response, and the next state. -/
structure Env (σ : Type) where
  jsonMarshalLabels : List (String × String) → Except String String
  urlParses : String → Bool
  clientDo : σ → Request → Except String Response × σ

/-- `b, _ := json.Marshal(body)`, then `http.NewRequestWithContext(ctx, "POST", url,
bytes.NewReader(b))` with the header set on the result: `none` is the nil request returned
when the URL does not parse. -/
def newRequest {σ : Type} (env : Env σ) (url : String) (body : List (String × BodyValue)) :
    Option Request :=
  if urlRejected url then none
  else if env.urlParses url then
    some { method := "POST", url := url, contentType := "application/json",
           body := if marshals body then some body else none }
  else none

/-- How a call ends: it returns nil, it returns an error, or it panics. -/
inductive Outcome where
  | ok
  | err (msg : String)
  | panic (msg : String)
deriving DecidableEq, Repr

/-- The object ID `upsert` computes: `toUUID5(e.renderID(a))`. -/
def Exporter.objectID (e : Exporter) (a : Aggregate) : String := toUUID5 (e.renderID a)

/-- The labels serialised to a JSON string: `"{}"` for a nil map or a failed marshal. -/
def labelsJSON {σ : Type} (env : Env σ) (a : Aggregate) : String :=
  match a.Labels with
  | none => "{}"
  | some m =>
    match env.jsonMarshalLabels m with
    | .ok lb => lb
    | .error _ => "{}"

/-- The map literal `body` of `upsert`, entry by entry in source order. -/
def Exporter.body {σ : Type} (e : Exporter) (env : Env σ) (a : Aggregate) :
    List (String × BodyValue) :=
  [("class", .str e.className),
   ("id", .str (e.objectID a)),
   ("vector", .floats a.Vector),
   ("properties", .props
     [("summary", .str a.SummaryText),
      ("service", .str a.Service),
      ("window_start", .int a.WindowStart),
      ("window_end", .int a.WindowEnd),
      ("p50", .float a.P50),
      ("p95", .float a.P95),
      ("p99", .float a.P99),
      ("rps", .float a.RPS),
      ("error_rate", .float a.ErrorRate),
      ("anomaly_score", .float a.AnomalyScore),
      ("count", .int a.Count),
      ("labels", .str (labelsJSON env a)),
      ("locator", .str a.Locator)])]

/-- How `upsert` reads the response: 409 and 422 are success, any other status from 300 up
is an error, everything else is success. -/
def interpret (resp : Response) : Outcome :=
  if resp.StatusCode = 409 ∨ resp.StatusCode = 422 then .ok
  else if resp.StatusCode ≥ 300 then
    .err ("weaviate HTTP " ++ Fmt.formatInt resp.StatusCode ++ ": " ++ resp.Body)
  else .ok

/-- `upsert` builds a Weaviate object and sends it to `/v1/objects`.  The error of
`json.Marshal` is discarded by the source, so the request carries an empty body when the
marshalling fails (see `newRequest`); the error of `NewRequestWithContext` is discarded too,
so a nil request is dereferenced by `req.Header.Set`. -/
def Exporter.upsert {σ : Type} (e : Exporter) (env : Env σ) (s : σ) (a : Aggregate) :
    Outcome × σ :=
  match newRequest env (e.endpoint ++ "/v1/objects") (e.body env a) with
  | none => (.panic "invalid memory address or nil pointer dereference", s)
  | some req =>
    match env.clientDo s req with
    | (.error err, s') => (.err err, s')
    | (.ok resp, s') => (interpret resp, s')

/-- What one `select` of `Start` observes: the context is done, an aggregate arrives, or the
input channel is closed. -/
inductive Event where
  | done
  | recv (a : Aggregate)
  | closed
deriving DecidableEq, Repr

/-- Where `Start` is after a sequence of events: it has returned (with its error value,
`none` for nil), it is waiting in the `select`, or it has panicked. -/
inductive Status where
  | returned (err : Option String)
  | waiting
  | panicked (msg : String)
deriving DecidableEq, Repr

/-- A run of `Start`: its status, the aggregates it called `upsert` on, in order, the lines it
logged, and the state of the outside world. -/
structure Run (σ : Type) where
  status : Status
  upserts : List Aggregate
  logged : List String
  world : σ

/-- `Start` runs the exporter, consuming aggregates until the input channel closes.  The
events are what the successive `select`s observe. -/
def Exporter.Start {σ : Type} (e : Exporter) (env : Env σ) : List Event → σ → Run σ
  | [], s => ⟨.waiting, [], [], s⟩
  | .done :: _, s => ⟨.returned none, [], [], s⟩
  | .closed :: _, s => ⟨.returned none, [], [], s⟩
  | .recv a :: rest, s =>
    match e.upsert env s a with
    | (.ok, s') =>
      let r := e.Start env rest s'
      { r with upserts := a :: r.upserts }
    | (.err msg, s') =>
      let r := e.Start env rest s'
      { r with upserts := a :: r.upserts,
               logged := ("weaviate exporter: upsert failed: " ++ msg) :: r.logged }
    | (.panic msg, s') => ⟨.panicked msg, [a], [], s'⟩

/-- The success criterion as the specification words it: 2xx, 409 or 422. -/
def specSuccess (status : Int) : Bool :=
  (200 ≤ status && status ≤ 299) || status == 409 || status == 422

/-! ### Sample values -/

/-- An exporter configuration that leaves `id_template` unset. -/
def sampleCfg : ExporterCfg :=
  { Type_ := "weaviate", Endpoint := "http://localhost:8080/", Class := "MiradorAggregate",
    IDTemplate := "" }

/-- The exporter `New sampleCfg` builds. -/
def sampleExporter : Exporter :=
  { endpoint := "http://localhost:8080", className := "MiradorAggregate",
    idTemplate :=
      [.field "Service", .text ":", .field "WindowStart", .text ":", .field "SummaryText"],
    clientTimeout := 10 }

/-- The aggregate of scenario S1 (p50 55, p95 105, p99 109, rps 10, error rate 0.15). -/
def sampleAggregate : Aggregate :=
  { Service := "payment-svc", WindowStart := 0, WindowEnd := 10,
    P50 := ⟨0x404b800000000000⟩, P95 := ⟨0x405a400000000000⟩, P99 := ⟨0x405b400000000000⟩,
    RPS := ⟨0x4024000000000000⟩, ErrorRate := ⟨0x3fc3333333333333⟩, Count := 100,
    Labels := some [("region", "eu")],
    SummaryText := "payment-svc p95=105ms rps=10 err=15% anomaly=0",
    Vector := [⟨0x3ff0000000000000⟩, ⟨0⟩], AnomalyScore := ⟨0⟩, Locator := "traces/payment-svc" }

/-- An aggregate with the service, window start and summary text of `sampleAggregate` and
every other field different. -/
def sampleTwin : Aggregate :=
  { Service := "payment-svc", WindowStart := 0, WindowEnd := 20,
    P50 := ⟨0x404b400000000000⟩, P95 := ⟨0x4034000000000000⟩, P99 := ⟨0x405a400000000000⟩,
    RPS := ⟨0x3fe0000000000000⟩, ErrorRate := ⟨0x3fc999999999999a⟩, Count := 7,
    Labels := none,
    SummaryText := "payment-svc p95=105ms rps=10 err=15% anomaly=0",
    Vector := [], AnomalyScore := ⟨0x3ff0000000000000⟩, Locator := "" }

/-- An aggregate of the same service and window as `sampleAggregate`, with another summary. -/
def sampleResummarised : Aggregate :=
  { sampleAggregate with SummaryText := "payment-svc p95=105ms rps=10 err=15% anomaly=1" }

/-- A store that answers every request with the given status, and libraries that accept
every URL passing `urlRejected`. -/
def replyWith (status : Int) : Env Unit :=
  { jsonMarshalLabels := fun _ => .ok "\x7b\x22region\x22:\x22eu\x22\x7d"
    urlParses := fun _ => true
    clientDo := fun s _ => (.ok { StatusCode := status, Body := "" }, s) }

/-- A configuration whose endpoint is written like a listen address, without a scheme. -/
def schemelessCfg : ExporterCfg :=
  { Type_ := "weaviate", Endpoint := ":8080", Class := "MiradorAggregate", IDTemplate := "" }

/-- The exporter `New schemelessCfg` builds. -/
def schemelessExporter : Exporter :=
  { sampleExporter with endpoint := ":8080" }

end Weaviate

/-! ## `internal/pipeline`: configuration, channels and byte buffers -/

namespace Pipeline

/-- Modelled from the spec: the envelope kinds `model.KindMetrics`, `model.KindTraces`,
`model.KindLogs`, `model.KindJSONLogs` (their declaration is not among the sources). -/
inductive Kind where
  | Metrics
  | Traces
  | Logs
  | JSONLogs
deriving DecidableEq, Repr

/-- Modelled from the spec: `model.Envelope`, `{Kind, Bytes, TSUnix}`.  `Bytes` is a slice
header: it is held as the address of its backing buffer in the heap of the `World`, so that
two envelopes share a buffer exactly when their `Bytes` are equal. -/
structure Envelope where
  Kind : Kind
  Bytes : Nat
  TSUnix : Int
deriving DecidableEq, Repr

/-- Modelled from the spec: `config.PipelineCfg`, the keys a pipeline lists. -/
structure PipelineCfg where
  Receivers : List String
  Processors : List String
  Exporters : List String
deriving DecidableEq, Repr

/-- Modelled from the spec: `config.ReceiverCfg`, as pipeline.go and the receivers read it:
the type tag, `Name`, `Endpoint`, and `Extra["kind"]` when it is present and a string. -/
structure ReceiverCfg where
  Type_ : String
  Name : String
  Endpoint : String
  ExtraKind : Option String
deriving DecidableEq, Repr

/-- Modelled from the spec: `config.ProcessorCfg`; pipeline.go reads only its type tag. -/
structure ProcessorCfg where
  Type_ : String
deriving DecidableEq, Repr

/-- Modelled from the spec: `config.Config`, the sections `receivers`, `processors`,
`exporters`, `pipelines`.  A Go map is held as the list of its entries, in the order `range`
visits them; its keys are distinct. -/
structure Config where
  Receivers : List (String × ReceiverCfg)
  Processors : List (String × ProcessorCfg)
  Exporters : List (String × ExporterCfg)
  Pipelines : List (String × PipelineCfg)
deriving DecidableEq, Repr

/-- The memory and the channels the fan-out tasks act on.
* `heap`: the byte buffers, a buffer's address being its index; `make` appends one.
* `closed`: the channels `close` has been called on.
* `sent`: every send that has completed, as (channel, envelope), oldest first. -/
structure World where
  heap : List (List Nat)
  closed : List Nat
  sent : List (Nat × Envelope)
deriving DecidableEq, Repr

/-- The bytes of the buffer at `addr`. -/
def World.bytes (w : World) (addr : Nat) : List Nat := w.heap.getD addr []

/-- The envelopes channel `ch` has been sent, oldest first. -/
def World.received (w : World) (ch : Nat) : List Envelope :=
  (w.sent.filter (fun p => p.1 == ch)).map Prod.snd

/-- `ch <- e`: a send on a closed channel panics. -/
def World.send (w : World) (ch : Nat) (e : Envelope) : Except String World :=
  if ch ∈ w.closed then .error "send on closed channel"
  else .ok { w with sent := w.sent ++ [(ch, e)] }

/-- `close(ch)`: closing a closed channel panics. -/
def World.close (w : World) (ch : Nat) : Except String World :=
  if ch ∈ w.closed then .error "close of closed channel"
  else .ok { w with closed := w.closed ++ [ch] }

/-- `cp := make([]byte, len(env.Bytes)); copy(cp, env.Bytes); e.Bytes = cp`: a new buffer
with the bytes of the envelope's buffer, and the envelope pointing at it. -/
def World.copyBytes (w : World) (env : Envelope) : Envelope × World :=
  ({ env with Bytes := w.heap.length }, { w with heap := w.heap ++ [w.bytes env.Bytes] })

/-- A subscriber of a receiver: the input channel of a pipeline and the pipeline's name. -/
structure RxSub where
  ch : Nat
  name : String
deriving DecidableEq, Repr

/-- `rxSubs[rkey] = append(rxSubs[rkey], sub)` on the map held as an entry list. -/
def appendSub : List (String × List RxSub) → String → RxSub → List (String × List RxSub)
  | [], rkey, sub => [(rkey, [sub])]
  | (k, subs) :: rest, rkey, sub =>
    if k = rkey then (k, subs ++ [sub]) :: rest else (k, subs) :: appendSub rest rkey sub

/-- `rxSubs[rkey]`: the subscriber list under a key, empty when the key is absent. -/
def lookupSubs : List (String × List RxSub) → String → List RxSub
  | [], _ => []
  | (k, subs) :: rest, rkey => if k = rkey then subs else lookupSubs rest rkey

/-- `pipelineInputs[pname] = ch` on the map held as an entry list. -/
def setInput : List (String × Nat) → String → Nat → List (String × Nat)
  | [], pname, ch => [(pname, ch)]
  | (k, c) :: rest, pname, ch =>
    if k = pname then (k, ch) :: rest else (k, c) :: setInput rest pname ch

/-- The tables phase 1 of `BuildAndRun` prepares: the subscribers of each receiver key, the
input channel of each pipeline, and the next channel `make` will return. -/
structure Inputs where
  rxSubs : List (String × List RxSub)
  pipelineInputs : List (String × Nat)
  nextChan : Nat
deriving DecidableEq, Repr

/-- The loop `for pname, p := range cfg.Pipelines` that prepares the per-pipeline input
channels: one new channel per pipeline, appended under every receiver key the pipeline
lists. -/
def prepareInputs : List (String × PipelineCfg) → Inputs → Inputs
  | [], st => st
  | (pname, p) :: rest, st =>
    let ch := st.nextChan
    prepareInputs rest
      { rxSubs := p.Receivers.foldl (fun m rkey => appendSub m rkey ⟨ch, pname⟩) st.rxSubs
        pipelineInputs := setInput st.pipelineInputs pname ch
        nextChan := ch + 1 }

/-- The subscription tables `BuildAndRun` computes for a configuration. -/
def subscriptions (cfg : Config) : Inputs := prepareInputs cfg.Pipelines ⟨[], [], 0⟩

/-- How a fan-out task ends: it has closed every subscriber channel; it returned from a
`select` because the context was done; it waits on a shared channel that is open and empty;
or it panicked. -/
inductive Exit where
  | closedAll
  | cancelled
  | waiting
  | panicked (msg : String)
deriving DecidableEq, Repr

/-- The inner loop `for i, sub := range subscribers` on one envelope, from index `i` on.
`k` counts the `select`s the task has executed, and `ctxDone k` tells whether the `select`
numbered `k` takes the case `<-ctx.Done()`.  The result is the exit, if the task ends here,
the new count and the new world. -/
def deliver (ctxDone : Nat → Bool) (env : Envelope) :
    List RxSub → Nat → Nat → World → Option Exit × Nat × World
  | [], _, k, w => (none, k, w)
  | sub :: rest, i, k, w =>
    let (e, w1) := if i > 0 then w.copyBytes env else (env, w)
    if ctxDone k then (some .cancelled, k + 1, w1)
    else
      match w1.send sub.ch e with
      | .error msg => (some (.panicked msg), k + 1, w1)
      | .ok w2 => deliver ctxDone env rest (i + 1) (k + 1) w2

/-- The loop `for _, sub := range subscribers { close(sub.ch) }`. -/
def closeAll : List RxSub → World → Exit × World
  | [], w => (.closedAll, w)
  | sub :: rest, w =>
    match w.close sub.ch with
    | .error msg => (.panicked msg, w)
    | .ok w1 => closeAll rest w1

/-- The fan-out task of `BuildAndRun` for one receiver: `envs` are the envelopes it reads
from the shared channel, `sharedClosed` tells whether the shared channel is closed after
them. -/
def fanOut (ctxDone : Nat → Bool) (subscribers : List RxSub) :
    List Envelope → Bool → Nat → World → Exit × World
  | [], sharedClosed, _, w => if sharedClosed then closeAll subscribers w else (.waiting, w)
  | env :: rest, sharedClosed, k, w =>
    match deliver ctxDone env subscribers 0 k w with
    | (some exit, _, w1) => (exit, w1)
    | (none, k1, w1) => fanOut ctxDone subscribers rest sharedClosed k1 w1

/-- The context is never done. -/
def never : Nat → Bool := fun _ => false

/-- `pipelineInputs[pname]`. -/
def lookupInput : List (String × Nat) → String → Option Nat
  | [], _ => none
  | (k, c) :: rest, pname => if k = pname then some c else lookupInput rest pname

/-- The envelopes the subscribers after the first are sent when nothing interferes: copies
of `env` whose buffers are the `n` addresses from `base` on. -/
def copiesFrom (env : Envelope) : Nat → Nat → List Envelope
  | _, 0 => []
  | base, n + 1 => { env with Bytes := base } :: copiesFrom env (base + 1) n

/-- The subscribers that the pipelines `pls`, given the channels `ch`, `ch + 1`, ..., add under
the receiver key `rkey`: each pipeline once per time it lists the key. -/
def subsOf (rkey : String) : List (String × PipelineCfg) → Nat → List RxSub
  | [], _ => []
  | (pname, p) :: rest, ch =>
    List.replicate (p.Receivers.count rkey) ⟨ch, pname⟩ ++ subsOf rkey rest (ch + 1)

/-! ### Phase 2: per-pipeline instances -/

/-- Modelled from the spec: the processor constructors (`spanmetrics.New`, `summarizer.New`,
`iforest.New`, `vectorizer.New`, `logsum.New`, `otlplogs.New`, `filter.New`) are not among the
sources; each call builds a new instance.  An instance is known by the address of the value
the constructor returned, with the key and type tag it was built for. -/
structure Instance where
  addr : Nat
  key : String
  typ : String
deriving DecidableEq, Repr

/-- An exporter instance: the address of the `*weaviate.Exporter` that `weaviate.New`
returned, the key it was built for, and the exporter; `none` stands for an exporter whose id
template is outside the embedded fragment of `text/template`. -/
structure ExporterInstance where
  addr : Nat
  key : String
  exporter : Option Weaviate.Exporter
deriving DecidableEq, Repr

/-- How a builder fails: it returns an error, or the process exits in `log.Fatalf`. -/
inductive Failure where
  | error (msg : String)
  | fatal (msg : String)
deriving DecidableEq, Repr

/-- The type tags `buildProcessors` has a case for. -/
def processorTypes : List String :=
  ["spanmetrics", "summarizer", "iforest", "vectorizer", "logsum", "otlplogs", "filter"]

/-- The loop of `buildProcessors` over the entries of `cfg.Processors`; `next` is the next
free address.  The result is the map built and the next free address. -/
def buildProcessorsFrom :
    List (String × ProcessorCfg) → Nat → Except Failure (List (String × Instance) × Nat)
  | [], next => .ok ([], next)
  | (key, pc) :: rest, next =>
    if pc.Type_ ∈ processorTypes then
      match buildProcessorsFrom rest (next + 1) with
      | .ok (proc, n) => .ok ((key, ⟨next, key, pc.Type_⟩) :: proc, n)
      | .error f => .error f
    else .error (.error ("unknown processor type \"" ++ pc.Type_ ++ "\" (key=" ++ key ++ ")"))

/-- `buildProcessors(cfg)`. -/
def buildProcessors (cfg : Config) (next : Nat) :
    Except Failure (List (String × Instance) × Nat) :=
  buildProcessorsFrom cfg.Processors next

/-- The call `weaviate.New(ec)` inside `buildExporters`: the exporter returned, or `none`
when `log.Fatalf` ends the process.  For an id template outside the embedded fragment,
`parses` tells whether `template.Parse` accepts it. -/
def newExporter (parses : String → Bool) (ec : ExporterCfg) :
    Option (Option Weaviate.Exporter) :=
  match Weaviate.New ec with
  | .exporter e => some (some e)
  | .fatal => none
  | .foreign => if parses (Weaviate.templateOf ec) then some none else none

/-- Whether `template.Parse` accepts the id template of an exporter entry: decided by the
embedding where it reaches, by `parses` elsewhere. -/
def templateParses (parses : String → Bool) (ec : ExporterCfg) : Bool :=
  (newExporter parses ec).isSome

/-- The loop of `buildExporters` over the entries of `cfg.Exporters`. -/
def buildExportersFrom (parses : String → Bool) :
    List (String × ExporterCfg) → Nat →
      Except Failure (List (String × ExporterInstance) × Nat)
  | [], next => .ok ([], next)
  | (key, ec) :: rest, next =>
    if ec.Type_ = "weaviate" then
      match newExporter parses ec with
      | none => .error (.fatal "weaviate exporter: invalid id_template")
      | some e =>
        match buildExportersFrom parses rest (next + 1) with
        | .ok (exp, n) => .ok ((key, ⟨next, key, e⟩) :: exp, n)
        | .error f => .error f
    else .error (.error ("unknown exporter type \"" ++ ec.Type_ ++ "\" (key=" ++ key ++ ")"))

/-- `buildExporters(cfg)`. -/
def buildExporters (parses : String → Bool) (cfg : Config) (next : Nat) :
    Except Failure (List (String × ExporterInstance) × Nat) :=
  buildExportersFrom parses cfg.Exporters next

/-- What phase 2 hands to one `runSinglePipeline` goroutine: the pipeline's name and
configuration, its input channel `pipelineInputs[pname]`, and the processor and exporter maps
built for it. -/
structure PipelineTask where
  name : String
  pl : PipelineCfg
  rxCh : Option Nat
  procs : List (String × Instance)
  exps : List (String × ExporterInstance)
deriving DecidableEq, Repr

/-- The outcome of phase 2: the goroutines started, in order, the failure that made
`BuildAndRun` return early, if any, and the next free address. -/
structure Started where
  tasks : List PipelineTask
  failure : Option Failure
  next : Nat
deriving DecidableEq, Repr

/-- Phase 2 of `BuildAndRun`, the loop `for pname, p := range cfg.Pipelines`: fresh processor
instances and fresh exporter instances for this pipeline, then its goroutine. -/
def startPipelines (parses : String → Bool) (cfg : Config) (inputs : List (String × Nat)) :
    List (String × PipelineCfg) → Nat → Started
  | [], next => ⟨[], none, next⟩
  | (pname, p) :: rest, next =>
    match buildProcessors cfg next with
    | .error f => ⟨[], some f, next⟩
    | .ok (pipelineProcs, n1) =>
      match buildExporters parses cfg n1 with
      | .error f => ⟨[], some f, n1⟩
      | .ok (pipelineExps, n2) =>
        let r := startPipelines parses cfg inputs rest n2
        { r with tasks := ⟨pname, p, lookupInput inputs pname, pipelineProcs, pipelineExps⟩
                            :: r.tasks }

/-- Phase 2 on the tables of phase 1; `next` is the first address phase 1 left free. -/
def phase2 (parses : String → Bool) (cfg : Config) (next : Nat) : Started :=
  startPipelines parses cfg (subscriptions cfg).pipelineInputs cfg.Pipelines next

/-- `procFactory[pkey]`. -/
def lookupProc : List (String × Instance) → String → Option Instance
  | [], _ => none
  | (k, inst) :: rest, pkey => if k = pkey then some inst else lookupProc rest pkey

/-- The processor instances `runSinglePipeline` starts for the keys a pipeline lists, in
order; `none` when a key is not found. -/
def resolveChain (procFactory : List (String × Instance)) : List String → Option (List Instance)
  | [] => some []
  | pkey :: rest =>
    match lookupProc procFactory pkey with
    | none => none
    | some inst => (resolveChain procFactory rest).map (inst :: ·)

/-- Modelled from the spec: a processor (`Processor.Start`, whose implementations are not
among the sources) consumes a sequence of values and produces a sequence of values, and
holds internal state (digests, counters, models) in its instance.  `step typ st v` is, for an
instance of type `typ` in state `st` that consumes `v`, its next state and the values it
emits. -/
structure Semantics (State Value : Type) where
  step : String → State → Value → State × List Value

/-- The state of every processor instance, by address. -/
abbrev Store (State : Type) := Nat → State

/-- The instance consumes `vs` in order; the store afterwards and what it emitted. -/
def feed {State Value : Type} (sem : Semantics State Value) (inst : Instance) :
    List Value → Store State → Store State × List Value
  | [], store => (store, [])
  | v :: vs, store =>
    let r := sem.step inst.typ (store inst.addr) v
    let rest := feed sem inst vs (fun a => if a = inst.addr then r.1 else store a)
    (rest.1, r.2 ++ rest.2)

/-- The stages of a pipeline in sequence: each instance consumes what the one before it
emitted.  The store afterwards and what the last stage emitted. -/
def runChain {State Value : Type} (sem : Semantics State Value) :
    List Instance → List Value → Store State → Store State × List Value
  | [], vs, store => (store, vs)
  | inst :: rest, vs, store =>
    let r := feed sem inst vs store
    runChain sem rest r.2 r.1

/-- The addresses of the instances a pipeline task was given. -/
def PipelineTask.addrs (t : PipelineTask) : List Nat :=
  t.procs.map (fun x => x.2.addr) ++ t.exps.map (fun x => x.2.addr)

/-! ### Sample values -/

/-- A world with one buffer, no channel closed and nothing sent. -/
def sampleWorld : World := { heap := [[0x0a, 0x03, 0x66, 0x6f, 0x6f]], closed := [], sent := [] }

/-- An envelope whose bytes are the buffer of `sampleWorld`. -/
def sampleEnvelope : Envelope := { Kind := .Metrics, Bytes := 0, TSUnix := 1700000000 }

/-- Three subscribers on three channels. -/
def sampleSubs : List RxSub := [⟨0, "metrics"⟩, ⟨1, "logs"⟩, ⟨2, "audit"⟩]

/-- The components the sample configurations share. -/
def sampleReceivers : List (String × ReceiverCfg) :=
  [("otlp", ⟨"otlpgrpc", "", ":4317", none⟩), ("kafka", ⟨"kafka", "", "broker:9092", none⟩)]

/-- The processors the sample configurations share. -/
def sampleProcessors : List (String × ProcessorCfg) :=
  [("spans", ⟨"spanmetrics"⟩), ("summarize", ⟨"summarizer"⟩), ("vectorize", ⟨"vectorizer"⟩)]

/-- One pipeline fed by two receivers. -/
def twoReceiverCfg : Config :=
  { Receivers := sampleReceivers, Processors := sampleProcessors,
    Exporters := [("weaviate", Weaviate.sampleCfg)],
    Pipelines := [("main", ⟨["otlp", "kafka"], ["spans", "summarize", "vectorize"],
                    ["weaviate"]⟩)] }

/-- One pipeline that lists the same receiver key twice. -/
def repeatedKeyCfg : Config :=
  { twoReceiverCfg with
    Pipelines := [("main", ⟨["otlp", "otlp"], ["spans", "summarize", "vectorize"],
                    ["weaviate"]⟩)] }

/-- Two pipelines sharing one receiver and the same processor keys (scenario S3). -/
def sharedReceiverCfg : Config :=
  { twoReceiverCfg with
    Pipelines := [("a", ⟨["otlp"], ["spans", "summarize", "vectorize"], ["weaviate"]⟩),
                  ("b", ⟨["otlp"], ["spans", "summarize", "vectorize"], ["weaviate"]⟩)] }

/-- A counting processor: its state is the number of values it has consumed, and it emits
that number. -/
def countingSemantics : Semantics Nat Nat :=
  { step := fun _ st _ => (st + 1, [st + 1]) }

end Pipeline

namespace Fmt

/-- The number a string of decimal digits denotes. -/
def digitsValue (ds : List Char) : Nat :=
  ds.foldl (fun acc c => acc * 10 + (c.toNat - 48)) 0

end Fmt

namespace Template

/-- `t.Execute(&sb, a)` as the writer sees it: the text in the writer when `Execute` returns,
the writer holding `sb` at the start, and whether `Execute` returned an error.  Text and
field values are written as they are reached; an action that fails stops the execution. -/
def ExecuteInto : List Node → Aggregate → String → String × Bool
  | [], _, sb => (sb, false)
  | .text s :: rest, a, sb => ExecuteInto rest a (sb ++ s)
  | .field name :: rest, a, sb =>
    match fieldText a name with
    | none => (sb, true)
    | some v => ExecuteInto rest a (sb ++ v)

end Template

namespace Weaviate

/-- A configuration whose id template names a field `Shard` that aggregates do not have. -/
def shardCfg : ExporterCfg :=
  { sampleCfg with IDTemplate := "id-{{.Service}}-{{.Shard}}" }

/-- The exporter `New shardCfg` builds. -/
def shardExporter : Exporter :=
  { sampleExporter with
    idTemplate := [.text "id-", .field "Service", .text "-", .field "Shard"] }

/-- The triple `("a", 1, "2:x")` in an aggregate. -/
def colonInSummary : Aggregate :=
  { sampleAggregate with Service := "a", WindowStart := 1, SummaryText := "2:x" }

/-- The triple `("a:1", 2, "x")` in an aggregate. -/
def colonInService : Aggregate :=
  { sampleAggregate with Service := "a:1", WindowStart := 2, SummaryText := "x" }

end Weaviate

namespace Weaviate

/-- An environment that behaves as `env` and keeps, beside the state of `env`, the requests
`client.Do` was given, oldest first. -/
def Env.recording {σ : Type} (env : Env σ) : Env (σ × List Request) :=
  { jsonMarshalLabels := env.jsonMarshalLabels
    urlParses := env.urlParses
    clientDo := fun st req => ((env.clientDo st.1 req).1, ((env.clientDo st.1 req).2,
      st.2 ++ [req])) }

/-- An aggregate whose p50 is a NaN, as the quantile of an empty digest is. -/
def sampleNaN : Aggregate := { sampleAggregate with P50 := ⟨0x7ff8000000000000⟩ }

/-- The keys of the `properties` map as the specification lists them. -/
def propertyKeys : List String :=
  ["summary", "service", "window_start", "window_end", "p50", "p95", "p99", "rps",
   "error_rate", "anomaly_score", "count", "labels", "locator"]

end Weaviate

namespace Pipeline

/-- The context is done at the `select` numbered `n` and at every later one. -/
def doneFrom (n : Nat) : Nat → Bool := fun k => decide (n ≤ k)

end Pipeline

/-! ## `internal/receivers/otlpgrpc` -/

namespace Otlpgrpc

open Pipeline

/-- The receiver: the address it listens on. -/
structure Receiver where
  endpoint : String
deriving DecidableEq, Repr

/-- `New` of otlpgrpc.go. -/
def New (rc : ReceiverCfg) : Receiver := { endpoint := rc.Endpoint }

/-- The metrics service: the channel it publishes on. -/
structure MetricsSvc where
  out : Nat
deriving DecidableEq, Repr

/-- The logs service: the channel it publishes on. -/
structure LogsSvc where
  out : Nat
deriving DecidableEq, Repr

/-- What `Export` returns: the response message, which has no field set, and the error,
`none` for nil. -/
structure ExportReturn where
  responseEmpty : Bool
  err : Option String
deriving DecidableEq, Repr

/-- What the send `s.out <- env` meets on the channel `out`: the capacity of the channel
(`make(chan model.Envelope, 64)` in `BuildAndRun`), the number of envelopes the task reading
the channel has taken from it so far, and whether that task takes another one. -/
structure Queue where
  capacity : Nat
  taken : Nat
  receiving : Bool
deriving DecidableEq, Repr

/-- The envelopes buffered in the channel `out`: those sent on it and not yet taken. -/
def Queue.buffered (q : Queue) (w : World) (out : Nat) : Nat :=
  (w.received out).length - q.taken

/-- Whether a send on the open channel `out` completes: the buffer has a free slot, or a
receive frees one.  `Export` sends outside any `select`: it has no `<-ctx.Done()` case to
leave by. -/
def Queue.accepts (q : Queue) (w : World) (out : Nat) : Bool :=
  decide (q.buffered w out < q.capacity) || q.receiving

/-- How a send ends: it completed, it panicked, or it never completes. -/
inductive Sent where
  | done (w : World)
  | panicked (msg : String)
  | blocked (w : World)
deriving DecidableEq, Repr

/-- How a call of `Export` ends: it returned, it panicked, or it never returns. -/
inductive Served where
  | returned (ret : ExportReturn) (w : World)
  | panicked (msg : String)
  | blocked (w : World)
deriving DecidableEq, Repr

/-- `Envelope{Kind: kind, Bytes: b, TSUnix: now}` sent on `out`: the bytes `b` that
`proto.Marshal` returned are a buffer of their own, the envelope points at it.  A send on a
closed channel panics; a send on a full channel that nothing receives from never completes. -/
def publish (kind : Kind) (b : List Nat) (now : Int) (out : Nat) (q : Queue) (w : World) :
    Sent :=
  match ({ w with heap := w.heap ++ [b] } : World).send out
      { Kind := kind, Bytes := w.heap.length, TSUnix := now } with
  | .error msg => .panicked msg
  | .ok w1 =>
    if q.accepts w out then .done w1 else .blocked { w with heap := w.heap ++ [b] }

/-- `metricsSvc.Export`: `b` is what `proto.Marshal(req)` returns (its error is discarded),
`now` is `time.Now().Unix()`. -/
def MetricsSvc.Export (s : MetricsSvc) (b : List Nat) (now : Int) (q : Queue) (w : World) :
    Served :=
  match publish .Metrics b now s.out q w with
  | .panicked msg => .panicked msg
  | .blocked w1 => .blocked w1
  | .done w1 => .returned { responseEmpty := true, err := none } w1

/-- `logsSvc.Export`: `b` is what `proto.Marshal(req)` returns (its error is discarded),
`now` is `time.Now().Unix()`. -/
def LogsSvc.Export (s : LogsSvc) (b : List Nat) (now : Int) (q : Queue) (w : World) :
    Served :=
  match publish .JSONLogs b now s.out q w with
  | .panicked msg => .panicked msg
  | .blocked w1 => .blocked w1
  | .done w1 => .returned { responseEmpty := true, err := none } w1

/-- The gRPC server `Start` builds: only the metrics service and the logs service are
registered on it, both publishing on `out`. -/
structure Server where
  metrics : MetricsSvc
  logs : LogsSvc
deriving DecidableEq, Repr

/-- The address `Start` listens on: the endpoint, `:4317` when it is empty. -/
def Receiver.addr (r : Receiver) : String := if r.endpoint = "" then ":4317" else r.endpoint

/-- `Start` up to the point where it serves: `listenErr` is the error of `net.Listen`, which
`Start` returns; otherwise the server with the two services registered. -/
def Receiver.Start (_r : Receiver) (listenErr : Option String) (out : Nat) :
    Except String Server :=
  match listenErr with
  | some err => .error err
  | none => .ok { metrics := { out := out }, logs := { out := out } }

/-- A call the server dispatches to a registered service, with what `proto.Marshal` returns
for its request. -/
inductive Call where
  | metricsExport (b : List Nat)
  | logsExport (b : List Nat)
deriving DecidableEq, Repr

/-- The server handles a call by the `Export` of the service it is addressed to; `q` is the
state of the output channel when the call sends. -/
def Server.handle (srv : Server) (call : Call) (now : Int) (q : Queue) (w : World) : Served :=
  match call with
  | .metricsExport b => srv.metrics.Export b now q w
  | .logsExport b => srv.logs.Export b now q w

/-- The kind the claim gives for each call: `Metrics` for the metrics service, `JSONLogs`
for the logs service. -/
def Call.kind : Call → Kind
  | .metricsExport _ => .Metrics
  | .logsExport _ => .JSONLogs

/-- The serialized request of a call. -/
def Call.bytes : Call → List Nat
  | .metricsExport b => b
  | .logsExport b => b

/-- A world in which 64 envelopes have been sent on channel 0. -/
def fullWorld : World := { sampleWorld with sent := List.replicate 64 (0, sampleEnvelope) }

end Otlpgrpc

/-! ## `internal/pipeline`: the factory builders, phase 1 and `runSinglePipeline` -/

namespace Pipeline

/-- The constructor a receiver was built by, with the `kind` argument of the Kafka and
Pulsar constructors. -/
inductive ReceiverCtor where
  | otlpgrpc
  | otlphttp
  | kafka (kind : String)
  | pulsar (kind : String)
  | promrw
  | jsonlogsHTTP
  | jsonlogsKafka
deriving DecidableEq, Repr

/-- Modelled from the spec: the receiver constructors other than `otlpgrpc.New`
(`otlphttp.New`, `kafka.New`, `pulsar.New`, `promrw.New`, `jl.NewHTTP`, `jl.NewKafka`) are not
among the sources; each call builds a new instance.  An instance is known by the address of
the value the constructor returned, with the key and the constructor it was built by. -/
structure ReceiverInstance where
  addr : Nat
  key : String
  ctor : ReceiverCtor
deriving DecidableEq, Repr

/-- The `kind` of a Kafka or Pulsar receiver: `metrics` unless `Extra["kind"]` is a
non-empty string. -/
def kindOf (rc : ReceiverCfg) : String :=
  match rc.ExtraKind with
  | some v => if v ≠ "" then v else "metrics"
  | none => "metrics"

/-- The `switch rc.Type` of `buildReceivers` for the entry `key`: the constructor called, or
the error returned. -/
def receiverCtor (key : String) (rc : ReceiverCfg) : Except String ReceiverCtor :=
  if rc.Type_ = "otlpgrpc" then .ok .otlpgrpc
  else if rc.Type_ = "otlphttp" then .ok .otlphttp
  else if rc.Type_ = "kafka" then .ok (.kafka (kindOf rc))
  else if rc.Type_ = "pulsar" then .ok (.pulsar (kindOf rc))
  else if rc.Type_ = "promremotewrite" ∨ rc.Type_ = "promrw" then .ok .promrw
  else if rc.Type_ = "jsonlogs" then
    if rc.Name = "http" then .ok .jsonlogsHTTP
    else if rc.Name = "kafka" then .ok .jsonlogsKafka
    else .error ("jsonlogs receiver name \"" ++ rc.Name ++ "\" not supported (want http|kafka)")
  else .error ("unknown receiver type \"" ++ rc.Type_ ++ "\" (key=" ++ key ++ ")")

/-- The loop of `buildReceivers` over the entries of `cfg.Receivers`; `next` is the next
free address. -/
def buildReceiversFrom :
    List (String × ReceiverCfg) → Nat →
      Except Failure (List (String × ReceiverInstance) × Nat)
  | [], next => .ok ([], next)
  | (key, rc) :: rest, next =>
    match receiverCtor key rc with
    | .error msg => .error (.error msg)
    | .ok ctor =>
      match buildReceiversFrom rest (next + 1) with
      | .ok (rx, n) => .ok ((key, ⟨next, key, ctor⟩) :: rx, n)
      | .error f => .error f

/-- `buildReceivers(cfg)`. -/
def buildReceivers (cfg : Config) (next : Nat) :
    Except Failure (List (String × ReceiverInstance) × Nat) :=
  buildReceiversFrom cfg.Receivers next

/-- The receiver entries the specification recognises: type otlpgrpc, otlphttp, kafka,
pulsar, promremotewrite or promrw, or type jsonlogs with name http or kafka. -/
def recognisedReceiver (rc : ReceiverCfg) : Bool :=
  rc.Type_ ∈ ["otlpgrpc", "otlphttp", "kafka", "pulsar", "promremotewrite", "promrw"] ||
    (rc.Type_ == "jsonlogs" && (rc.Name == "http" || rc.Name == "kafka"))

/-- `rxFactory[rkey]`. -/
def lookupReceiver : List (String × ReceiverInstance) → String → Option ReceiverInstance
  | [], _ => none
  | (k, r) :: rest, rkey => if k = rkey then some r else lookupReceiver rest rkey

/-- What phase 1 starts for one receiver key: the goroutine `rr.Start(ctx, shared)` of the
receiver found under the key, on a new shared channel, and the fan-out goroutine from that
channel to the subscribers. -/
structure ReceiverTask where
  key : String
  receiver : ReceiverInstance
  shared : Nat
  subscribers : List RxSub
deriving DecidableEq, Repr

/-- The outcome of the loop that starts the receivers: the tasks started, in order, the
error that made `BuildAndRun` return, if any, and the next channel `make` will return. -/
structure Phase1 where
  started : List ReceiverTask
  failure : Option Failure
  nextChan : Nat
deriving DecidableEq, Repr

/-- The loop `for rkey, subs := range rxSubs` of phase 1. -/
def startReceivers (rxFactory : List (String × ReceiverInstance)) :
    List (String × List RxSub) → Nat → Phase1
  | [], next => ⟨[], none, next⟩
  | (rkey, subs) :: rest, next =>
    match lookupReceiver rxFactory rkey with
    | none => ⟨[], some (.error ("receiver \"" ++ rkey ++ "\" not found")), next⟩
    | some r =>
      let p := startReceivers rxFactory rest (next + 1)
      { p with started := ⟨rkey, r, next, subs⟩ :: p.started }

/-- What `BuildAndRun` has started when it begins to wait for the pipelines, or when it
returns early: the receiver tasks, the pipeline tasks, and the failure that made it return
early, if any. -/
structure Build where
  receivers : List ReceiverTask
  pipelines : List PipelineTask
  failure : Option Failure
deriving DecidableEq, Repr

/-- `BuildAndRun` up to its wait for the pipelines: the receiver factory, phase 1 and
phase 2, each of which can make it return early.  `parses` is `template.Parse` on the id
templates outside the embedded fragment (see `newExporter`). -/
def BuildAndRun (parses : String → Bool) (cfg : Config) : Build :=
  match buildReceivers cfg 0 with
  | .error f => ⟨[], [], some f⟩
  | .ok (rxFactory, next) =>
    let inputs := subscriptions cfg
    let p1 := startReceivers rxFactory inputs.rxSubs inputs.nextChan
    match p1.failure with
    | some f => ⟨p1.started, [], some f⟩
    | none =>
      let p2 := phase2 parses cfg next
      ⟨p1.started, p2.tasks, p2.failure⟩

/-- Whether the shared channel of a receiver task closes once the receiver has returned.
`otlpgrpc.Start`, the one receiver among the sources, waits for the context and returns
without closing `out`, and `BuildAndRun` does not close `shared` after `Start` either: the
shared channel of an `otlpgrpc` receiver never closes.  Modelled from the spec: the `Start`
of the other receivers is not among the sources; by the closure rule of the fan-out ("when
the shared output channel closes (receiver returned normally)") such a receiver closes its
output channel when it returns, and `returned r` tells whether the receiver `r` has. -/
def ReceiverTask.sharedCloses (returned : ReceiverInstance → Bool) (t : ReceiverTask) : Bool :=
  match t.receiver.ctor with
  | .otlpgrpc => false
  | _ => returned t.receiver

/-- The fan-out tasks of the given receiver tasks, run to their end one after the other in
the order given, none with an envelope left to read: the panic that ends the process, if a
task panics, and the world afterwards. -/
def windDown (returned : ReceiverInstance → Bool) :
    List ReceiverTask → World → Option String × World
  | [], w => (none, w)
  | t :: rest, w =>
    match fanOut never t.subscribers [] (t.sharedCloses returned) 0 w with
    | (.panicked msg, w1) => (some msg, w1)
    | (_, w1) => windDown returned rest w1

/-- The keys some pipeline lists under `receivers`. -/
def referencedReceivers (cfg : Config) : List String :=
  cfg.Pipelines.flatMap (fun x => x.2.Receivers)

/-- `expFactory[ekey]`. -/
def lookupExporter : List (String × ExporterInstance) → String → Option ExporterInstance
  | [], _ => none
  | (k, e) :: rest, ekey => if k = ekey then some e else lookupExporter rest ekey

/-- The loop of `runSinglePipeline` that starts one goroutine per processor key: the
instances started, in order, or the error returned at the first key not found. -/
def startProcessors (procFactory : List (String × Instance)) :
    List String → Except String (List Instance)
  | [] => .ok []
  | pkey :: rest =>
    match lookupProc procFactory pkey with
    | none => .error ("processor \"" ++ pkey ++ "\" not found")
    | some p =>
      match startProcessors procFactory rest with
      | .ok chain => .ok (p :: chain)
      | .error msg => .error msg

/-- The loop of `runSinglePipeline` that starts one goroutine per exporter key, each on an
input channel of its own: the instances started, in order, or the error returned at the
first key not found. -/
def startExporters (expFactory : List (String × ExporterInstance)) :
    List String → Except String (List ExporterInstance)
  | [] => .ok []
  | ekey :: rest =>
    match lookupExporter expFactory ekey with
    | none => .error ("exporter \"" ++ ekey ++ "\" not found")
    | some e =>
      match startExporters expFactory rest with
      | .ok exps => .ok (e :: exps)
      | .error msg => .error msg

/-- The stages `runSinglePipeline` has wired when it begins to wait: the processor chain and
the exporters; the exporter at index `i` reads the input channel `i`. -/
structure Stages where
  chain : List Instance
  exporters : List ExporterInstance
deriving DecidableEq, Repr

/-- The wiring part of `runSinglePipeline`: processors first, then exporters. -/
def wire (pl : PipelineCfg) (procFactory : List (String × Instance))
    (expFactory : List (String × ExporterInstance)) : Except String Stages :=
  match startProcessors procFactory pl.Processors with
  | .error msg => .error msg
  | .ok chain =>
    match startExporters expFactory pl.Exporters with
    | .error msg => .error msg
    | .ok exps => .ok ⟨chain, exps⟩

/-- How a call stands: it has returned, with its error value (`none` for nil), or it waits. -/
inductive Ret where
  | returned (err : Option String)
  | waiting
deriving DecidableEq, Repr

/-- `runSinglePipeline`: an error when a key is not found; otherwise it blocks until the
context is done (`ctxDone`) and returns nil. -/
def runSinglePipeline (pl : PipelineCfg) (procFactory : List (String × Instance))
    (expFactory : List (String × ExporterInstance)) (ctxDone : Bool) : Ret :=
  match wire pl procFactory expFactory with
  | .error msg => .returned (some msg)
  | .ok _ => if ctxDone then .returned none else .waiting

/-- A value on the `chan any` between the stages: an envelope, a `model.Aggregate`, or a
value of any other type. -/
inductive Value where
  | envelope (e : Envelope)
  | aggregate (a : Aggregate)
  | other (typeName : String)
deriving DecidableEq, Repr

/-- Whether a value is a `model.Aggregate`. -/
def Value.isAggregate : Value → Bool
  | .aggregate _ => true
  | _ => false

/-- The bridge goroutine: of the values read from the last stage, those that are a
`model.Aggregate` go to `finalAgg`, in order. -/
def bridge : List Value → List Aggregate
  | [] => []
  | v :: rest =>
    match v with
    | .aggregate a => a :: bridge rest
    | _ => bridge rest

/-- The inner loop of the dispatcher on one aggregate: `sent` collects (exporter input,
aggregate), `k` counts the `select`s; the first component tells whether a `select` took the
case `<-ctx.Done()`. -/
def broadcast (ctxDone : Nat → Bool) (a : Aggregate) :
    List Nat → Nat → List (Nat × Aggregate) → Bool × Nat × List (Nat × Aggregate)
  | [], k, sent => (false, k, sent)
  | ch :: rest, k, sent =>
    if ctxDone k then (true, k + 1, sent)
    else broadcast ctxDone a rest (k + 1) (sent ++ [(ch, a)])

/-- A run of the dispatcher goroutine: whether it has returned, the sends it made, and the
exporter inputs closed by its deferred function. -/
structure Dispatch where
  returned : Bool
  sent : List (Nat × Aggregate)
  closed : List Nat
deriving DecidableEq, Repr

/-- The dispatcher goroutine: `as` are the aggregates it reads from `finalAgg`,
`finalClosed` tells whether `finalAgg` is closed after them.  On return, by cancellation or
at the end of `finalAgg`, the deferred function closes every exporter input. -/
def dispatcher (ctxDone : Nat → Bool) (expInputs : List Nat) :
    List Aggregate → Bool → Nat → List (Nat × Aggregate) → Dispatch
  | [], finalClosed, _, sent =>
    if finalClosed then ⟨true, sent, expInputs⟩ else ⟨false, sent, []⟩
  | a :: rest, finalClosed, k, sent =>
    match broadcast ctxDone a expInputs k sent with
    | (true, _, sent1) => ⟨true, sent1, expInputs⟩
    | (false, k1, sent1) => dispatcher ctxDone expInputs rest finalClosed k1 sent1

/-- What the exporter on input `i` is sent, oldest first. -/
def Dispatch.received (d : Dispatch) (i : Nat) : List Aggregate :=
  (d.sent.filter (fun p => p.1 == i)).map Prod.snd

/-! ### Sample values -/

/-- One pipeline fed by a Kafka receiver and a Pulsar receiver. -/
def queueReceiversCfg : Config :=
  { twoReceiverCfg with
    Receivers := [("kafka", ⟨"kafka", "", "broker:9092", none⟩),
                  ("pulsar", ⟨"pulsar", "", "pulsar://broker:6650", none⟩)]
    Pipelines := [("main", ⟨["kafka", "pulsar"], ["spans", "summarize", "vectorize"],
                    ["weaviate"]⟩)] }

/-- One pipeline that lists its Kafka receiver twice. -/
def repeatedQueueCfg : Config :=
  { queueReceiversCfg with
    Pipelines := [("main", ⟨["kafka", "kafka"], ["spans", "summarize", "vectorize"],
                    ["weaviate"]⟩)] }

/-- A configuration whose pipeline lists a receiver key that is not defined. -/
def danglingReceiverCfg : Config :=
  { twoReceiverCfg with
    Pipelines := [("main", ⟨["otlp", "pulsar"], ["spans", "summarize", "vectorize"],
                    ["weaviate"]⟩)] }

/-- A configuration with a receiver that no pipeline lists. -/
def spareReceiverCfg : Config :=
  { sharedReceiverCfg with
    Receivers := sampleReceivers ++ [("logs", ⟨"jsonlogs", "http", ":8081", none⟩)] }

/-- A configuration whose one exporter has an id template with an unclosed action. -/
def unclosedTemplateCfg : Config :=
  { twoReceiverCfg with
    Exporters := [("weaviate", { Weaviate.sampleCfg with IDTemplate := "\x7b\x7b.Service" })] }

/-- A configuration whose one exporter has the id template `{{.Count}}`: a field of the
aggregate whose printed form is not embedded. -/
def countTemplateCfg : Config :=
  { twoReceiverCfg with
    Exporters := [("weaviate", { Weaviate.sampleCfg with IDTemplate := "{{.Count}}" })] }

/-- A configuration with a processor of a type `buildProcessors` has no case for. -/
def unknownProcessorCfg : Config :=
  { twoReceiverCfg with Processors := sampleProcessors ++ [("dedupe", ⟨"dedup"⟩)] }

end Pipeline

/-! ## `pkg/backend` and `cmd/plugin`: the Grafana plugin

A Go pointer is an `Option` here: `none` is nil, and reading a field through nil panics.  A
method with a pointer receiver may be called on nil; it panics where it first reads a field.
-/

namespace Backend

/-- How a call ends: it returns a value, or it panics. -/
inductive Run (α : Type) where
  | returned (v : α)
  | panic (msg : String)
deriving DecidableEq, Repr

/-- The runtime error of reading a field through a nil pointer. -/
def nilDereference : String := "invalid memory address or nil pointer dereference"

/-- The `time.Time` that `time.Unix(int64(t), 0)` builds from a decoded float `t`. -/
structure Time where
  unixOf : Float64
deriving DecidableEq, Repr

/-- `Metric` represents a single metric data point. -/
structure Metric where
  Timestamp : Time
  Value : Float64
  Labels : List (String × String)
deriving DecidableEq, Repr

/-- `Log` represents a single log entry. -/
structure Log where
  Timestamp : Time
  Message : String
  Level : String
  Labels : List (String × String)
deriving DecidableEq, Repr

/-- `Trace` represents a single trace. -/
structure Trace where
  Timestamp : Time
  TraceID : String
  SpanID : String
  Service : String
  Operation : String
  Duration : Float64
  Labels : List (String × String)
deriving DecidableEq, Repr

/-- The fields of `Client` that its methods branch on.  The fields `httpClient` and `logger`
hold the non-nil values `NewClient` stores in every `Client` there is, and are left out. -/
structure Client where
  baseURL : String
  authToken : String
deriving DecidableEq, Repr

/-- What `NewClient` reads of `backend.DataSourceInstanceSettings`. -/
structure DataSourceInstanceSettings where
  JSONData : String
  DecryptedSecureJSONData : List (String × String)
deriving DecidableEq, Repr

/-- A GET request: the URL given to `http.NewRequestWithContext`, the query parameters set
with `q.Set` in the order of the calls, and the `Authorization` header if one is set. -/
structure Request where
  method : String
  url : String
  query : List (String × String)
  authorization : Option String
deriving DecidableEq, Repr

/-- What the client reads of an `http.Response`. -/
structure Response where
  StatusCode : Int
  Body : String
deriving DecidableEq, Repr

/-- One element of `data.result` in the answer to a metrics query: pairs of `t` and `v`, and
the labels. -/
structure MetricSeries where
  Values : List (Float64 × Float64)
  Labels : List (String × String)
deriving DecidableEq, Repr

/-- One element of `data.result` in the answer to a logs query. -/
structure LogEntry where
  Time : Float64
  Message : String
  Level : String
  Labels : List (String × String)
deriving DecidableEq, Repr

/-- One element of `data.result` in the answer to a traces query. -/
structure TraceEntry where
  Time : Float64
  TraceID : String
  SpanID : String
  Service : String
  Operation : String
  Duration : Float64
  Labels : List (String × String)
deriving DecidableEq, Repr

/-- `QueryModel` represents query parameters sent from the frontend. -/
structure QueryModel where
  QueryType : String
  Expr : String
  From : String
  To : String
deriving DecidableEq, Repr

/-- The libraries and the network the plugin runs against; `σ` is the state of the outside
world (Mirador Core).
* `unmarshalSettings` is `json.Unmarshal(settings.JSONData, &jsonData)`: the error, or the
  `baseURL` read;
* `unmarshalQuery` is `json.Unmarshal(q.JSON, &qm)`;
* `urlParse` is the error with which `http.NewRequestWithContext` rejects a URL, if it does;
* `clientDo` is `c.httpClient.Do(req)`: a transport error or a response, and the next state;
* `decodeMetrics`, `decodeLogs`, `decodeTraces` are `json.NewDecoder(resp.Body).Decode` at
  the three result types. -/
structure Net (σ : Type) where
  unmarshalSettings : String → Except String String
  unmarshalQuery : String → Except String QueryModel
  urlParse : String → Option String
  clientDo : σ → Request → Except String Response × σ
  decodeMetrics : String → Except String (List MetricSeries)
  decodeLogs : String → Except String (List LogEntry)
  decodeTraces : String → Except String (List TraceEntry)

/-- `NewClient` creates a new Mirador Core API client; a missing `authToken` secret reads as
the empty string. -/
def NewClient {σ : Type} (net : Net σ) (settings : DataSourceInstanceSettings) :
    Except String Client :=
  match net.unmarshalSettings settings.JSONData with
  | .error e => .error ("invalid settings: " ++ e)
  | .ok baseURL =>
    if baseURL = "" then .error "baseURL is required"
    else
      .ok { baseURL := baseURL
            authToken := (List.lookup "authToken" settings.DecryptedSecureJSONData).getD "" }

/-- `http.NewRequestWithContext(ctx, "GET", url, nil)`. -/
def newRequest {σ : Type} (net : Net σ) (url : String) : Except String Request :=
  match net.urlParse url with
  | some e => .error e
  | none => .ok { method := "GET", url := url, query := [], authorization := none }

/-- The `Authorization` header, set when the client has a token. -/
def authorize (c : Client) (req : Request) : Request :=
  if c.authToken ≠ "" then { req with authorization := some ("Bearer " ++ c.authToken) }
  else req

/-- `Client.CheckHealth` verifies the connection to Mirador Core: `none` is a nil error.
On a nil receiver the first statement reads `c.baseURL` and panics, before any request is
built. -/
def Client.CheckHealth {σ : Type} (net : Net σ) (s : σ) :
    Option Client → Run (Option String) × σ
  | none => (.panic nilDereference, s)
  | some c =>
    match newRequest net (c.baseURL ++ "/health") with
    | .error e => (.returned (some ("failed to create request: " ++ e)), s)
    | .ok req =>
      match net.clientDo s (authorize c req) with
      | (.error e, s1) => (.returned (some ("failed to execute request: " ++ e)), s1)
      | (.ok resp, s1) =>
        if resp.StatusCode ≠ 200 then
          (.returned
            (some ("health check failed with status " ++ Fmt.formatInt resp.StatusCode)), s1)
        else (.returned none, s1)

/-- The part `GetMetrics`, `GetLogs` and `GetTraces` have in common, on a non-nil client:
build the request for `path`, set `query`, `start` and `end`, authorize, send, and check for
status 200. -/
def Client.send {σ : Type} (net : Net σ) (s : σ) (c : Client) (path expr from_ to_ : String) :
    Except String Response × σ :=
  match newRequest net (c.baseURL ++ path) with
  | .error e => (.error ("failed to create request: " ++ e), s)
  | .ok req =>
    match net.clientDo s
        (authorize c { req with query := [("query", expr), ("start", from_), ("end", to_)] }) with
    | (.error e, s1) => (.error ("failed to execute request: " ++ e), s1)
    | (.ok resp, s1) =>
      if resp.StatusCode ≠ 200 then
        (.error ("query failed with status " ++ Fmt.formatInt resp.StatusCode), s1)
      else (.ok resp, s1)

/-- `GetMetrics` performs a metrics query against Mirador Core.  On a nil receiver the first
statement reads `c.baseURL` and panics. -/
def Client.GetMetrics {σ : Type} (net : Net σ) (s : σ) (expr from_ to_ : String) :
    Option Client → Run (Except String (List Metric)) × σ
  | none => (.panic nilDereference, s)
  | some c =>
    match Client.send net s c "/api/v1/query_range" expr from_ to_ with
    | (.error e, s1) => (.returned (.error e), s1)
    | (.ok resp, s1) =>
      match net.decodeMetrics resp.Body with
      | .error e => (.returned (.error ("failed to decode response: " ++ e)), s1)
      | .ok result =>
        (.returned (.ok (result.flatMap fun res =>
          res.Values.map fun val =>
            { Timestamp := ⟨val.1⟩, Value := val.2, Labels := res.Labels })), s1)

/-- `GetLogs` performs a logs query against Mirador Core.  On a nil receiver the first
statement reads `c.baseURL` and panics. -/
def Client.GetLogs {σ : Type} (net : Net σ) (s : σ) (expr from_ to_ : String) :
    Option Client → Run (Except String (List Log)) × σ
  | none => (.panic nilDereference, s)
  | some c =>
    match Client.send net s c "/api/v1/logs" expr from_ to_ with
    | (.error e, s1) => (.returned (.error e), s1)
    | (.ok resp, s1) =>
      match net.decodeLogs resp.Body with
      | .error e => (.returned (.error ("failed to decode response: " ++ e)), s1)
      | .ok result =>
        (.returned (.ok (result.map fun res =>
          { Timestamp := ⟨res.Time⟩, Message := res.Message, Level := res.Level,
            Labels := res.Labels })), s1)

/-- `GetTraces` performs a traces query against Mirador Core.  On a nil receiver the first
statement reads `c.baseURL` and panics. -/
def Client.GetTraces {σ : Type} (net : Net σ) (s : σ) (expr from_ to_ : String) :
    Option Client → Run (Except String (List Trace)) × σ
  | none => (.panic nilDereference, s)
  | some c =>
    match Client.send net s c "/api/v1/traces" expr from_ to_ with
    | (.error e, s1) => (.returned (.error e), s1)
    | (.ok resp, s1) =>
      match net.decodeTraces resp.Body with
      | .error e => (.returned (.error ("failed to decode response: " ++ e)), s1)
      | .ok result =>
        (.returned (.ok (result.map fun res =>
          { Timestamp := ⟨res.Time⟩, TraceID := res.TraceID, SpanID := res.SpanID,
            Service := res.Service, Operation := res.Operation, Duration := res.Duration,
            Labels := res.Labels })), s1)

/-- `Plugin` handles the plugin lifecycle; `client` is a `*Client`.  The `logger` field holds
`log.DefaultLogger` in every plugin `New` makes and is left out. -/
structure Plugin where
  client : Option Client
deriving DecidableEq, Repr

/-- The instance value `NewDataSourceInstance` returns. -/
structure instanceSettings where
  client : Option Client
deriving DecidableEq, Repr

/-- `New` creates a new `Plugin`: the composite literal sets `logger` only, so `client` is
the zero value of its type, nil. -/
def New : Plugin := { client := none }

/-- `NewDataSourceInstance` creates an instance for a datasource: the client `NewClient`
returns is stored in the new `instanceSettings`; the plugin `p` is only read for its logger. -/
def Plugin.NewDataSourceInstance {σ : Type} (_p : Plugin) (net : Net σ)
    (settings : DataSourceInstanceSettings) : Except String instanceSettings :=
  match NewClient net settings with
  | .error e => .error e
  | .ok client => .ok { client := some client }

/-- `backend.HealthStatus`. -/
inductive HealthStatus where
  | Unknown
  | Ok
  | Error
deriving DecidableEq, Repr

/-- `backend.CheckHealthResult`. -/
structure CheckHealthResult where
  Status : HealthStatus
  Message : String
deriving DecidableEq, Repr

/-- `backend.CheckHealthRequest`; `CheckHealth` reads nothing of it. -/
structure CheckHealthRequest where
  Headers : List (String × String)
deriving DecidableEq, Repr

/-- `Plugin.CheckHealth` handles health checks sent from Grafana: the result and the error
returned (`none` is nil).  It calls `p.client.CheckHealth(ctx)` whatever `p.client` is. -/
def Plugin.CheckHealth {σ : Type} (p : Plugin) (net : Net σ) (s : σ)
    (_req : CheckHealthRequest) : Run (CheckHealthResult × Option String) × σ :=
  match Client.CheckHealth net s p.client with
  | (.panic msg, s1) => (.panic msg, s1)
  | (.returned (some err), s1) =>
    (.returned ({ Status := .Error, Message := "Error connecting to Mirador Core: " ++ err },
      none), s1)
  | (.returned none, s1) =>
    (.returned ({ Status := .Ok, Message := "Success: Connected to Mirador Core" }, none), s1)

/-- A value in a row of a `data.Frame`. -/
inductive Cell where
  | time (t : Time)
  | number (v : Float64)
  | text (v : String)
deriving DecidableEq, Repr

/-- A `data.Frame`: its name, the names of its fields, and its rows. -/
structure Frame where
  Name : String
  Fields : List String
  Rows : List (List Cell)
deriving DecidableEq, Repr

/-- `backend.DataResponse`; `Status` is 0 when not set. -/
structure DataResponse where
  Frames : List Frame
  Error : Option String
  Status : Nat
deriving DecidableEq, Repr

/-- `backend.ErrDataResponse(backend.StatusBadRequest, msg)`. -/
def errBadRequest (msg : String) : DataResponse :=
  { Frames := [], Error := some msg, Status := 400 }

/-- `backend.DataQuery`, as far as `QueryData` reads it. -/
structure DataQuery where
  RefID : String
  JSON : String
deriving DecidableEq, Repr

/-- `handleMetricsQuery`: one frame with the fields `time` and `value`. -/
def Plugin.handleMetricsQuery {σ : Type} (p : Plugin) (net : Net σ) (s : σ) (_query : DataQuery)
    (model : QueryModel) : Run DataResponse × σ :=
  match Client.GetMetrics net s model.Expr model.From model.To p.client with
  | (.panic msg, s1) => (.panic msg, s1)
  | (.returned (.error err), s1) =>
    (.returned (errBadRequest ("metrics query failed: " ++ err)), s1)
  | (.returned (.ok metrics), s1) =>
    (.returned
      { Frames := [{ Name := "response", Fields := ["time", "value"],
                     Rows := metrics.map fun m => [.time m.Timestamp, .number m.Value] }],
        Error := none, Status := 0 }, s1)

/-- `handleLogsQuery`: one frame with the fields `time`, `message` and `level`. -/
def Plugin.handleLogsQuery {σ : Type} (p : Plugin) (net : Net σ) (s : σ) (_query : DataQuery)
    (model : QueryModel) : Run DataResponse × σ :=
  match Client.GetLogs net s model.Expr model.From model.To p.client with
  | (.panic msg, s1) => (.panic msg, s1)
  | (.returned (.error err), s1) =>
    (.returned (errBadRequest ("logs query failed: " ++ err)), s1)
  | (.returned (.ok logs), s1) =>
    (.returned
      { Frames := [{ Name := "response", Fields := ["time", "message", "level"],
                     Rows := logs.map fun l =>
                       [.time l.Timestamp, .text l.Message, .text l.Level] }],
        Error := none, Status := 0 }, s1)

/-- `handleTracesQuery`: one frame with the fields `time`, `traceID`, `spanID`, `service`,
`operation` and `duration`. -/
def Plugin.handleTracesQuery {σ : Type} (p : Plugin) (net : Net σ) (s : σ) (_query : DataQuery)
    (model : QueryModel) : Run DataResponse × σ :=
  match Client.GetTraces net s model.Expr model.From model.To p.client with
  | (.panic msg, s1) => (.panic msg, s1)
  | (.returned (.error err), s1) =>
    (.returned (errBadRequest ("traces query failed: " ++ err)), s1)
  | (.returned (.ok traces), s1) =>
    (.returned
      { Frames := [{ Name := "response",
                     Fields := ["time", "traceID", "spanID", "service", "operation",
                       "duration"],
                     Rows := traces.map fun t =>
                       [.time t.Timestamp, .text t.TraceID, .text t.SpanID, .text t.Service,
                         .text t.Operation, .number t.Duration] }],
        Error := none, Status := 0 }, s1)

/-- `handleQuery` switches on the query type. -/
def Plugin.handleQuery {σ : Type} (p : Plugin) (net : Net σ) (s : σ) (query : DataQuery)
    (model : QueryModel) : Run DataResponse × σ :=
  if model.QueryType = "metrics" then p.handleMetricsQuery net s query model
  else if model.QueryType = "logs" then p.handleLogsQuery net s query model
  else if model.QueryType = "traces" then p.handleTracesQuery net s query model
  else (.returned (errBadRequest ("unknown query type: " ++ model.QueryType)), s)

/-- The map assignment `response.Responses[refID] = res`. -/
def setResponse (m : List (String × DataResponse)) (refID : String) (res : DataResponse) :
    List (String × DataResponse) :=
  if m.any (fun e => e.1 == refID) then
    m.map (fun e => if e.1 == refID then (refID, res) else e)
  else m ++ [(refID, res)]

/-- The loop of `QueryData` over the queries left, with the responses gathered so far. -/
def Plugin.queryLoop {σ : Type} (p : Plugin) (net : Net σ) :
    List DataQuery → σ → List (String × DataResponse) →
      Run (List (String × DataResponse)) × σ
  | [], s, responses => (.returned responses, s)
  | q :: rest, s, responses =>
    match net.unmarshalQuery q.JSON with
    | .error err =>
      p.queryLoop net rest s
        (setResponse responses q.RefID (errBadRequest ("json unmarshal: " ++ err)))
    | .ok qm =>
      match p.handleQuery net s q qm with
      | (.panic msg, s1) => (.panic msg, s1)
      | (.returned res, s1) => p.queryLoop net rest s1 (setResponse responses q.RefID res)

/-- `QueryData` handles data queries sent from the frontend; its error is always nil. -/
def Plugin.QueryData {σ : Type} (p : Plugin) (net : Net σ) (s : σ) (queries : List DataQuery) :
    Run (List (String × DataResponse)) × σ :=
  p.queryLoop net queries s []

/-- `backend.ServeOpts`, as far as `main` fills it: the two handlers. -/
structure ServeOpts where
  CheckHealthHandler : Plugin
  QueryDataHandler : Plugin
deriving DecidableEq, Repr

/-- The options `main` of `cmd/plugin` passes to `backend.Serve`: the one value `New()`
returns is both handlers, and nothing is stored in it before `Serve` is called. -/
def main : ServeOpts :=
  let plugin := New
  { CheckHealthHandler := plugin, QueryDataHandler := plugin }

/-- What `backend.Serve` does with a health check request: it calls the handler of the
options. -/
def serveCheckHealth {σ : Type} (opts : ServeOpts) (net : Net σ) (s : σ)
    (req : CheckHealthRequest) : Run (CheckHealthResult × Option String) × σ :=
  opts.CheckHealthHandler.CheckHealth net s req

/-- What `backend.Serve` does with a query request: it calls the handler of the options. -/
def serveQueryData {σ : Type} (opts : ServeOpts) (net : Net σ) (s : σ)
    (queries : List DataQuery) : Run (List (String × DataResponse)) × σ :=
  opts.QueryDataHandler.QueryData net s queries

/-! ### Sample values -/

/-- A Mirador Core that answers every request with status 200 and an empty result, behind
libraries that accept every input. -/
def healthyNet : Net Nat where
  unmarshalSettings := fun _ => .ok "http://mirador-core:8080"
  unmarshalQuery := fun _ => .ok ⟨"metrics", "up", "0", "60"⟩
  urlParse := fun _ => none
  clientDo := fun n _ => (.ok ⟨200, ""⟩, n + 1)
  decodeMetrics := fun _ => .ok []
  decodeLogs := fun _ => .ok []
  decodeTraces := fun _ => .ok []

/-- Datasource settings with a base URL. -/
def sampleSettings : DataSourceInstanceSettings :=
  { JSONData := "\x7b\x22baseURL\x22:\x22http://mirador-core:8080\x22\x7d"
    DecryptedSecureJSONData := [] }

end Backend

/-! ## Properties -/

set_option maxRecDepth 100000

namespace Sha1

theorem length_putBe32 (x : Nat) : (putBe32 x).length = 4 := rfl

theorem length_sum (msg : List Nat) : (sum msg).length = 20 := by
  simp [sum, length_putBe32]

theorem putBe32_lt (x b : Nat) (h : b ∈ putBe32 x) : b < 256 := by
  simp only [putBe32, List.mem_cons, List.mem_singleton, List.not_mem_nil, or_false] at h
  rcases h with h | h | h | h <;> subst h <;> exact Nat.mod_lt _ (by norm_num)

/-- The test vector of FIPS 180: SHA-1("abc") = a9993e36 4706816a ba3e2571 7850c26c 9cd0d89d. -/
theorem sum_abc :
    sum [0x61, 0x62, 0x63]
      = [0xa9, 0x99, 0x3e, 0x36, 0x47, 0x06, 0x81, 0x6a, 0xba, 0x3e,
         0x25, 0x71, 0x78, 0x50, 0xc2, 0x6c, 0x9c, 0xd0, 0xd8, 0x9d] := by
  decide

theorem sum_lt (msg : List Nat) (b : Nat) (h : b ∈ sum msg) : b < 256 := by
  simp only [sum, List.mem_append] at h
  rcases h with (((h | h) | h) | h) | h <;> exact putBe32_lt _ _ h

end Sha1

namespace Fmt

theorem hexByte_eq : ∀ b, b < 256 →
    hexByte b = [Nat.digitChar (b / 16), Nat.digitChar (b % 16)] := by
  decide

end Fmt

namespace Weaviate

theorem toUUID5_eq_of_sum (name : String) (s : List Nat)
    (hs : Sha1.sum (namespaceDNS ++ bytesOf name) = s)
    (hl : s.length = 20) (hb : ∀ b ∈ s, b < 256) :
    toUUID5 name = hexRendering (uuid5Bytes namespaceDNS (bytesOf name)) := by
  unfold toUUID5 uuid5Bytes
  rw [hs]
  match s, hl, hb with
  | [b0, b1, b2, b3, b4, b5, b6, b7, b8, b9, b10, b11, b12, b13, b14, b15, b16, b17, b18, b19],
    _, hb =>
    have h6 : (b6 &&& 0x0f ||| 0x50) < 256 :=
      @Nat.or_lt_two_pow _ _ 8 (lt_of_le_of_lt Nat.and_le_right (by norm_num)) (by norm_num)
    have h8 : (b8 &&& 0x3f ||| 0x80) < 256 :=
      @Nat.or_lt_two_pow _ _ 8 (lt_of_le_of_lt Nat.and_le_right (by norm_num)) (by norm_num)
    simp only [List.mem_cons, List.mem_singleton, forall_eq_or_imp, forall_eq,
      List.not_mem_nil] at hb
    obtain ⟨h0, h1, h2, h3, h4, h5, -, h7, -, h9, h10, h11, h12, h13, h14, h15, -⟩ := hb
    simp [hexRendering, Fmt.sbx, subslice, List.range, List.range.loop, Fmt.hexByte_eq, *]
    rfl

/-- C1. For every name, `toUUID5 name` is the version-5 UUID of the name in the DNS
namespace: the `8-4-4-4-12` hex rendering of the first 16 bytes of SHA-1(namespace ++ name)
with byte 6 replaced by `(d[6] & 0x0f) | 0x50` and byte 8 by `(d[8] & 0x3f) | 0x80`.  At the
name of scenario S4 the value is `6552415a-cbfb-51fd-92e3-153cfce11d8e`. -/
theorem toUUID5_is_uuid_v5 :
    (∀ name : String,
      toUUID5 name = hexRendering (uuid5Bytes namespaceDNS (bytesOf name))) ∧
    toUUID5 "payment-svc:0:payment-svc p95=105ms rps=10 err=15% anomaly=0"
      = "6552415a-cbfb-51fd-92e3-153cfce11d8e" := by
  refine ⟨fun name => ?_, by decide⟩
  exact toUUID5_eq_of_sum name _ rfl (Sha1.length_sum _) (Sha1.sum_lt _)

end Weaviate

/-! ### The id template -/

namespace Weaviate

theorem parse_defaultTemplate :
    Template.Parse defaultTemplate =
      .tree [.field "Service", .text ":", .field "WindowStart", .text ":",
        .field "SummaryText"] := by
  decide

theorem New_default (cfg : ExporterCfg) (h : cfg.IDTemplate = "") :
    New cfg = .exporter
      { endpoint := trimSuffix cfg.Endpoint "/", className := cfg.Class,
        idTemplate :=
          [.field "Service", .text ":", .field "WindowStart", .text ":", .field "SummaryText"],
        clientTimeout := 10 } := by
  simp [New, templateOf, h, parse_defaultTemplate]

theorem New_custom (cfg : ExporterCfg) (h : cfg.IDTemplate ≠ "") :
    New cfg =
      match Template.Parse cfg.IDTemplate with
      | .tree tt =>
        .exporter { endpoint := trimSuffix cfg.Endpoint "/", className := cfg.Class,
                    idTemplate := tt, clientTimeout := 10 }
      | .error => .fatal
      | .foreign => .foreign := by
  simp [New, templateOf, h]

theorem renderID_of_default (e : Exporter) (a : Aggregate)
    (h : e.idTemplate =
      [.field "Service", .text ":", .field "WindowStart", .text ":", .field "SummaryText"]) :
    e.renderID a = a.Service ++ ":" ++ Fmt.formatInt a.WindowStart ++ ":" ++ a.SummaryText := by
  simp [Exporter.renderID, h, Template.Execute, Template.fieldText, String.append_assoc]

theorem renderID_of_New_default (cfg : ExporterCfg) (e : Exporter) (a : Aggregate)
    (hcfg : cfg.IDTemplate = "") (he : New cfg = .exporter e) :
    e.renderID a = a.Service ++ ":" ++ Fmt.formatInt a.WindowStart ++ ":" ++ a.SummaryText := by
  rw [New_default cfg hcfg] at he
  injection he with he
  subst he
  exact renderID_of_default _ a rfl

/-- C2. Identity determinism: an exporter built by `New` with the default id template gives
two aggregates that agree on service, window start and summary text the same object ID,
`toUUID5 (renderID a)`, which is the `id` of the body `upsert` builds, whatever their other
fields are. -/
theorem objectID_deterministic (cfg : ExporterCfg) (e : Exporter) (a b : Aggregate)
    (hcfg : cfg.IDTemplate = "") (he : New cfg = .exporter e)
    (hs : a.Service = b.Service) (hw : a.WindowStart = b.WindowStart)
    (ht : a.SummaryText = b.SummaryText) :
    toUUID5 (e.renderID a) = toUUID5 (e.renderID b) ∧
    ∀ (σ : Type) (env : Env σ),
      (e.body env a).lookup "id" = some (.str (toUUID5 (e.renderID a))) ∧
      (e.body env a).lookup "id" = (e.body env b).lookup "id" := by
  have h : e.renderID a = e.renderID b := by
    rw [renderID_of_New_default cfg e a hcfg he, renderID_of_New_default cfg e b hcfg he,
      hs, hw, ht]
  exact ⟨by rw [h], fun _ _ => ⟨rfl, by simp [Exporter.body, Exporter.objectID, h, List.lookup]⟩⟩

/-- Witness of C2: `sampleAggregate` and `sampleTwin` differ in every field but service,
window start and summary text, and get the same object ID. -/
theorem objectID_deterministic_witness :
    New sampleCfg = .exporter sampleExporter ∧
    sampleAggregate.WindowEnd ≠ sampleTwin.WindowEnd ∧
    sampleAggregate.Labels ≠ sampleTwin.Labels ∧
    toUUID5 (sampleExporter.renderID sampleAggregate)
      = toUUID5 (sampleExporter.renderID sampleTwin) ∧
    ∀ (σ : Type) (env : Env σ),
      (sampleExporter.body env sampleAggregate).lookup "id"
        = (sampleExporter.body env sampleTwin).lookup "id" :=
  ⟨by decide, by decide, by decide,
    (objectID_deterministic sampleCfg sampleExporter sampleAggregate sampleTwin rfl (by decide)
      rfl rfl rfl).1,
    fun σ env =>
      ((objectID_deterministic sampleCfg sampleExporter sampleAggregate sampleTwin rfl
        (by decide) rfl rfl rfl).2 σ env).2⟩

/-- Counterexample to C3 as stated: two aggregates of the same service and the same window
whose summaries differ get different raw keys and different object IDs from the exporter
built with the default configuration. -/
theorem identity_differs_within_window :
    New sampleCfg = .exporter sampleExporter ∧
    sampleAggregate.Service = sampleResummarised.Service ∧
    sampleAggregate.WindowStart = sampleResummarised.WindowStart ∧
    sampleExporter.renderID sampleAggregate ≠ sampleExporter.renderID sampleResummarised ∧
    sampleExporter.objectID sampleAggregate ≠ sampleExporter.objectID sampleResummarised := by
  decide

/-- C3, amended. One object identity per (service, window, summary text): an exporter built
with the default configuration renders for two aggregates with the same service, the same
window start and the same summary text the same raw key, and hence sends the same object
ID. -/
theorem identity_per_service_window_summary (cfg : ExporterCfg) (e : Exporter)
    (a b : Aggregate) (hcfg : cfg.IDTemplate = "") (he : New cfg = .exporter e)
    (hs : a.Service = b.Service) (hw : a.WindowStart = b.WindowStart)
    (ht : a.SummaryText = b.SummaryText) :
    e.renderID a = e.renderID b ∧ e.objectID a = e.objectID b := by
  have h : e.renderID a = e.renderID b := by
    rw [renderID_of_New_default cfg e a hcfg he, renderID_of_New_default cfg e b hcfg he,
      hs, hw, ht]
  exact ⟨h, by rw [Exporter.objectID, Exporter.objectID, h]⟩

/-- Witness of C3 amended, at `sampleAggregate` and `sampleTwin`. -/
theorem identity_per_service_window_summary_witness :
    New sampleCfg = .exporter sampleExporter ∧
    sampleExporter.renderID sampleAggregate = sampleExporter.renderID sampleTwin ∧
    sampleExporter.objectID sampleAggregate = sampleExporter.objectID sampleTwin :=
  ⟨by decide,
    identity_per_service_window_summary sampleCfg sampleExporter sampleAggregate sampleTwin rfl
      (by decide) rfl rfl rfl⟩

/-- C4. With an empty `id_template`, `New` yields an exporter whose `renderID` is the
service, a colon, the window start in decimal, a colon, and the summary text; with a
non-empty `id_template` the exporter holds that template parsed, not the default. -/
theorem New_renderID_template (cfg : ExporterCfg) :
    (cfg.IDTemplate = "" →
      ∃ e, New cfg = .exporter e ∧
        ∀ a : Aggregate,
          e.renderID a
            = a.Service ++ ":" ++ Fmt.formatInt a.WindowStart ++ ":" ++ a.SummaryText) ∧
    (cfg.IDTemplate ≠ "" →
      New cfg =
        match Template.Parse cfg.IDTemplate with
        | .tree tt =>
          .exporter { endpoint := trimSuffix cfg.Endpoint "/", className := cfg.Class,
                      idTemplate := tt, clientTimeout := 10 }
        | .error => .fatal
        | .foreign => .foreign) := by
  refine ⟨fun h => ⟨_, New_default cfg h, fun a => renderID_of_default _ a rfl⟩,
    fun h => New_custom cfg h⟩

/-- Witness of C4: the aggregate of scenario S1 renders to the raw key of scenario S4, and a
configured template `{{.Service}}@{{.WindowStart}}` replaces the default. -/
theorem New_renderID_template_witness :
    (∃ e, New sampleCfg = .exporter e ∧
      e.renderID sampleAggregate
        = "payment-svc:0:payment-svc p95=105ms rps=10 err=15% anomaly=0") ∧
    New { sampleCfg with IDTemplate := "{{.Service}}@{{.WindowStart}}" }
      = .exporter { sampleExporter with
          idTemplate := [.field "Service", .text "@", .field "WindowStart"] } ∧
    Template.Parse "{{.Service}}@{{.WindowStart}}"
      = .tree [.field "Service", .text "@", .field "WindowStart"] ∧
    Exporter.renderID
        { sampleExporter with idTemplate := [.field "Service", .text "@", .field "WindowStart"] }
        sampleAggregate = "payment-svc@0" := by
  refine ⟨?_, ?_, by decide, by decide⟩
  · obtain ⟨e, he, h⟩ := (New_renderID_template sampleCfg).1 rfl
    exact ⟨e, he, by rw [h]; decide⟩
  · rw [(New_renderID_template
      { sampleCfg with IDTemplate := "{{.Service}}@{{.WindowStart}}" }).2 (by decide)]
    decide

end Weaviate

/-! ### `upsert` and `Start` -/

namespace Weaviate

theorem interpret_ok_iff (resp : Response) :
    interpret resp = .ok ↔
      (resp.StatusCode < 300 ∨ resp.StatusCode = 409 ∨ resp.StatusCode = 422) := by
  unfold interpret
  by_cases h : resp.StatusCode = 409 ∨ resp.StatusCode = 422
  · simp [h]
  · by_cases h3 : resp.StatusCode ≥ 300
    · have : ¬ resp.StatusCode < 300 := not_lt.mpr h3
      simp [h, h3, this]
    · simp [h, h3, lt_of_not_ge h3]

theorem upsert_of_response {σ : Type} (e : Exporter) (env : Env σ) (s s' : σ) (a : Aggregate)
    (req : Request) (resp : Response)
    (hreq : newRequest env (e.endpoint ++ "/v1/objects") (e.body env a) = some req)
    (hdo : env.clientDo s req = (.ok resp, s')) :
    e.upsert env s a = (interpret resp, s') := by
  simp [Exporter.upsert, hreq, hdo]

/-- Counterexample to C5 as stated: the store answers 101, which is neither 2xx nor 409 nor
422, and `upsert` reports success. -/
theorem upsert_succeeds_on_101 :
    (replyWith 101).clientDo ()
        { method := "POST", url := "http://localhost:8080/v1/objects",
          contentType := "application/json",
          body := some (sampleExporter.body (replyWith 101) sampleAggregate) }
      = (.ok { StatusCode := 101, Body := "" }, ()) ∧
    (sampleExporter.upsert (replyWith 101) () sampleAggregate).1 = .ok ∧
    specSuccess 101 = false := by
  refine ⟨rfl, ?_, by decide⟩
  decide

/-- C5, amended. For every status code the store returns, `upsert` reports success if and
only if the status is below 300, or is 409, or is 422; for every other status it returns
the error `weaviate HTTP <status>: <body>`. -/
theorem upsert_success_iff {σ : Type} (e : Exporter) (env : Env σ) (s s' : σ) (a : Aggregate)
    (req : Request) (resp : Response)
    (hreq : newRequest env (e.endpoint ++ "/v1/objects") (e.body env a) = some req)
    (hdo : env.clientDo s req = (.ok resp, s')) :
    ((e.upsert env s a).1 = .ok ↔
      (resp.StatusCode < 300 ∨ resp.StatusCode = 409 ∨ resp.StatusCode = 422)) ∧
    (¬ (resp.StatusCode < 300 ∨ resp.StatusCode = 409 ∨ resp.StatusCode = 422) →
      (e.upsert env s a).1
        = .err ("weaviate HTTP " ++ Fmt.formatInt resp.StatusCode ++ ": " ++ resp.Body)) := by
  rw [upsert_of_response e env s s' a req resp hreq hdo]
  refine ⟨interpret_ok_iff resp, fun h => ?_⟩
  have h1 : ¬ (resp.StatusCode = 409 ∨ resp.StatusCode = 422) := fun h' => h (Or.inr h')
  have h2 : resp.StatusCode ≥ 300 := not_lt.mp fun h' => h (Or.inl h')
  simp [interpret, h1, h2]

/-- Witness of C5 amended: a store answering 409 (scenario S5) makes `upsert` succeed, one
answering 500 makes it return `weaviate HTTP 500: `. -/
theorem upsert_success_iff_witness :
    ((sampleExporter.upsert (replyWith 409) () sampleAggregate).1 = .ok ↔
      ((409 : Int) < 300 ∨ (409 : Int) = 409 ∨ (409 : Int) = 422)) ∧
    (sampleExporter.upsert (replyWith 500) () sampleAggregate).1
      = .err "weaviate HTTP 500: " :=
  ⟨(upsert_success_iff sampleExporter (replyWith 409) () () sampleAggregate
      { method := "POST", url := "http://localhost:8080/v1/objects",
        contentType := "application/json",
        body := some (sampleExporter.body (replyWith 409) sampleAggregate) }
      { StatusCode := 409, Body := "" } (by decide) rfl).1,
   (upsert_success_iff sampleExporter (replyWith 500) () () sampleAggregate
      { method := "POST", url := "http://localhost:8080/v1/objects",
        contentType := "application/json",
        body := some (sampleExporter.body (replyWith 500) sampleAggregate) }
      { StatusCode := 500, Body := "" } (by decide) rfl).2 (by decide)⟩

theorem Start_returned_nil {σ : Type} (e : Exporter) (env : Env σ) (events : List Event)
    (s : σ) (r : Option String) (h : (e.Start env events s).status = .returned r) :
    r = none ∧ (Event.done ∈ events ∨ Event.closed ∈ events) := by
  induction events generalizing s with
  | nil => simp [Exporter.Start] at h
  | cons ev rest ih =>
    cases ev with
    | done => simp [Exporter.Start] at h; exact ⟨h.symm, by simp⟩
    | closed => simp [Exporter.Start] at h; exact ⟨h.symm, by simp⟩
    | recv a =>
      unfold Exporter.Start at h
      rcases hu : e.upsert env s a with ⟨o, s'⟩
      rw [hu] at h
      cases o with
      | ok =>
        obtain ⟨h1, h2⟩ := ih s' h
        exact ⟨h1, by simpa using h2⟩
      | err msg =>
        obtain ⟨h1, h2⟩ := ih s' h
        exact ⟨h1, by simpa using h2⟩
      | panic msg => simp at h

theorem upsert_ne_panic {σ : Type} (e : Exporter) (env : Env σ) (s : σ) (a : Aggregate)
    (hurl : urlRejected (e.endpoint ++ "/v1/objects") = false)
    (hparse : env.urlParses (e.endpoint ++ "/v1/objects") = true) (msg : String) :
    (e.upsert env s a).1 ≠ .panic msg := by
  unfold Exporter.upsert newRequest
  simp only [hurl, hparse, if_true, Bool.false_eq_true, if_false]
  rcases env.clientDo s _ with ⟨r, s'⟩
  cases r with
  | error err => simp
  | ok resp =>
    simp only [interpret]
    split_ifs <;> simp

theorem Start_drains {σ : Type} (e : Exporter) (env : Env σ)
    (hurl : urlRejected (e.endpoint ++ "/v1/objects") = false)
    (hparse : env.urlParses (e.endpoint ++ "/v1/objects") = true)
    (as : List Aggregate) (s : σ) :
    (e.Start env (as.map Event.recv ++ [Event.closed]) s).status = .returned none ∧
    (e.Start env (as.map Event.recv ++ [Event.closed]) s).upserts = as := by
  induction as generalizing s with
  | nil => simp [Exporter.Start]
  | cons a rest ih =>
    simp only [List.map_cons, List.cons_append]
    unfold Exporter.Start
    have hp := upsert_ne_panic e env s a hurl hparse
    rcases hu : e.upsert env s a with ⟨o, s'⟩
    rw [hu] at hp
    cases o with
    | ok => exact ⟨(ih s').1, by simp [(ih s').2]⟩
    | err msg => exact ⟨(ih s').1, by simp [(ih s').2]⟩
    | panic msg => exact absurd rfl (hp msg)

/-- C6, at the failing input. The exporter built from an endpoint `:8080` receives two
aggregates and then the closure of its input: `upsert` gets a nil request for the URL
`:8080/v1/objects`, whose error the source discards, and panics on the first aggregate; `Start`
does not return and the second aggregate is never attempted. -/
theorem Start_panics_on_unparseable_endpoint :
    New schemelessCfg = .exporter schemelessExporter ∧
    (schemelessExporter.Start (replyWith 200)
        [.recv sampleAggregate, .recv sampleTwin, .closed] ()).status
      = .panicked "invalid memory address or nil pointer dereference" ∧
    (schemelessExporter.Start (replyWith 200)
        [.recv sampleAggregate, .recv sampleTwin, .closed] ()).upserts = [sampleAggregate] := by
  decide

end Weaviate

/-! ### Fan-out -/

namespace Pipeline

theorem length_copiesFrom (env : Envelope) (base n : Nat) :
    (copiesFrom env base n).length = n := by
  induction n generalizing base with
  | zero => rfl
  | succ n ih => simp [copiesFrom, ih]

theorem getElem_copiesFrom (env : Envelope) (base n i : Nat)
    (h : i < (copiesFrom env base n).length) :
    (copiesFrom env base n)[i] = { env with Bytes := base + i } := by
  induction n generalizing base i with
  | zero => simp [copiesFrom] at h
  | succ n ih =>
    cases i with
    | zero => simp [copiesFrom]
    | succ i =>
      simp only [copiesFrom, List.getElem_cons_succ]
      rw [ih]
      congr 1
      omega

theorem deliver_copies (env : Envelope) (subs : List RxSub) (i k : Nat) (w : World)
    (hi : 0 < i) (halloc : env.Bytes < w.heap.length)
    (hopen : ∀ sub ∈ subs, sub.ch ∉ w.closed) :
    deliver never env subs i k w =
      (none, k + subs.length,
        { heap := w.heap ++ List.replicate subs.length (w.bytes env.Bytes)
          closed := w.closed
          sent := w.sent ++
            (subs.map RxSub.ch).zip (copiesFrom env w.heap.length subs.length) }) := by
  induction subs generalizing i k w with
  | nil => simp [deliver, copiesFrom]
  | cons sub rest ih =>
    have hch : sub.ch ∉ w.closed := hopen sub (by simp)
    have hrest : ∀ s ∈ rest, s.ch ∉ w.closed := fun s hs => hopen s (by simp [hs])
    simp only [deliver, hi, if_true, World.copyBytes, never, Bool.false_eq_true, if_false,
      World.send, hch]
    have hb : (w.heap ++ [w.bytes env.Bytes]).getD env.Bytes [] = w.bytes env.Bytes := by
      simp [World.bytes, List.getD_eq_getElem?_getD, List.getElem?_append_left halloc]
    rw [ih (i + 1) (k + 1)
      { heap := w.heap ++ [w.bytes env.Bytes], closed := w.closed,
        sent := w.sent ++ [(sub.ch, { env with Bytes := w.heap.length })] }
      (by omega) (by simp; omega) hrest]
    simp only [World.bytes] at hb ⊢
    simp only [List.getD_eq_getElem?_getD] at hb
    simp [copiesFrom, List.replicate_succ, hb]
    omega

theorem deliver_never (env : Envelope) (sub : RxSub) (rest : List RxSub) (k : Nat) (w : World)
    (halloc : env.Bytes < w.heap.length)
    (hopen : ∀ s ∈ sub :: rest, s.ch ∉ w.closed) :
    deliver never env (sub :: rest) 0 k w =
      (none, k + (rest.length + 1),
        { heap := w.heap ++ List.replicate rest.length (w.bytes env.Bytes)
          closed := w.closed
          sent := w.sent ++ ((sub :: rest).map RxSub.ch).zip
            (env :: copiesFrom env w.heap.length rest.length) }) := by
  have hch : sub.ch ∉ w.closed := hopen sub (by simp)
  have hrest : ∀ s ∈ rest, s.ch ∉ w.closed := fun s hs => hopen s (by simp [hs])
  simp only [deliver, lt_irrefl, if_false, never, Bool.false_eq_true, World.send, hch,
    Nat.zero_add]
  rw [deliver_copies env rest 1 (k + 1) { w with sent := w.sent ++ [(sub.ch, env)] }
    (by omega) halloc hrest]
  simp [World.bytes]
  omega

/-- C8, at the failing inputs. The pipeline of `queueReceiversCfg` lists a Kafka and a Pulsar
receiver, so `BuildAndRun` puts its one input channel in the subscriber list of both; when
both receivers have returned and their shared channels are closed, the fan-out task that
comes second, whichever it is, calls `close` on the channel the first has closed, and
panics.  The pipeline of `repeatedQueueCfg` lists one receiver twice, has its channel twice
in one subscriber list, and the one task panics on its second `close`.  In `twoReceiverCfg`
the receiver `otlp` is an `otlpgrpc` receiver, whose shared channel never closes: there the
channel is closed once, by the fan-out task of `kafka`. -/
theorem fanOut_closes_channel_twice :
    (BuildAndRun (fun _ => true) queueReceiversCfg).failure = none ∧
    (BuildAndRun (fun _ => true) queueReceiversCfg).receivers
      = [⟨"kafka", ⟨0, "kafka", .kafka "metrics"⟩, 1, [⟨0, "main"⟩]⟩,
          ⟨"pulsar", ⟨1, "pulsar", .pulsar "metrics"⟩, 2, [⟨0, "main"⟩]⟩] ∧
    windDown (fun _ => true) (BuildAndRun (fun _ => true) queueReceiversCfg).receivers
        sampleWorld
      = (some "close of closed channel", { sampleWorld with closed := [0] }) ∧
    windDown (fun _ => true) (BuildAndRun (fun _ => true) queueReceiversCfg).receivers.reverse
        sampleWorld
      = (some "close of closed channel", { sampleWorld with closed := [0] }) ∧
    (BuildAndRun (fun _ => true) repeatedQueueCfg).receivers
      = [⟨"kafka", ⟨0, "kafka", .kafka "metrics"⟩, 1,
          [⟨0, "main"⟩, ⟨0, "main"⟩]⟩] ∧
    windDown (fun _ => true) (BuildAndRun (fun _ => true) repeatedQueueCfg).receivers
        sampleWorld
      = (some "close of closed channel", { sampleWorld with closed := [0] }) ∧
    (BuildAndRun (fun _ => true) twoReceiverCfg).receivers.map
        (ReceiverTask.sharedCloses (fun _ => true)) = [false, true] ∧
    windDown (fun _ => true) (BuildAndRun (fun _ => true) twoReceiverCfg).receivers
        sampleWorld
      = (none, { sampleWorld with closed := [0] }) := by
  decide

/-- Counterexample to C9 as stated: the pipeline `main` lists the receiver `otlp` twice; the
fan-out task reads one envelope from the shared channel and the input channel of `main`
is sent two, the envelope and a copy of it. -/
theorem fanOut_repeated_key_delivers_twice :
    lookupInput (subscriptions repeatedKeyCfg).pipelineInputs "main" = some 0 ∧
    (fanOut never (lookupSubs (subscriptions repeatedKeyCfg).rxSubs "otlp") [sampleEnvelope]
        false 0 sampleWorld).1 = .waiting ∧
    (fanOut never (lookupSubs (subscriptions repeatedKeyCfg).rxSubs "otlp") [sampleEnvelope]
        false 0 sampleWorld).2.received 0
      = [sampleEnvelope, { sampleEnvelope with Bytes := 1 }] := by
  decide

end Pipeline

/-! ### The subscription tables -/

namespace Pipeline

theorem lookupSubs_appendSub (m : List (String × List RxSub)) (k k' : String) (s : RxSub) :
    lookupSubs (appendSub m k s) k'
      = if k = k' then lookupSubs m k' ++ [s] else lookupSubs m k' := by
  induction m with
  | nil => by_cases h : k = k' <;> simp [appendSub, lookupSubs, h]
  | cons hd tl ih =>
    obtain ⟨k0, subs⟩ := hd
    by_cases h0 : k0 = k
    · subst h0
      by_cases h : k0 = k' <;> simp [appendSub, lookupSubs, h]
    · by_cases h1 : k0 = k'
      · subst h1
        have : ¬ k = k0 := fun h => h0 h.symm
        simp [appendSub, lookupSubs, h0, this]
      · simp [appendSub, lookupSubs, h0, h1, ih]

theorem lookupSubs_foldl (rs : List String) (m : List (String × List RxSub)) (k' : String)
    (s : RxSub) :
    lookupSubs (rs.foldl (fun m rkey => appendSub m rkey s) m) k'
      = lookupSubs m k' ++ List.replicate (rs.count k') s := by
  induction rs generalizing m with
  | nil => simp
  | cons r rest ih =>
    simp only [List.foldl_cons]
    rw [ih, lookupSubs_appendSub]
    by_cases h : r = k'
    · subst h
      simp [List.replicate_succ]
    · simp [h, List.count_cons]

theorem lookupSubs_prepareInputs (pls : List (String × PipelineCfg)) (st : Inputs)
    (k' : String) :
    lookupSubs (prepareInputs pls st).rxSubs k'
      = lookupSubs st.rxSubs k' ++ subsOf k' pls st.nextChan := by
  induction pls generalizing st with
  | nil => simp [prepareInputs, subsOf]
  | cons hd tl ih =>
    obtain ⟨pname, p⟩ := hd
    simp only [prepareInputs, subsOf]
    rw [ih, lookupSubs_foldl]
    simp

theorem lookupInput_setInput (m : List (String × Nat)) (k k' : String) (c : Nat) :
    lookupInput (setInput m k c) k' = if k = k' then some c else lookupInput m k' := by
  induction m with
  | nil => by_cases h : k = k' <;> simp [setInput, lookupInput, h]
  | cons hd tl ih =>
    obtain ⟨k0, c0⟩ := hd
    by_cases h0 : k0 = k
    · subst h0
      by_cases h : k0 = k' <;> simp [setInput, lookupInput, h]
    · by_cases h1 : k0 = k'
      · subst h1
        have : ¬ k = k0 := fun h => h0 h.symm
        simp [setInput, lookupInput, h0, this]
      · simp [setInput, lookupInput, h0, h1, ih]

theorem lookupInput_prepareInputs_of_not_mem (pls : List (String × PipelineCfg)) (st : Inputs)
    (pname : String) (h : pname ∉ pls.map Prod.fst) :
    lookupInput (prepareInputs pls st).pipelineInputs pname
      = lookupInput st.pipelineInputs pname := by
  induction pls generalizing st with
  | nil => rfl
  | cons hd tl ih =>
    obtain ⟨n0, p0⟩ := hd
    simp only [List.map_cons, List.mem_cons, not_or] at h
    simp only [prepareInputs]
    rw [ih _ h.2, lookupInput_setInput]
    have hne : ¬ n0 = pname := fun h' => h.1 h'.symm
    simp [hne]

theorem lookupInput_prepareInputs (pls : List (String × PipelineCfg)) (st : Inputs)
    (i : Nat) (pname : String) (p : PipelineCfg) (hnodup : (pls.map Prod.fst).Nodup)
    (hi : pls[i]? = some (pname, p)) :
    lookupInput (prepareInputs pls st).pipelineInputs pname = some (st.nextChan + i) := by
  induction pls generalizing st i with
  | nil => simp at hi
  | cons hd tl ih =>
    obtain ⟨n0, p0⟩ := hd
    simp only [List.map_cons, List.nodup_cons] at hnodup
    cases i with
    | zero =>
      simp only [List.getElem?_cons_zero, Option.some.injEq, Prod.mk.injEq] at hi
      obtain ⟨rfl, rfl⟩ := hi
      simp only [prepareInputs]
      rw [lookupInput_prepareInputs_of_not_mem _ _ _ hnodup.1, lookupInput_setInput]
      simp
    | succ j =>
      simp only [List.getElem?_cons_succ] at hi
      simp only [prepareInputs]
      rw [ih _ j hnodup.2 hi]
      simp
      omega

theorem le_of_mem_subsOf (rkey : String) (pls : List (String × PipelineCfg)) (base : Nat)
    (s : RxSub) (h : s ∈ subsOf rkey pls base) : base ≤ s.ch := by
  induction pls generalizing base with
  | nil => simp [subsOf] at h
  | cons hd tl ih =>
    obtain ⟨n0, p0⟩ := hd
    simp only [subsOf, List.mem_append] at h
    rcases h with h | h
    · rw [(List.mem_replicate.mp h).2]
    · have := ih (base + 1) h
      omega

theorem count_ch_subsOf (rkey : String) (pls : List (String × PipelineCfg)) (base i : Nat)
    (pname : String) (p : PipelineCfg) (hi : pls[i]? = some (pname, p)) :
    ((subsOf rkey pls base).map RxSub.ch).count (base + i) = p.Receivers.count rkey := by
  induction pls generalizing base i with
  | nil => simp at hi
  | cons hd tl ih =>
    obtain ⟨n0, p0⟩ := hd
    simp only [subsOf, List.map_append, List.count_append, List.map_replicate]
    cases i with
    | zero =>
      simp only [List.getElem?_cons_zero, Option.some.injEq, Prod.mk.injEq] at hi
      obtain ⟨rfl, rfl⟩ := hi
      have h0 : ((subsOf rkey tl (base + 1)).map RxSub.ch).count base = 0 := by
        rw [List.count_eq_zero]
        intro hmem
        obtain ⟨s, hs, hs'⟩ := List.mem_map.mp hmem
        have := le_of_mem_subsOf rkey tl (base + 1) s hs
        omega
      simp [h0]
    | succ j =>
      simp only [List.getElem?_cons_succ] at hi
      have := ih (base + 1) j hi
      have hne : ¬ base = base + (j + 1) := by omega
      rw [show base + (j + 1) = base + 1 + j by omega] at hne ⊢
      rw [this]
      simp [List.count_replicate, hne]

theorem filter_zip_once (c : Nat) (chs : List Nat) (es : List Envelope)
    (hlen : es.length = chs.length) (hcount : chs.count c = 1) :
    ∃ e ∈ es, ((chs.zip es).filter (fun p => p.1 == c)).map Prod.snd = [e] := by
  induction chs generalizing es with
  | nil => simp at hcount
  | cons ch rest ih =>
    cases es with
    | nil => simp at hlen
    | cons e es' =>
      simp only [List.length_cons, Nat.add_right_cancel_iff] at hlen
      by_cases h : ch = c
      · subst h
        have h0 : rest.count ch = 0 := by
          simp only [List.count_cons_self] at hcount
          omega
        have hnone : (rest.zip es').filter (fun p => p.1 == ch) = [] := by
          rw [List.filter_eq_nil_iff]
          intro p hp
          have hmem : p.1 ∈ rest := (List.of_mem_zip hp).1
          have hne : p.1 ≠ ch := fun h' => (List.count_eq_zero.mp h0) (h' ▸ hmem)
          simpa using hne
        exact ⟨e, by simp, by simp [List.zip_cons_cons, List.filter_cons, hnone]⟩
      · have hc : rest.count c = 1 := by
          rw [List.count_cons_of_ne (fun h' => h h'.symm)] at hcount
          exact hcount
        obtain ⟨e1, he1, h1⟩ := ih es' hlen hc
        refine ⟨e1, by simp [he1], ?_⟩
        have : (ch == c) = false := by simpa using h
        simp [List.zip_cons_cons, List.filter_cons, this, h1]

theorem deliver_received (env : Envelope) (subs : List RxSub) (c k : Nat) (w : World)
    (halloc : env.Bytes < w.heap.length) (hopen : ∀ sub ∈ subs, sub.ch ∉ w.closed)
    (hcount : (subs.map RxSub.ch).count c = 1) :
    ∃ (e : Envelope) (k1 : Nat) (w1 : World) (extra : List (List Nat)),
      deliver never env subs 0 k w = (none, k1, w1) ∧
      w1.heap = w.heap ++ extra ∧ w1.closed = w.closed ∧
      w1.received c = w.received c ++ [e] ∧
      e.Kind = env.Kind ∧ e.TSUnix = env.TSUnix ∧ e.Bytes < w1.heap.length ∧
      w1.bytes e.Bytes = w.bytes env.Bytes := by
  cases subs with
  | nil => simp at hcount
  | cons sub rest =>
    obtain ⟨e, he, hfilter⟩ := filter_zip_once c ((sub :: rest).map RxSub.ch)
      (env :: copiesFrom env w.heap.length rest.length) (by simp [length_copiesFrom]) hcount
    refine ⟨e, _, _, _, deliver_never env sub rest k w halloc hopen, rfl, rfl, ?_, ?_⟩
    · simp only [World.received, List.filter_append, List.map_append]
      rw [hfilter]
    · rcases List.mem_cons.mp he with rfl | he
      · refine ⟨rfl, rfl, by simp; omega, ?_⟩
        simp [World.bytes, List.getD_eq_getElem?_getD, List.getElem?_append_left halloc]
      · obtain ⟨j, hj, rfl⟩ := List.mem_iff_getElem.mp he
        rw [getElem_copiesFrom]
        rw [length_copiesFrom] at hj
        refine ⟨rfl, rfl, by simp; omega, ?_⟩
        simp only [World.bytes, List.getD_eq_getElem?_getD]
        rw [List.getElem?_append_right (by omega)]
        simp [List.getElem?_replicate, hj]

theorem closeAll_frame (subs : List RxSub) (w : World) :
    (closeAll subs w).2.heap = w.heap ∧ (closeAll subs w).2.sent = w.sent := by
  induction subs generalizing w with
  | nil => simp [closeAll]
  | cons sub rest ih =>
    simp only [closeAll, World.close]
    split_ifs
    · simp
    · simpa using ih _

theorem fanOut_received (subs : List RxSub) (c : Nat) (sharedClosed : Bool)
    (content : Nat → List Nat)
    (hcount : (subs.map RxSub.ch).count c = 1) (envs : List Envelope) (k : Nat) (w : World)
    (halloc : ∀ env ∈ envs, env.Bytes < w.heap.length ∧ w.bytes env.Bytes = content env.Bytes)
    (hopen : ∀ sub ∈ subs, sub.ch ∉ w.closed) :
    (∃ extra, (fanOut never subs envs sharedClosed k w).2.heap = w.heap ++ extra) ∧
    (sharedClosed = false → (fanOut never subs envs sharedClosed k w).1 = .waiting) ∧
    ∃ es : List Envelope,
      (fanOut never subs envs sharedClosed k w).2.received c = w.received c ++ es ∧
      List.Forall₂
        (fun e env => e.Kind = env.Kind ∧ e.TSUnix = env.TSUnix ∧
          (fanOut never subs envs sharedClosed k w).2.bytes e.Bytes = content env.Bytes)
        es envs := by
  induction envs generalizing k w with
  | nil =>
    cases sharedClosed with
    | false => exact ⟨⟨[], by simp [fanOut]⟩, fun _ => by simp [fanOut], [], by simp [fanOut]⟩
    | true =>
      refine ⟨⟨[], by simp [fanOut, (closeAll_frame subs w).1]⟩, by simp, [], ?_, by simp⟩
      simp [fanOut, World.received, (closeAll_frame subs w).2]
  | cons env rest ih =>
    obtain ⟨e, k1, w1, extra, hd, hheap, hclosed, hrecv, hk, ht, hlt, hb⟩ :=
      deliver_received env subs c k w (halloc env (by simp)).1 hopen hcount
    have hstep : fanOut never subs (env :: rest) sharedClosed k w
        = fanOut never subs rest sharedClosed k1 w1 := by
      simp [fanOut, hd]
    have hframe : ∀ addr, addr < w.heap.length → w1.bytes addr = w.bytes addr := by
      intro addr haddr
      simp [World.bytes, hheap, List.getD_eq_getElem?_getD, List.getElem?_append_left haddr]
    obtain ⟨⟨extra2, hheap2⟩, hwait, es, hrecv2, hall⟩ := ih k1 w1
      (fun env' h' => by
        have := halloc env' (by simp [h'])
        refine ⟨?_, by rw [hframe _ this.1, this.2]⟩
        rw [hheap, List.length_append]
        omega)
      (fun sub hsub => by rw [hclosed]; exact hopen sub hsub)
    rw [hstep]
    have hframe2 : ∀ addr, addr < w1.heap.length →
        (fanOut never subs rest sharedClosed k1 w1).2.bytes addr = w1.bytes addr := by
      intro addr haddr
      simp [World.bytes, hheap2, List.getD_eq_getElem?_getD, List.getElem?_append_left haddr]
    refine ⟨⟨extra ++ extra2, by rw [hheap2, hheap, List.append_assoc]⟩, hwait, e :: es, ?_,
      ?_⟩
    · rw [hrecv2, hrecv, List.append_assoc]
      rfl
    · exact List.Forall₂.cons ⟨hk, ht, by rw [hframe2 _ hlt, hb, (halloc env (by simp)).2]⟩ hall

/-- C9, amended. Absent cancellation and with the subscriber channels open, for every
sequence of envelopes the fan-out task of receiver `rkey` reads from the shared channel, a
pipeline that lists `rkey` exactly once is sent on its input channel, by that task, one
envelope per envelope read, in the order read, each with the kind, the timestamp and the
bytes of the envelope read. -/
theorem fanOut_delivers_each_once (cfg : Config) (i : Nat) (pname : String)
    (p : PipelineCfg) (rkey : String) (envs : List Envelope) (sharedClosed : Bool) (k : Nat)
    (w : World)
    (hnames : (cfg.Pipelines.map Prod.fst).Nodup)
    (hp : cfg.Pipelines[i]? = some (pname, p))
    (honce : p.Receivers.count rkey = 1)
    (halloc : ∀ env ∈ envs, env.Bytes < w.heap.length)
    (hopen : ∀ sub ∈ lookupSubs (subscriptions cfg).rxSubs rkey, sub.ch ∉ w.closed) :
    ∃ (ch : Nat) (es : List Envelope),
      lookupInput (subscriptions cfg).pipelineInputs pname = some ch ∧
      (sharedClosed = false →
        (fanOut never (lookupSubs (subscriptions cfg).rxSubs rkey) envs sharedClosed k w).1
          = .waiting) ∧
      (fanOut never (lookupSubs (subscriptions cfg).rxSubs rkey) envs sharedClosed k w).2.received
          ch = w.received ch ++ es ∧
      List.Forall₂
        (fun e env => e.Kind = env.Kind ∧ e.TSUnix = env.TSUnix ∧
          (fanOut never (lookupSubs (subscriptions cfg).rxSubs rkey) envs sharedClosed k
            w).2.bytes e.Bytes = w.bytes env.Bytes)
        es envs := by
  have hch : lookupInput (subscriptions cfg).pipelineInputs pname = some i := by
    have := lookupInput_prepareInputs cfg.Pipelines ⟨[], [], 0⟩ i pname p hnames hp
    simpa [subscriptions] using this
  have hsubs : lookupSubs (subscriptions cfg).rxSubs rkey = subsOf rkey cfg.Pipelines 0 := by
    simp [subscriptions, lookupSubs_prepareInputs, lookupSubs]
  have hcount : ((lookupSubs (subscriptions cfg).rxSubs rkey).map RxSub.ch).count i = 1 := by
    rw [hsubs]
    have := count_ch_subsOf rkey cfg.Pipelines 0 i pname p hp
    rw [Nat.zero_add] at this
    rw [this, honce]
  obtain ⟨-, hwait, es, hrecv, hall⟩ :=
    fanOut_received (lookupSubs (subscriptions cfg).rxSubs rkey) i sharedClosed w.bytes hcount
      envs k w (fun env h => ⟨halloc env h, rfl⟩) hopen
  exact ⟨i, es, hch, hwait, hrecv, hall⟩

/-- Witness of C9 amended: the two pipelines of `sharedReceiverCfg` list `otlp` once each;
the second gets, for the two envelopes read, two envelopes on its channel. -/
theorem fanOut_delivers_each_once_witness :
    ∃ (ch : Nat) (es : List Envelope),
      lookupInput (subscriptions sharedReceiverCfg).pipelineInputs "b" = some ch ∧
      (fanOut never (lookupSubs (subscriptions sharedReceiverCfg).rxSubs "otlp")
          [sampleEnvelope, { sampleEnvelope with Kind := .JSONLogs }] true 0
          sampleWorld).2.received ch = sampleWorld.received ch ++ es ∧
      es.length = 2 := by
  obtain ⟨ch, es, h1, -, h3, h4⟩ :=
    fanOut_delivers_each_once sharedReceiverCfg 1 "b"
      ⟨["otlp"], ["spans", "summarize", "vectorize"], ["weaviate"]⟩ "otlp"
      [sampleEnvelope, { sampleEnvelope with Kind := .JSONLogs }] true 0 sampleWorld
      (by decide) (by decide) (by decide) (by decide) (by decide)
  exact ⟨ch, es, h1, h3, h4.length_eq⟩

end Pipeline

/-! ### Per-pipeline instances -/

namespace Pipeline

theorem buildProcessorsFrom_ok (l : List (String × ProcessorCfg)) (next n : Nat)
    (m : List (String × Instance)) (h : buildProcessorsFrom l next = .ok (m, n)) :
    n = next + l.length ∧ m.map Prod.fst = l.map Prod.fst ∧
    ∀ x ∈ m, next ≤ x.2.addr ∧ x.2.addr < n := by
  induction l generalizing next n m with
  | nil =>
    simp only [buildProcessorsFrom, Except.ok.injEq, Prod.mk.injEq] at h
    obtain ⟨rfl, rfl⟩ := h
    simp
  | cons hd tl ih =>
    obtain ⟨key, pc⟩ := hd
    simp only [buildProcessorsFrom] at h
    split_ifs at h with hty
    cases hrec : buildProcessorsFrom tl (next + 1) with
    | error f => simp [hrec] at h
    | ok r =>
      obtain ⟨m', n'⟩ := r
      simp only [hrec, Except.ok.injEq, Prod.mk.injEq] at h
      obtain ⟨rfl, rfl⟩ := h
      obtain ⟨h1, h2, h3⟩ := ih (next + 1) n' m' hrec
      refine ⟨by simp; omega, by simp [h2], ?_⟩
      intro x hx
      rcases List.mem_cons.mp hx with rfl | hx
      · simp; omega
      · have := h3 x hx
        omega

theorem buildExportersFrom_ok (parses : String → Bool) (l : List (String × ExporterCfg))
    (next n : Nat) (m : List (String × ExporterInstance))
    (h : buildExportersFrom parses l next = .ok (m, n)) :
    n = next + l.length ∧ m.map Prod.fst = l.map Prod.fst ∧
    ∀ x ∈ m, next ≤ x.2.addr ∧ x.2.addr < n := by
  induction l generalizing next n m with
  | nil =>
    simp only [buildExportersFrom, Except.ok.injEq, Prod.mk.injEq] at h
    obtain ⟨rfl, rfl⟩ := h
    simp
  | cons hd tl ih =>
    obtain ⟨key, ec⟩ := hd
    simp only [buildExportersFrom] at h
    split_ifs at h with hty
    cases hnew : newExporter parses ec with
    | none => simp [hnew] at h
    | some e =>
      cases hrec : buildExportersFrom parses tl (next + 1) with
      | error f => simp [hnew, hrec] at h
      | ok r =>
        obtain ⟨m', n'⟩ := r
        simp only [hnew, hrec, Except.ok.injEq, Prod.mk.injEq] at h
        obtain ⟨rfl, rfl⟩ := h
        obtain ⟨h1, h2, h3⟩ := ih (next + 1) n' m' hrec
        refine ⟨by simp; omega, by simp [h2], ?_⟩
        intro x hx
        rcases List.mem_cons.mp hx with rfl | hx
        · simp; omega
        · have := h3 x hx
          omega

/-- Every task of phase 2 holds the maps one `buildProcessors` call and one `buildExporters`
call returned, with the configured keys; its addresses lie between the first free address
and the next one, and the addresses of an earlier task are below those of a later one. -/
theorem startPipelines_spec (parses : String → Bool) (cfg : Config)
    (inputs : List (String × Nat)) (pls : List (String × PipelineCfg)) (next : Nat) :
    next ≤ (startPipelines parses cfg inputs pls next).next ∧
    (∀ t ∈ (startPipelines parses cfg inputs pls next).tasks,
      t.procs.map Prod.fst = cfg.Processors.map Prod.fst ∧
      t.exps.map Prod.fst = cfg.Exporters.map Prod.fst ∧
      (∃ n1 n2 n3, buildProcessors cfg n1 = .ok (t.procs, n2) ∧
        buildExporters parses cfg n2 = .ok (t.exps, n3)) ∧
      ∀ a ∈ t.addrs, next ≤ a ∧ a < (startPipelines parses cfg inputs pls next).next) ∧
    (startPipelines parses cfg inputs pls next).tasks.Pairwise
      (fun s t => ∀ a ∈ s.addrs, ∀ b ∈ t.addrs, a < b) ∧
    ((startPipelines parses cfg inputs pls next).failure = none →
      (startPipelines parses cfg inputs pls next).tasks.map (fun t => (t.name, t.pl)) = pls) := by
  induction pls generalizing next with
  | nil => simp [startPipelines]
  | cons hd tl ih =>
    obtain ⟨pname, p⟩ := hd
    simp only [startPipelines]
    cases hp : buildProcessors cfg next with
    | error f => simp
    | ok r1 =>
      obtain ⟨procs, n1⟩ := r1
      obtain ⟨hn1, hk1, ha1⟩ := buildProcessorsFrom_ok _ _ _ _ hp
      dsimp only
      cases he : buildExporters parses cfg n1 with
      | error f => simp; omega
      | ok r2 =>
        obtain ⟨exps, n2⟩ := r2
        obtain ⟨hn2, hk2, ha2⟩ := buildExportersFrom_ok _ _ _ _ _ he
        dsimp only
        obtain ⟨ih1, ih2, ih3, ih4⟩ := ih n2
        have hhead : ∀ a ∈ (PipelineTask.mk pname p (lookupInput inputs pname) procs exps).addrs,
            next ≤ a ∧ a < n2 := by
          intro a ha
          simp only [PipelineTask.addrs, List.mem_append, List.mem_map] at ha
          rcases ha with ⟨x, hx, rfl⟩ | ⟨x, hx, rfl⟩
          · have := ha1 x hx
            omega
          · have := ha2 x hx
            omega
        refine ⟨by omega, ?_, ?_, ?_⟩
        · intro t ht
          simp only [List.mem_cons] at ht
          rcases ht with rfl | ht
          · exact ⟨hk1, hk2, ⟨next, n1, n2, hp, he⟩,
              fun a ha => ⟨(hhead a ha).1, by have := hhead a ha; omega⟩⟩
          · obtain ⟨h1, h2, hcalls, h3⟩ := ih2 t ht
            exact ⟨h1, h2, hcalls, fun a ha => ⟨by have := h3 a ha; omega, (h3 a ha).2⟩⟩
        · simp only [List.pairwise_cons]
          refine ⟨?_, ih3⟩
          intro t ht a ha b hb
          have h1 := hhead a ha
          have h2 := (ih2 t ht).2.2.2 b hb
          omega
        · intro hf
          simp only [List.map_cons, List.cons.injEq, true_and]
          exact ih4 hf

theorem feed_frame {State Value : Type} (sem : Semantics State Value) (inst : Instance)
    (vs : List Value) (store : Store State) (a : Nat) (h : a ≠ inst.addr) :
    (feed sem inst vs store).1 a = store a := by
  induction vs generalizing store with
  | nil => rfl
  | cons v rest ih =>
    simp only [feed]
    rw [ih]
    simp [h]

theorem feed_congr {State Value : Type} (sem : Semantics State Value) (inst : Instance)
    (vs : List Value) (s1 s2 : Store State) (h : s1 inst.addr = s2 inst.addr) :
    (feed sem inst vs s1).2 = (feed sem inst vs s2).2 ∧
    (feed sem inst vs s1).1 inst.addr = (feed sem inst vs s2).1 inst.addr := by
  induction vs generalizing s1 s2 with
  | nil => exact ⟨rfl, h⟩
  | cons v rest ih =>
    simp only [feed]
    rw [h]
    obtain ⟨h1, h2⟩ := ih (fun a => if a = inst.addr then (sem.step inst.typ (s2 inst.addr) v).1
      else s1 a) (fun a => if a = inst.addr then (sem.step inst.typ (s2 inst.addr) v).1 else s2 a)
      (by simp)
    exact ⟨by rw [h1], h2⟩

theorem runChain_frame {State Value : Type} (sem : Semantics State Value)
    (chain : List Instance) (vs : List Value) (store : Store State) (a : Nat)
    (h : a ∉ chain.map Instance.addr) : (runChain sem chain vs store).1 a = store a := by
  induction chain generalizing vs store with
  | nil => rfl
  | cons inst rest ih =>
    simp only [List.map_cons, List.mem_cons, not_or] at h
    simp only [runChain]
    rw [ih _ _ h.2, feed_frame sem inst vs store a h.1]

theorem runChain_congr {State Value : Type} (sem : Semantics State Value)
    (chain : List Instance) (vs : List Value) (s1 s2 : Store State)
    (h : ∀ inst ∈ chain, s1 inst.addr = s2 inst.addr) :
    (runChain sem chain vs s1).2 = (runChain sem chain vs s2).2 := by
  induction chain generalizing vs s1 s2 with
  | nil => rfl
  | cons inst rest ih =>
    simp only [runChain]
    obtain ⟨h1, h2⟩ := feed_congr sem inst vs s1 s2 (h inst (by simp))
    rw [h1]
    apply ih
    intro inst' hi'
    by_cases heq : inst'.addr = inst.addr
    · rw [heq, h2]
    · rw [feed_frame sem inst vs s1 _ heq, feed_frame sem inst vs s2 _ heq]
      exact h inst' (by simp [hi'])

theorem lookupProc_mem (procs : List (String × Instance)) (pkey : String) (inst : Instance)
    (h : lookupProc procs pkey = some inst) : inst.addr ∈ procs.map (fun x => x.2.addr) := by
  induction procs with
  | nil => simp [lookupProc] at h
  | cons hd tl ih =>
    obtain ⟨k, i0⟩ := hd
    simp only [lookupProc] at h
    split_ifs at h with hk
    · simp only [Option.some.injEq] at h
      subst h
      simp
    · simp [ih h]

theorem resolveChain_mem (procs : List (String × Instance)) (keys : List String)
    (chain : List Instance) (h : resolveChain procs keys = some chain) :
    ∀ inst ∈ chain, inst.addr ∈ procs.map (fun x => x.2.addr) := by
  induction keys generalizing chain with
  | nil =>
    simp only [resolveChain, Option.some.injEq] at h
    subst h
    simp
  | cons k rest ih =>
    simp only [resolveChain] at h
    cases hl : lookupProc procs k with
    | none => simp [hl] at h
    | some i0 =>
      cases hr : resolveChain procs rest with
      | none => simp [hl, hr] at h
      | some c =>
        simp only [hl, hr, Option.map_some', Option.some.injEq] at h
        subst h
        intro inst hinst
        rcases List.mem_cons.mp hinst with rfl | hinst
        · exact lookupProc_mem procs k _ hl
        · exact ih c hr inst hinst

/-- The pipeline tasks of `BuildAndRun` are those of its phase 2: each holds the maps of one
`buildProcessors` call and one `buildExporters` call, with the configured keys; the
addresses of an earlier task are below those of a later one; and when `BuildAndRun` does not
return early there is one task per configured pipeline. -/
theorem BuildAndRun_pipelines (parses : String → Bool) (cfg : Config) :
    (∀ t ∈ (BuildAndRun parses cfg).pipelines,
      t.procs.map Prod.fst = cfg.Processors.map Prod.fst ∧
      t.exps.map Prod.fst = cfg.Exporters.map Prod.fst ∧
      ∃ n1 n2 n3, buildProcessors cfg n1 = .ok (t.procs, n2) ∧
        buildExporters parses cfg n2 = .ok (t.exps, n3)) ∧
    (BuildAndRun parses cfg).pipelines.Pairwise
      (fun s t => ∀ a ∈ s.addrs, ∀ b ∈ t.addrs, a < b) ∧
    ((BuildAndRun parses cfg).failure = none →
      (BuildAndRun parses cfg).pipelines.map (fun t => (t.name, t.pl)) = cfg.Pipelines) := by
  unfold BuildAndRun
  cases hb : buildReceivers cfg 0 with
  | error f => simp
  | ok r =>
    obtain ⟨rxFactory, next⟩ := r
    dsimp only
    cases hf : (startReceivers rxFactory (subscriptions cfg).rxSubs
        (subscriptions cfg).nextChan).failure with
    | some f => simp
    | none =>
      dsimp only
      have hspec := startPipelines_spec parses cfg (subscriptions cfg).pipelineInputs
        cfg.Pipelines next
      exact ⟨fun t ht => ⟨(hspec.2.1 t ht).1, (hspec.2.1 t ht).2.1, (hspec.2.1 t ht).2.2.1⟩,
        hspec.2.2.1, hspec.2.2.2⟩

/-- C10. Per-pipeline instancing. `BuildAndRun` gives every pipeline it starts a processor
map and an exporter map of its own, each the result of one `buildProcessors` call and one
`buildExporters` call made for that pipeline and holding all the configured keys; when it
does not return early it starts one task per configured pipeline.  For two different tasks:
no instance address of one is an instance address of the other; the instance one runs for a
processor key is not the instance the other runs for that key; and whatever values the
processor chain of one consumes, the values the chain of the other emits on any input are
the same as if the first had consumed nothing. -/
theorem per_pipeline_instancing (parses : String → Bool) (cfg : Config) :
    (∀ t ∈ (BuildAndRun parses cfg).pipelines,
      t.procs.map Prod.fst = cfg.Processors.map Prod.fst ∧
      t.exps.map Prod.fst = cfg.Exporters.map Prod.fst ∧
      ∃ n1 n2 n3, buildProcessors cfg n1 = .ok (t.procs, n2) ∧
        buildExporters parses cfg n2 = .ok (t.exps, n3)) ∧
    ((BuildAndRun parses cfg).failure = none →
      (BuildAndRun parses cfg).pipelines.map (fun t => (t.name, t.pl)) = cfg.Pipelines) ∧
    ∀ (i j : Nat) (hi : i < (BuildAndRun parses cfg).pipelines.length)
      (hj : j < (BuildAndRun parses cfg).pipelines.length), i ≠ j →
      (∀ a ∈ (BuildAndRun parses cfg).pipelines[i].addrs,
        a ∉ (BuildAndRun parses cfg).pipelines[j].addrs) ∧
      (∀ (pkey : String) (a b : Instance),
        lookupProc (BuildAndRun parses cfg).pipelines[i].procs pkey = some a →
        lookupProc (BuildAndRun parses cfg).pipelines[j].procs pkey = some b →
        a.addr ≠ b.addr) ∧
      (∀ (State Value : Type) (sem : Semantics State Value) (chainA chainB : List Instance),
        resolveChain (BuildAndRun parses cfg).pipelines[i].procs
          (BuildAndRun parses cfg).pipelines[i].pl.Processors = some chainA →
        resolveChain (BuildAndRun parses cfg).pipelines[j].procs
          (BuildAndRun parses cfg).pipelines[j].pl.Processors = some chainB →
        ∀ (store : Store State) (inA inB : List Value),
          (runChain sem chainB inB (runChain sem chainA inA store).1).2
            = (runChain sem chainB inB store).2) := by
  obtain ⟨hkeys, hpw, hall⟩ := BuildAndRun_pipelines parses cfg
  refine ⟨hkeys, hall, ?_⟩
  intro i j hi hj hij
  have hdis : ∀ a ∈ (BuildAndRun parses cfg).pipelines[i].addrs,
      a ∉ (BuildAndRun parses cfg).pipelines[j].addrs := by
    intro a ha hb
    rcases Nat.lt_or_gt_of_ne hij with hlt | hgt
    · have := List.pairwise_iff_getElem.mp hpw i j hi hj hlt a ha a hb
      omega
    · have := List.pairwise_iff_getElem.mp hpw j i hj hi hgt a hb a ha
      omega
  have hprocs : ∀ (a b : Nat),
      a ∈ (BuildAndRun parses cfg).pipelines[i].procs.map (fun x => x.2.addr) →
      b ∈ (BuildAndRun parses cfg).pipelines[j].procs.map (fun x => x.2.addr) → a ≠ b := by
    intro a b ha hb hab
    subst hab
    exact hdis a (by simp only [PipelineTask.addrs, List.mem_append]; exact Or.inl ha)
      (by simp only [PipelineTask.addrs, List.mem_append]; exact Or.inl hb)
  refine ⟨hdis, ?_, ?_⟩
  · intro pkey a b ha hb
    exact hprocs _ _ (lookupProc_mem _ _ _ ha) (lookupProc_mem _ _ _ hb)
  · intro State Value sem chainA chainB hA hB store inA inB
    apply runChain_congr
    intro inst hinst
    apply runChain_frame
    intro hmem
    obtain ⟨instA, hinstA, heq⟩ := List.mem_map.mp hmem
    exact hprocs _ _ (resolveChain_mem _ _ _ hA instA hinstA)
      (resolveChain_mem _ _ _ hB inst hinst) heq

/-- Witness of C10: `BuildAndRun` starts the two pipelines of `sharedReceiverCfg`, which list
the same processor keys; the first runs the instances at addresses 2, 3, 4, the second those
at 6, 7, 8, and what the second chain emits does not change when the first has consumed
three values. -/
theorem per_pipeline_instancing_witness :
    (BuildAndRun (fun _ => true) sharedReceiverCfg).failure = none ∧
    (BuildAndRun (fun _ => true) sharedReceiverCfg).pipelines.map PipelineTask.name
      = ["a", "b"] ∧
    (BuildAndRun (fun _ => true) sharedReceiverCfg).pipelines.map
        (fun t => resolveChain t.procs t.pl.Processors)
      = [some [⟨2, "spans", "spanmetrics"⟩, ⟨3, "summarize", "summarizer"⟩,
            ⟨4, "vectorize", "vectorizer"⟩],
          some [⟨6, "spans", "spanmetrics"⟩, ⟨7, "summarize", "summarizer"⟩,
            ⟨8, "vectorize", "vectorizer"⟩]] ∧
    (runChain countingSemantics
        [⟨6, "spans", "spanmetrics"⟩, ⟨7, "summarize", "summarizer"⟩,
          ⟨8, "vectorize", "vectorizer"⟩] [7, 7]
        (runChain countingSemantics
          [⟨2, "spans", "spanmetrics"⟩, ⟨3, "summarize", "summarizer"⟩,
            ⟨4, "vectorize", "vectorizer"⟩] [1, 2, 3] (fun _ => 0)).1).2
      = (runChain countingSemantics
          [⟨6, "spans", "spanmetrics"⟩, ⟨7, "summarize", "summarizer"⟩,
            ⟨8, "vectorize", "vectorizer"⟩] [7, 7] (fun _ => 0)).2 :=
  ⟨by decide, by decide, by decide,
    ((per_pipeline_instancing (fun _ => true) sharedReceiverCfg).2.2 0 1 (by decide)
      (by decide) (by decide)).2.2 Nat Nat countingSemantics _ _ (by decide) (by decide)
      (fun _ => 0) [1, 2, 3] [7, 7]⟩

end Pipeline

/-! ### The shape of the object ID -/

namespace Weaviate

theorem digitChar_hex : ∀ n, n < 16 → Nat.digitChar n ∈ "0123456789abcdef".data := by
  decide

theorem version_nibble : ∀ x, x < 16 → (x ||| 0x50) / 16 = 5 := by
  decide

theorem variant_nibble : ∀ x, x < 64 →
    Nat.digitChar ((x ||| 0x80) / 16) ∈ ['8', '9', 'a', 'b'] := by
  decide

theorem hexRendering_shape (bs : List Nat) (hl : bs.length = 16) (hb : ∀ b ∈ bs, b < 256) :
    (hexRendering bs).data.length = 36 ∧
    ∀ i (h : i < (hexRendering bs).data.length),
      if i = 8 ∨ i = 13 ∨ i = 18 ∨ i = 23 then (hexRendering bs).data[i] = '-'
      else (hexRendering bs).data[i] ∈ "0123456789abcdef".data := by
  match bs, hl, hb with
  | [b0, b1, b2, b3, b4, b5, b6, b7, b8, b9, b10, b11, b12, b13, b14, b15], _, hb =>
    simp only [List.mem_cons, List.mem_singleton, forall_eq_or_imp, forall_eq,
      List.not_mem_nil] at hb
    obtain ⟨h0, h1, h2, h3, h4, h5, h6, h7, h8, h9, h10, h11, h12, h13, h14, h15, -⟩ := hb
    have hi : ∀ b, b < 256 → Nat.digitChar (b / 16) ∈ "0123456789abcdef".data :=
      fun b h => digitChar_hex _ (by omega)
    have lo : ∀ b, Nat.digitChar (b % 16) ∈ "0123456789abcdef".data :=
      fun b => digitChar_hex _ (Nat.mod_lt _ (by norm_num))
    refine ⟨by simp [hexRendering], ?_⟩
    intro i h
    have h36 : i < 36 := by simpa [hexRendering] using h
    simp only [hexRendering, List.flatMap_cons, List.flatMap_nil, List.cons_append,
      List.nil_append, List.take, List.drop, List.append_nil]
    interval_cases i <;>
      first
      | (rw [if_pos (by decide)]; rfl)
      | (rw [if_neg (by decide)]
         first
         | exact lo _
         | exact hi _ (by assumption))

theorem hexRendering_version_variant (bs : List Nat) (hl : bs.length = 16) :
    (hexRendering bs).data[14]? = some (Nat.digitChar (bs.getD 6 0 / 16)) ∧
    (hexRendering bs).data[19]? = some (Nat.digitChar (bs.getD 8 0 / 16)) := by
  match bs, hl with
  | [b0, b1, b2, b3, b4, b5, b6, b7, b8, b9, b10, b11, b12, b13, b14, b15], _ =>
    exact ⟨rfl, rfl⟩

theorem uuid5Bytes_spec (ns name : List Nat) :
    (uuid5Bytes ns name).length = 16 ∧ (∀ b ∈ uuid5Bytes ns name, b < 256) ∧
    (∃ x, x < 16 ∧ (uuid5Bytes ns name).getD 6 0 = x ||| 0x50) ∧
    (∃ x, x < 64 ∧ (uuid5Bytes ns name).getD 8 0 = x ||| 0x80) := by
  have hl := Sha1.length_sum (ns ++ name)
  have hb := Sha1.sum_lt (ns ++ name)
  unfold uuid5Bytes
  generalize Sha1.sum (ns ++ name) = s at hl hb
  match s, hl, hb with
  | [b0, b1, b2, b3, b4, b5, b6, b7, b8, b9, b10, b11, b12, b13, b14, b15, b16, b17, b18, b19],
    _, hb =>
    have h6 : (b6 &&& 0x0f ||| 0x50) < 256 :=
      @Nat.or_lt_two_pow _ _ 8 (lt_of_le_of_lt Nat.and_le_right (by norm_num)) (by norm_num)
    have h8 : (b8 &&& 0x3f ||| 0x80) < 256 :=
      @Nat.or_lt_two_pow _ _ 8 (lt_of_le_of_lt Nat.and_le_right (by norm_num)) (by norm_num)
    simp only [List.mem_cons, List.mem_singleton, forall_eq_or_imp, forall_eq,
      List.not_mem_nil] at hb
    obtain ⟨h0, h1, h2, h3, h4, h5, -, h7, -, h9, h10, h11, h12, h13, h14, h15, -⟩ := hb
    refine ⟨by simp, ?_, ⟨b6 &&& 0x0f, lt_of_le_of_lt Nat.and_le_right (by norm_num), ?_⟩,
      ⟨b8 &&& 0x3f, lt_of_le_of_lt Nat.and_le_right (by norm_num), ?_⟩⟩
    · simp [List.range, List.range.loop, *]
    · simp [List.range, List.range.loop]
    · simp [List.range, List.range.loop]

/-- C17. For every name, `toUUID5 name` is a well-formed UUID string: 36 characters, a
hyphen at each of the indices 8, 13, 18 and 23, a lower-case hexadecimal digit at every other
index, the digit `5` at index 14 and one of `8`, `9`, `a`, `b` at index 19. -/
theorem toUUID5_well_formed (name : String) :
    (toUUID5 name).data.length = 36 ∧
    (∀ i (h : i < (toUUID5 name).data.length),
      if i = 8 ∨ i = 13 ∨ i = 18 ∨ i = 23 then (toUUID5 name).data[i] = '-'
      else (toUUID5 name).data[i] ∈ "0123456789abcdef".data) ∧
    (toUUID5 name).data[14]? = some '5' ∧
    ∃ c ∈ ['8', '9', 'a', 'b'], (toUUID5 name).data[19]? = some c := by
  rw [toUUID5_eq_of_sum name _ rfl (Sha1.length_sum _) (Sha1.sum_lt _)]
  obtain ⟨hl, hb, ⟨x, hx, h6⟩, ⟨y, hy, h8⟩⟩ := uuid5Bytes_spec namespaceDNS (bytesOf name)
  obtain ⟨h14, h19⟩ := hexRendering_version_variant _ hl
  obtain ⟨hlen, hshape⟩ := hexRendering_shape _ hl hb
  refine ⟨hlen, hshape, ?_, ?_⟩
  · rw [h14, h6, version_nibble x hx]
    rfl
  · exact ⟨_, by rw [h8]; exact variant_nibble y hy, h19⟩

end Weaviate

/-! ### The render fallback and the raw key -/

namespace Template

theorem executeInto_eq (t : List Node) (a : Aggregate) (sb : String) :
    ExecuteInto t a sb =
      match Execute t a with
      | none => ((ExecuteInto t a sb).1, true)
      | some s => (sb ++ s, false) := by
  induction t generalizing sb with
  | nil => simp [ExecuteInto, Execute]
  | cons n rest ih =>
    cases n with
    | text s =>
      simp only [ExecuteInto, Execute]
      rw [ih]
      cases Execute rest a <;> simp [String.append_assoc]
    | field name =>
      simp only [ExecuteInto, Execute]
      cases fieldText a name with
      | none => simp
      | some v =>
        simp only []
        rw [ih]
        cases Execute rest a <;> simp [String.append_assoc]

theorem execute_eq_none_iff (t : List Node) (a : Aggregate) :
    Execute t a = none ↔ (ExecuteInto t a "").2 = true := by
  rw [executeInto_eq]
  cases Execute t a <;> simp

end Template

namespace Weaviate

/-- C16. Render fallback: for every exporter and every aggregate on which the execution of
the id template fails, `renderID` returns exactly the service, a colon and the window start
in decimal, whatever the template had written before it failed. -/
theorem renderID_fallback (e : Exporter) (a : Aggregate)
    (hfail : (Template.ExecuteInto e.idTemplate a "").2 = true) :
    e.renderID a = a.Service ++ ":" ++ Fmt.formatInt a.WindowStart := by
  have h := (Template.execute_eq_none_iff e.idTemplate a).mpr hfail
  simp [Exporter.renderID, h]

/-- Witness of C16: the template `id-{{.Service}}-{{.Shard}}` writes `id-payment-svc-` and
then fails on the missing field; the raw key is `payment-svc:0`. -/
theorem renderID_fallback_witness :
    New shardCfg = .exporter shardExporter ∧
    Template.ExecuteInto shardExporter.idTemplate sampleAggregate "" = ("id-payment-svc-", true) ∧
    shardExporter.renderID sampleAggregate = "payment-svc:0" :=
  ⟨by decide, by decide,
    (renderID_fallback shardExporter sampleAggregate (by decide)).trans (by decide)⟩

end Weaviate

namespace Fmt

theorem digitChar_value : ∀ k, k < 10 → (Nat.digitChar k).toNat - 48 = k := by
  decide

theorem digitChar_isDigit : ∀ k, k < 10 → (Nat.digitChar k).isDigit = true := by
  decide

theorem toDigitsCore_append (f n : Nat) (ds : List Char) :
    Nat.toDigitsCore 10 f n ds = Nat.toDigitsCore 10 f n [] ++ ds := by
  induction f generalizing n ds with
  | zero => simp [Nat.toDigitsCore]
  | succ f ih =>
    simp only [Nat.toDigitsCore]
    split_ifs
    · simp
    · rw [ih, ih (n / 10) [Nat.digitChar (n % 10)]]
      simp

theorem digitsValue_append (l : List Char) (c : Char) :
    digitsValue (l ++ [c]) = digitsValue l * 10 + (c.toNat - 48) := by
  simp [digitsValue, List.foldl_append]

theorem digitsValue_toDigitsCore (f n : Nat) (h : n < f) :
    digitsValue (Nat.toDigitsCore 10 f n []) = n := by
  induction f generalizing n with
  | zero => omega
  | succ f ih =>
    simp only [Nat.toDigitsCore]
    split_ifs with h0
    · have hn : n < 10 := by omega
      have hv := digitChar_value _ (Nat.mod_lt n (by norm_num : 0 < 10))
      rw [Nat.mod_eq_of_lt hn] at hv ⊢
      simpa [digitsValue] using hv
    · rw [toDigitsCore_append, digitsValue_append, ih (n / 10) (by omega),
        digitChar_value _ (Nat.mod_lt n (by norm_num))]
      omega

theorem isDigit_of_mem_toDigitsCore (f n : Nat) (ds : List Char) (c : Char)
    (h : c ∈ Nat.toDigitsCore 10 f n ds) : c ∈ ds ∨ c.isDigit = true := by
  induction f generalizing n ds with
  | zero => exact Or.inl (by simpa [Nat.toDigitsCore] using h)
  | succ f ih =>
    simp only [Nat.toDigitsCore] at h
    split_ifs at h
    · rcases List.mem_cons.mp h with rfl | h
      · exact Or.inr (digitChar_isDigit _ (Nat.mod_lt n (by norm_num)))
      · exact Or.inl h
    · rcases ih _ _ h with h | h
      · rcases List.mem_cons.mp h with rfl | h
        · exact Or.inr (digitChar_isDigit _ (Nat.mod_lt n (by norm_num)))
        · exact Or.inl h
      · exact Or.inr h

theorem data_repr (n : Nat) : (Nat.repr n).data = Nat.toDigits 10 n := rfl

theorem repr_injective (n m : Nat) (h : Nat.repr n = Nat.repr m) : n = m := by
  have hd : Nat.toDigits 10 n = Nat.toDigits 10 m := by
    rw [← data_repr, ← data_repr, h]
  have hn := digitsValue_toDigitsCore (n + 1) n (by omega)
  have hm := digitsValue_toDigitsCore (m + 1) m (by omega)
  unfold Nat.toDigits at hd
  rw [hd] at hn
  omega

theorem isDigit_of_mem_repr (n : Nat) (c : Char) (h : c ∈ (Nat.repr n).data) :
    c.isDigit = true := by
  rw [data_repr] at h
  rcases isDigit_of_mem_toDigitsCore _ _ _ _ h with h | h
  · simp at h
  · exact h

theorem colon_not_mem_formatInt (i : Int) : ':' ∉ (formatInt i).data := by
  intro h
  cases i with
  | ofNat n => exact absurd (isDigit_of_mem_repr n _ h) (by decide)
  | negSucc n =>
    simp only [formatInt, String.data_append] at h
    rcases List.mem_append.mp h with h | h
    · exact absurd h (by decide)
    · exact absurd (isDigit_of_mem_repr _ _ h) (by decide)

theorem formatInt_injective (i j : Int) (h : formatInt i = formatInt j) : i = j := by
  have hd := congrArg String.data h
  cases i with
  | ofNat n =>
    cases j with
    | ofNat m => rw [repr_injective n m h]
    | negSucc m =>
      simp only [formatInt, String.data_append] at hd
      have hmem : '-' ∈ (Nat.repr n).data := by rw [hd]; simp
      exact absurd (isDigit_of_mem_repr n _ hmem) (by decide)
  | negSucc n =>
    cases j with
    | ofNat m =>
      simp only [formatInt, String.data_append] at hd
      have hmem : '-' ∈ (Nat.repr m).data := by rw [← hd]; simp
      exact absurd (isDigit_of_mem_repr m _ hmem) (by decide)
    | negSucc m =>
      simp only [formatInt, String.data_append] at hd
      have hd2 : (Nat.repr (n + 1)).data = (Nat.repr (m + 1)).data := by
        simpa using hd
      have := repr_injective (n + 1) (m + 1) (String.ext hd2)
      have hnm : n = m := by omega
      rw [hnm]

end Fmt

namespace Weaviate

theorem split_at_separator (c : Char) (l1 l2 r1 r2 : List Char) (h1 : c ∉ l1) (h2 : c ∉ l2)
    (h : l1 ++ c :: r1 = l2 ++ c :: r2) : l1 = l2 ∧ r1 = r2 := by
  induction l1 generalizing l2 with
  | nil =>
    cases l2 with
    | nil => simpa using h
    | cons x l2 =>
      simp only [List.nil_append, List.cons_append, List.cons.injEq] at h
      exact absurd (h.1 ▸ List.mem_cons_self _ _) h2
  | cons y l1 ih =>
    cases l2 with
    | nil =>
      simp only [List.nil_append, List.cons_append, List.cons.injEq] at h
      exact absurd (h.1 ▸ List.mem_cons_self _ _) h1
    | cons x l2 =>
      simp only [List.cons_append, List.cons.injEq] at h
      obtain ⟨hl, hr⟩ := ih l2 (fun hm => h1 (List.mem_cons_of_mem _ hm))
        (fun hm => h2 (List.mem_cons_of_mem _ hm)) h.2
      exact ⟨by rw [h.1, hl], hr⟩

theorem raw_key_injective (s1 s2 t1 t2 : String) (i j : Int)
    (h1 : ':' ∉ s1.data) (h2 : ':' ∉ s2.data)
    (h : s1 ++ ":" ++ Fmt.formatInt i ++ ":" ++ t1 = s2 ++ ":" ++ Fmt.formatInt j ++ ":" ++ t2) :
    s1 = s2 ∧ i = j ∧ t1 = t2 := by
  have hd := congrArg String.data h
  simp only [String.data_append, List.append_assoc] at hd
  simp only [List.singleton_append] at hd
  obtain ⟨hs, hrest⟩ := split_at_separator ':' _ _ _ _ h1 h2 hd
  obtain ⟨hi, ht⟩ := split_at_separator ':' _ _ _ _ (Fmt.colon_not_mem_formatInt i)
    (Fmt.colon_not_mem_formatInt j) hrest
  exact ⟨String.ext hs, Fmt.formatInt_injective i j (String.ext hi), String.ext ht⟩

/-- C19. Under the default id template the raw key is injective on aggregates whose service
name has no colon: equal raw keys give equal service, window start and summary text.
Without that condition it is not: `("a", 1, "2:x")` and `("a:1", 2, "x")` both render to
`a:1:2:x`, and so get the same object ID. -/
theorem renderID_injective_without_colon :
    (∀ (cfg : ExporterCfg) (e : Exporter) (a b : Aggregate),
      cfg.IDTemplate = "" → New cfg = .exporter e →
      ':' ∉ a.Service.data → ':' ∉ b.Service.data →
      e.renderID a = e.renderID b →
      a.Service = b.Service ∧ a.WindowStart = b.WindowStart ∧
        a.SummaryText = b.SummaryText) ∧
    (New sampleCfg = .exporter sampleExporter ∧
      colonInSummary.Service ≠ colonInService.Service ∧
      sampleExporter.renderID colonInSummary = "a:1:2:x" ∧
      sampleExporter.renderID colonInService = "a:1:2:x" ∧
      sampleExporter.objectID colonInSummary = sampleExporter.objectID colonInService) := by
  refine ⟨?_, by decide, by decide, by decide, by decide, by decide⟩
  intro cfg e a b hcfg he ha hb h
  rw [renderID_of_New_default cfg e a hcfg he, renderID_of_New_default cfg e b hcfg he] at h
  exact raw_key_injective _ _ _ _ _ _ ha hb h

/-- Witness of C19: `sampleAggregate` and `sampleTwin` have a service name without a colon
and the same raw key, and agree on service, window start and summary text. -/
theorem renderID_injective_without_colon_witness :
    sampleExporter.renderID sampleAggregate = sampleExporter.renderID sampleTwin ∧
    sampleAggregate.Service = sampleTwin.Service ∧
    sampleAggregate.WindowStart = sampleTwin.WindowStart ∧
    sampleAggregate.SummaryText = sampleTwin.SummaryText :=
  ⟨by decide,
    renderID_injective_without_colon.1 sampleCfg sampleExporter sampleAggregate sampleTwin rfl
      (by decide) (by decide) (by decide) (by decide)⟩

end Weaviate

/-! ### The payload -/

namespace Weaviate

theorem labelsJSON_recording {σ : Type} (env : Env σ) (a : Aggregate) :
    labelsJSON env.recording a = labelsJSON env a := rfl

theorem body_recording {σ : Type} (e : Exporter) (env : Env σ) (a : Aggregate) :
    e.body env.recording a = e.body env a := rfl

/-- The requests `upsert` hands to `client.Do`: when the URL parses, the one POST to
`/v1/objects` whose body is the marshalled `body` map, or empty when `json.Marshal` fails. -/
theorem upsert_posts {σ : Type} (e : Exporter) (env : Env σ) (s : σ) (a : Aggregate)
    (hurl : urlRejected (e.endpoint ++ "/v1/objects") = false)
    (hparse : env.urlParses (e.endpoint ++ "/v1/objects") = true) :
    (e.upsert env.recording (s, []) a).2.2
      = [{ method := "POST", url := e.endpoint ++ "/v1/objects",
           contentType := "application/json",
           body := if marshals (e.body env a) then some (e.body env a) else none }] := by
  have hparse' : env.recording.urlParses (e.endpoint ++ "/v1/objects") = true := hparse
  obtain ⟨req, hreq⟩ : ∃ req : Request, req =
      { method := "POST", url := e.endpoint ++ "/v1/objects",
        contentType := "application/json",
        body := if marshals (e.body env a) then some (e.body env a) else none } := ⟨_, rfl⟩
  have key : newRequest env.recording (e.endpoint ++ "/v1/objects") (e.body env.recording a)
      = some req := by
    rw [hreq]
    simp [newRequest, hurl, hparse', body_recording]
  rw [← hreq]
  unfold Exporter.upsert
  rw [key]
  simp only [Env.recording]
  rcases h : env.clientDo s req with ⟨r, s1⟩
  cases r <;> simp

/-- C15. Payload shape: for every aggregate the `body` map `upsert` builds has exactly the
keys `class`, `id`, `vector`, `properties`; `properties` is a map with exactly the keys
summary, service, window_start, window_end, p50, p95, p99, rps, error_rate, anomaly_score,
count, labels, locator, each holding the field of the aggregate of that name; `labels` holds
a string: `{}` when the label map is nil, what `json.Marshal` returns for the map when it is
not (and `{}` should the marshalling fail).  When the URL parses, the one request `upsert`
hands to `client.Do` carries this map marshalled; it carries an empty body instead when a
float of the map is an infinity or a NaN, for which `json.Marshal` fails. -/
theorem body_shape {σ : Type} (e : Exporter) (env : Env σ) (s : σ) (a : Aggregate) :
    (e.body env a).map Prod.fst = ["class", "id", "vector", "properties"] ∧
    (e.body env a).lookup "class" = some (.str e.className) ∧
    (e.body env a).lookup "id" = some (.str (toUUID5 (e.renderID a))) ∧
    (e.body env a).lookup "vector" = some (.floats a.Vector) ∧
    (∃ props : List (String × PropValue),
      (e.body env a).lookup "properties" = some (.props props) ∧
      props.map Prod.fst = propertyKeys ∧
      props.lookup "summary" = some (.str a.SummaryText) ∧
      props.lookup "service" = some (.str a.Service) ∧
      props.lookup "window_start" = some (.int a.WindowStart) ∧
      props.lookup "window_end" = some (.int a.WindowEnd) ∧
      props.lookup "p50" = some (.float a.P50) ∧
      props.lookup "p95" = some (.float a.P95) ∧
      props.lookup "p99" = some (.float a.P99) ∧
      props.lookup "rps" = some (.float a.RPS) ∧
      props.lookup "error_rate" = some (.float a.ErrorRate) ∧
      props.lookup "anomaly_score" = some (.float a.AnomalyScore) ∧
      props.lookup "count" = some (.int a.Count) ∧
      props.lookup "locator" = some (.str a.Locator) ∧
      ∃ labels : String,
        props.lookup "labels" = some (.str labels) ∧
        (a.Labels = none → labels = "{}") ∧
        (∀ m lb, a.Labels = some m → env.jsonMarshalLabels m = .ok lb → labels = lb) ∧
        (∀ m err, a.Labels = some m → env.jsonMarshalLabels m = .error err →
          labels = "{}")) ∧
    (urlRejected (e.endpoint ++ "/v1/objects") = false →
      env.urlParses (e.endpoint ++ "/v1/objects") = true →
      (e.upsert env.recording (s, []) a).2.2
        = [{ method := "POST", url := e.endpoint ++ "/v1/objects",
             contentType := "application/json",
             body := if marshals (e.body env a) then some (e.body env a) else none }]) ∧
    (marshals (e.body env a) = true ↔
      (a.Vector.all Float64.isFinite = true ∧ a.P50.isFinite = true ∧ a.P95.isFinite = true ∧
        a.P99.isFinite = true ∧ a.RPS.isFinite = true ∧ a.ErrorRate.isFinite = true ∧
        a.AnomalyScore.isFinite = true)) := by
  refine ⟨rfl, rfl, rfl, rfl, ⟨_, rfl, rfl, rfl, rfl, rfl, rfl, rfl, rfl, rfl, rfl, rfl, rfl,
    rfl, rfl, labelsJSON env a, rfl, ?_, ?_, ?_⟩, upsert_posts e env s a, ?_⟩
  · intro h
    simp [labelsJSON, h]
  · intro m lb h hm
    simp [labelsJSON, h, hm]
  · intro m err h hm
    simp [labelsJSON, h, hm]
  · simp [marshals, Exporter.body, BodyValue.marshals, PropValue.marshals]

/-- Witness of C15: the request `upsert` sends for `sampleAggregate` carries the body map
with the labels marshalled by the sample store; the one it sends for `sampleNaN`, whose p50
is a NaN, carries an empty body. -/
theorem body_shape_witness :
    (sampleExporter.upsert (replyWith 200).recording ((), []) sampleAggregate).2.2
      = [{ method := "POST", url := "http://localhost:8080/v1/objects",
           contentType := "application/json",
           body := some (sampleExporter.body (replyWith 200) sampleAggregate) }] ∧
    (∃ props : List (String × PropValue),
      (sampleExporter.body (replyWith 200) sampleAggregate).lookup "properties"
        = some (.props props) ∧
      props.lookup "labels" = some (.str "\x7b\x22region\x22:\x22eu\x22\x7d")) ∧
    (sampleExporter.upsert (replyWith 200).recording ((), []) sampleNaN).2.2
      = [{ method := "POST", url := "http://localhost:8080/v1/objects",
           contentType := "application/json", body := none }] := by
  obtain ⟨-, -, -, -, ⟨props, hp, -, -, -, -, -, -, -, -, -, -, -, -, -, labels, hl, -, h2, -⟩,
      hpost, -⟩ := body_shape sampleExporter (replyWith 200) () sampleAggregate
  refine ⟨?_, ⟨props, hp, ?_⟩, ?_⟩
  · rw [hpost (by decide) (by decide)]
    decide
  · rw [hl, h2 [("region", "eu")] _ rfl rfl]
  · rw [(body_shape sampleExporter (replyWith 200) () sampleNaN).2.2.2.2.2.1 (by decide)
      (by decide)]
    decide

end Weaviate

/-! ### Cancellation of the fan-out task -/

namespace Pipeline

theorem deliver_step (i : Nat) (env : Envelope) (w : World) :
    ∃ e w1, (if i > 0 then w.copyBytes env else (env, w)) = (e, w1) ∧
      w1.closed = w.closed ∧ w1.sent = w.sent := by
  split_ifs <;> exact ⟨_, _, rfl, rfl, rfl⟩

theorem deliver_closed (ctxDone : Nat → Bool) (env : Envelope) (subs : List RxSub)
    (i k : Nat) (w : World) : (deliver ctxDone env subs i k w).2.2.closed = w.closed := by
  induction subs generalizing i k w with
  | nil => rfl
  | cons sub rest ih =>
    obtain ⟨e, w1, hew, hcl, -⟩ := deliver_step i env w
    simp only [deliver, hew]
    by_cases hd : ctxDone k = true
    · simp [hd, hcl]
    · by_cases hc : sub.ch ∈ w.closed
      · simp [hd, World.send, hcl, hc]
      · simp only [hd, World.send, hcl, hc, if_false, Bool.false_eq_true]
        rw [ih]

theorem deliver_none (ctxDone : Nat → Bool) (env : Envelope) (subs : List RxSub)
    (i k k1 : Nat) (w w1 : World) (h : deliver ctxDone env subs i k w = (none, k1, w1)) :
    k1 = k + subs.length ∧ w1.sent.length = w.sent.length + subs.length ∧
    ∀ j, k ≤ j → j < k1 → ctxDone j = false := by
  induction subs generalizing i k w with
  | nil =>
    simp only [deliver, Prod.mk.injEq, true_and] at h
    obtain ⟨rfl, rfl⟩ := h
    exact ⟨rfl, rfl, fun j h1 h2 => by omega⟩
  | cons sub rest ih =>
    obtain ⟨e, w2, hew, -, hse⟩ := deliver_step i env w
    simp only [deliver, hew] at h
    by_cases hd : ctxDone k = true
    · simp [hd] at h
    · by_cases hc : sub.ch ∈ w2.closed
      · simp [hd, World.send, hc] at h
      · simp only [hd, World.send, hc, if_false, Bool.false_eq_true] at h
        obtain ⟨h1, h2, h3⟩ := ih _ _ _ h
        refine ⟨by simp; omega, by simp [hse] at h2 ⊢; omega, ?_⟩
        intro j hj1 hj2
        rcases Nat.eq_or_lt_of_le hj1 with rfl | hlt
        · simpa using hd
        · exact h3 j (by omega) hj2

theorem deliver_open (ctxDone : Nat → Bool) (env : Envelope) (subs : List RxSub)
    (i k : Nat) (w : World) (hopen : ∀ sub ∈ subs, sub.ch ∉ w.closed) :
    (deliver ctxDone env subs i k w).1 = none ∨
    (deliver ctxDone env subs i k w).1 = some .cancelled := by
  induction subs generalizing i k w with
  | nil => exact Or.inl rfl
  | cons sub rest ih =>
    have hch : sub.ch ∉ w.closed := hopen sub (by simp)
    have hrest : ∀ s ∈ rest, s.ch ∉ w.closed := fun s hs => hopen s (by simp [hs])
    obtain ⟨e, w1, hew, hcl, -⟩ := deliver_step i env w
    simp only [deliver, hew]
    by_cases hd : ctxDone k = true
    · simp [hd]
    · simp only [hd, World.send, hcl, hch, if_false, Bool.false_eq_true]
      exact ih _ _ _ (by simpa [hcl] using hrest)

theorem closeAll_exit (subs : List RxSub) (w : World) :
    (closeAll subs w).1 ≠ .cancelled := by
  induction subs generalizing w with
  | nil => simp [closeAll]
  | cons sub rest ih =>
    simp only [closeAll, World.close]
    split_ifs
    · simp
    · exact ih _

theorem fanOut_cancelled_closed (ctxDone : Nat → Bool) (subs : List RxSub)
    (envs : List Envelope) (sharedClosed : Bool) (k : Nat) (w : World)
    (h : (fanOut ctxDone subs envs sharedClosed k w).1 = .cancelled) :
    (fanOut ctxDone subs envs sharedClosed k w).2.closed = w.closed := by
  induction envs generalizing k w with
  | nil =>
    simp only [fanOut] at h ⊢
    split_ifs at h ⊢ with hs
    exact absurd h (closeAll_exit subs w)
  | cons env rest ih =>
    simp only [fanOut] at h ⊢
    have hc := deliver_closed ctxDone env subs 0 k w
    rcases hd : deliver ctxDone env subs 0 k w with ⟨x, k1, w1⟩
    rw [hd] at hc h
    cases x with
    | some exit => exact hc
    | none =>
      simp only [] at h hc ⊢
      rw [ih k1 w1 h]
      exact hc

theorem fanOut_closed_only_after_drain (ctxDone : Nat → Bool) (subs : List RxSub)
    (envs : List Envelope) (sharedClosed : Bool) (k : Nat) (w : World)
    (h : (fanOut ctxDone subs envs sharedClosed k w).2.closed ≠ w.closed) :
    sharedClosed = true ∧
    (fanOut ctxDone subs envs sharedClosed k w).2.sent.length
      = w.sent.length + envs.length * subs.length ∧
    ∀ j, k ≤ j → j < k + envs.length * subs.length → ctxDone j = false := by
  induction envs generalizing k w with
  | nil =>
    simp only [fanOut] at h ⊢
    split_ifs at h ⊢ with hs
    · exact ⟨hs, by simp [(closeAll_frame subs w).2], fun j h1 h2 => by simp at h2; omega⟩
    · exact absurd rfl h
  | cons env rest ih =>
    simp only [fanOut] at h ⊢
    have hc := deliver_closed ctxDone env subs 0 k w
    rcases hd : deliver ctxDone env subs 0 k w with ⟨x, k1, w1⟩
    rw [hd] at hc h
    cases x with
    | some exit => exact absurd hc h
    | none =>
      simp only [] at h hc ⊢
      obtain ⟨hk1, hsent, hfalse⟩ := deliver_none ctxDone env subs 0 k k1 w w1 hd
      obtain ⟨h1, h2, h3⟩ := ih k1 w1 (by rw [hc]; exact h)
      refine ⟨h1, ?_, ?_⟩
      · rw [h2, hsent, List.length_cons, Nat.succ_mul]
        omega
      · intro j hj1 hj2
        by_cases hlt : j < k1
        · exact hfalse j hj1 hlt
        · refine h3 j (by omega) ?_
          rw [List.length_cons, Nat.succ_mul] at hj2
          omega

theorem fanOut_cancelled_of_done (ctxDone : Nat → Bool) (subs : List RxSub)
    (envs : List Envelope) (sharedClosed : Bool) (k : Nat) (w : World)
    (hopen : ∀ sub ∈ subs, sub.ch ∉ w.closed)
    (j : Nat) (hj1 : k ≤ j) (hj2 : j < k + envs.length * subs.length)
    (hj : ctxDone j = true) :
    (fanOut ctxDone subs envs sharedClosed k w).1 = .cancelled := by
  induction envs generalizing k w with
  | nil => simp at hj2; omega
  | cons env rest ih =>
    simp only [fanOut]
    have hc := deliver_closed ctxDone env subs 0 k w
    have hop := deliver_open ctxDone env subs 0 k w hopen
    rcases hd : deliver ctxDone env subs 0 k w with ⟨x, k1, w1⟩
    rw [hd] at hc hop
    simp only [] at hc hop
    rcases hop with rfl | rfl
    · obtain ⟨hk1, -, hfalse⟩ := deliver_none ctxDone env subs 0 k k1 w w1 hd
      simp only []
      refine ih k1 w1 (by simpa [hc] using hopen) ?_ ?_
      · by_contra hlt
        have := hfalse j hj1 (by omega)
        rw [hj] at this
        exact absurd this (by simp)
      · rw [List.length_cons, Nat.succ_mul] at hj2
        omega
    · rfl

/-- C18. Cancellation during broadcast. A fan-out task that leaves through the
`<-ctx.Done()` case of a `select` has closed no channel.  A fan-out task that has closed a
channel found the shared channel closed, after sending every envelope it read to every
subscriber with no `select` taking the `<-ctx.Done()` case.  And with the subscriber channels
open, a task whose context is done at one of the `select`s of its deliveries leaves through
that case. -/
theorem fanOut_cancellation (ctxDone : Nat → Bool) (subs : List RxSub)
    (envs : List Envelope) (sharedClosed : Bool) (k : Nat) (w : World) :
    ((fanOut ctxDone subs envs sharedClosed k w).1 = .cancelled →
      (fanOut ctxDone subs envs sharedClosed k w).2.closed = w.closed) ∧
    ((fanOut ctxDone subs envs sharedClosed k w).2.closed ≠ w.closed →
      sharedClosed = true ∧
      (fanOut ctxDone subs envs sharedClosed k w).2.sent.length
        = w.sent.length + envs.length * subs.length ∧
      ∀ j, k ≤ j → j < k + envs.length * subs.length → ctxDone j = false) ∧
    ((∀ sub ∈ subs, sub.ch ∉ w.closed) →
      ∀ j, k ≤ j → j < k + envs.length * subs.length → ctxDone j = true →
        (fanOut ctxDone subs envs sharedClosed k w).1 = .cancelled) :=
  ⟨fanOut_cancelled_closed ctxDone subs envs sharedClosed k w,
    fanOut_closed_only_after_drain ctxDone subs envs sharedClosed k w,
    fun hopen j h1 h2 hj =>
      fanOut_cancelled_of_done ctxDone subs envs sharedClosed k w hopen j h1 h2 hj⟩

/-- Witness of C18: three subscribers, two envelopes read, the shared channel closed, and the
context done from the fifth `select` on: the task leaves in the middle of the second
broadcast with four sends made and no channel closed. -/
theorem fanOut_cancellation_witness :
    (fanOut (doneFrom 4) sampleSubs [sampleEnvelope, { sampleEnvelope with Kind := .JSONLogs }]
        true 0 sampleWorld).1 = .cancelled ∧
    (fanOut (doneFrom 4) sampleSubs [sampleEnvelope, { sampleEnvelope with Kind := .JSONLogs }]
        true 0 sampleWorld).2.closed = sampleWorld.closed ∧
    (fanOut (doneFrom 4) sampleSubs [sampleEnvelope, { sampleEnvelope with Kind := .JSONLogs }]
        true 0 sampleWorld).2.sent.length = 4 :=
  have h := fanOut_cancellation (doneFrom 4) sampleSubs
    [sampleEnvelope, { sampleEnvelope with Kind := .JSONLogs }] true 0 sampleWorld
  have hc := h.2.2 (by decide) 4 (by decide) (by decide) (by decide)
  ⟨hc, h.1 hc, by decide⟩

end Pipeline

/-! ### The OTLP gRPC receiver -/

namespace Otlpgrpc

open Pipeline

theorem publish_open (kind : Kind) (b : List Nat) (now : Int) (out : Nat) (q : Queue)
    (w : World) (hopen : out ∉ w.closed) :
    publish kind b now out q w =
      if q.accepts w out then
        .done { heap := w.heap ++ [b], closed := w.closed,
                sent := w.sent ++
                  [(out, { Kind := kind, Bytes := w.heap.length, TSUnix := now })] }
      else .blocked { heap := w.heap ++ [b], closed := w.closed, sent := w.sent } := by
  simp [publish, World.send, hopen]

/-- Counterexample to C20 as stated: the output channel holds its 64 envelopes, none taken,
and the fan-out task has left, as it does when the context is cancelled in the middle of a
broadcast; the call of `Export` marshals its request and then stays in the send: it does not
return and it publishes nothing.  With one envelope taken from the channel the same call
returns. -/
theorem export_blocks_on_full_channel :
    Queue.buffered ⟨64, 0, false⟩ fullWorld 0 = 64 ∧
    Server.handle { metrics := { out := 0 }, logs := { out := 0 } }
        (.metricsExport [0x0a, 0x01, 0x00]) 1700000000 ⟨64, 0, false⟩ fullWorld
      = .blocked { fullWorld with heap := fullWorld.heap ++ [[0x0a, 0x01, 0x00]] } ∧
    Server.handle { metrics := { out := 0 }, logs := { out := 0 } }
        (.logsExport [0x0a, 0x01, 0x00]) 1700000000 ⟨64, 0, false⟩ fullWorld
      = .blocked { fullWorld with heap := fullWorld.heap ++ [[0x0a, 0x01, 0x00]] } ∧
    Server.handle { metrics := { out := 0 }, logs := { out := 0 } }
        (.metricsExport [0x0a, 0x01, 0x00]) 1700000000 ⟨64, 1, false⟩ fullWorld
      = .returned { responseEmpty := true, err := none }
          { fullWorld with
            heap := fullWorld.heap ++ [[0x0a, 0x01, 0x00]]
            sent := fullWorld.sent ++
              [(0, { Kind := .Metrics, Bytes := 1, TSUnix := 1700000000 })] } := by
  decide

/-- C20, amended. Every `Export` call the OTLP gRPC receiver serves whose send on the open
output channel completes (the channel has a free slot, or the task reading it takes another
envelope) publishes exactly one envelope on that channel and returns an empty response with
a nil error.  The envelope of the metrics service has kind `Metrics`, that of the logs
service kind `JSONLogs`; its bytes are those `proto.Marshal` returned for the request, its
timestamp is the clock's; no call publishes an envelope of kind `Logs` or `Traces`.  A call
made while the channel is full and nothing receives from it does not return and publishes
nothing. -/
theorem export_publishes_one (r : Receiver) (out : Nat) (srv : Server) (call : Call)
    (now : Int) (q : Queue) (w : World)
    (hstart : r.Start none out = .ok srv) (hopen : out ∉ w.closed) :
    (q.accepts w out = true →
      ∃ (env : Envelope) (w1 : World),
        srv.handle call now q w = .returned { responseEmpty := true, err := none } w1 ∧
        w1.sent = w.sent ++ [(out, env)] ∧ w1.closed = w.closed ∧
        env.Kind = call.kind ∧ env.TSUnix = now ∧ w1.bytes env.Bytes = call.bytes ∧
        (∀ addr, addr < w.heap.length → w1.bytes addr = w.bytes addr) ∧
        env.Kind ≠ .Logs ∧ env.Kind ≠ .Traces) ∧
    (q.accepts w out = false →
      ∃ w1 : World, srv.handle call now q w = .blocked w1 ∧
        w1.sent = w.sent ∧ w1.closed = w.closed) := by
  simp only [Receiver.Start, Except.ok.injEq] at hstart
  subst hstart
  refine ⟨fun hq => ?_, fun hq => ?_⟩
  · cases call with
    | metricsExport b =>
      refine ⟨{ Kind := .Metrics, Bytes := w.heap.length, TSUnix := now },
        { heap := w.heap ++ [b], closed := w.closed,
          sent := w.sent ++
            [(out, { Kind := .Metrics, Bytes := w.heap.length, TSUnix := now })] },
        ?_, rfl, rfl, rfl, rfl, ?_, ?_, by simp, by simp⟩
      · simp only [Server.handle, MetricsSvc.Export, publish_open _ _ _ _ _ _ hopen, hq,
          if_true]
      · simp [World.bytes, Call.bytes]
      · intro addr haddr
        simp [World.bytes, List.getD_eq_getElem?_getD, List.getElem?_append_left haddr]
    | logsExport b =>
      refine ⟨{ Kind := .JSONLogs, Bytes := w.heap.length, TSUnix := now },
        { heap := w.heap ++ [b], closed := w.closed,
          sent := w.sent ++
            [(out, { Kind := .JSONLogs, Bytes := w.heap.length, TSUnix := now })] },
        ?_, rfl, rfl, rfl, rfl, ?_, ?_, by simp, by simp⟩
      · simp only [Server.handle, LogsSvc.Export, publish_open _ _ _ _ _ _ hopen, hq,
          if_true]
      · simp [World.bytes, Call.bytes]
      · intro addr haddr
        simp [World.bytes, List.getD_eq_getElem?_getD, List.getElem?_append_left haddr]
  · cases call with
    | metricsExport b =>
      exact ⟨{ heap := w.heap ++ [b], closed := w.closed, sent := w.sent },
        by simp [Server.handle, MetricsSvc.Export, publish_open _ _ _ _ _ _ hopen, hq],
        rfl, rfl⟩
    | logsExport b =>
      exact ⟨{ heap := w.heap ++ [b], closed := w.closed, sent := w.sent },
        by simp [Server.handle, LogsSvc.Export, publish_open _ _ _ _ _ _ hopen, hq],
        rfl, rfl⟩

/-- Witness of C20 amended: a logs export of three bytes on channel 0 of `fullWorld`, from
which the fan-out task has taken 54 of the 64 envelopes sent. -/
theorem export_publishes_one_witness :
    ∃ (env : Envelope) (w1 : World),
      Server.handle { metrics := { out := 0 }, logs := { out := 0 } }
          (.logsExport [0x0a, 0x01, 0x00]) 1700000000 ⟨64, 54, false⟩ fullWorld
        = .returned { responseEmpty := true, err := none } w1 ∧
      w1.sent = fullWorld.sent ++ [(0, env)] ∧ env.Kind = .JSONLogs ∧
      w1.bytes env.Bytes = [0x0a, 0x01, 0x00] := by
  obtain ⟨env, w1, h1, h2, -, h4, -, h6, -⟩ :=
    (export_publishes_one (New ⟨"otlpgrpc", "", ":4317", none⟩) 0
      { metrics := { out := 0 }, logs := { out := 0 } } (.logsExport [0x0a, 0x01, 0x00])
      1700000000 ⟨64, 54, false⟩ fullWorld rfl (by decide)).1 (by decide)
  exact ⟨env, w1, h1, h2, h4, h6⟩

end Otlpgrpc

/-! ### The factory builders -/

namespace Pipeline

theorem receiverCtor_ok_iff (key : String) (rc : ReceiverCfg) :
    (∃ c, receiverCtor key rc = .ok c) ↔ recognisedReceiver rc = true := by
  unfold receiverCtor recognisedReceiver
  by_cases h1 : rc.Type_ = "otlpgrpc"
  · simp [h1]
  by_cases h2 : rc.Type_ = "otlphttp"
  · simp [h2]
  by_cases h3 : rc.Type_ = "kafka"
  · simp [h3]
  by_cases h4 : rc.Type_ = "pulsar"
  · simp [h4]
  by_cases h5 : rc.Type_ = "promremotewrite"
  · simp [h5]
  by_cases h6 : rc.Type_ = "promrw"
  · simp [h6]
  by_cases h7 : rc.Type_ = "jsonlogs"
  · by_cases h8 : rc.Name = "http"
    · simp [h7, h8]
    · by_cases h9 : rc.Name = "kafka"
      · simp [h7, h9]
      · simp [h7, h8, h9]
  · simp [h1, h2, h3, h4, h5, h6, h7]

theorem buildReceiversFrom_spec (l : List (String × ReceiverCfg)) (next : Nat) :
    ((∃ msg, buildReceiversFrom l next = .error (.error msg)) ↔
      ∃ x ∈ l, recognisedReceiver x.2 = false) ∧
    ((∀ x ∈ l, recognisedReceiver x.2 = true) →
      ∃ m, buildReceiversFrom l next = .ok (m, next + l.length) ∧
        m.map Prod.fst = l.map Prod.fst ∧
        m.map (fun x => x.2.addr) = (List.range l.length).map (next + ·) ∧
        ∀ x ∈ m, x.2.key = x.1) ∧
    (∀ f, buildReceiversFrom l next = .error f → ∃ msg, f = .error msg) := by
  induction l generalizing next with
  | nil => simp [buildReceiversFrom]
  | cons hd tl ih =>
    obtain ⟨key, rc⟩ := hd
    obtain ⟨ih1, ih2, ih3⟩ := ih (next + 1)
    have hok := receiverCtor_ok_iff key rc
    simp only [buildReceiversFrom]
    cases hc : receiverCtor key rc with
    | error msg =>
      have hrec : recognisedReceiver rc = false := by
        cases hr : recognisedReceiver rc with
        | false => rfl
        | true =>
          obtain ⟨c, hc'⟩ := hok.mpr hr
          rw [hc] at hc'
          exact absurd hc' (by simp)
      refine ⟨⟨fun _ => ⟨(key, rc), by simp, hrec⟩, fun _ => ⟨msg, rfl⟩⟩, ?_, ?_⟩
      · intro hall
        have := hall (key, rc) (by simp)
        rw [hrec] at this
        exact absurd this (by simp)
      · intro f hf
        simp only [Except.error.injEq] at hf
        exact ⟨msg, hf.symm⟩
    | ok ctor =>
      have hrec : recognisedReceiver rc = true := hok.mp ⟨ctor, hc⟩
      simp only []
      cases hrest : buildReceiversFrom tl (next + 1) with
      | error f =>
        obtain ⟨msg, rfl⟩ := ih3 f hrest
        obtain ⟨x, hx, hx'⟩ := ih1.mp ⟨msg, hrest⟩
        refine ⟨⟨fun _ => ⟨x, by simp [hx], hx'⟩, fun _ => ⟨msg, rfl⟩⟩, ?_, ?_⟩
        · intro hall
          have := hall x (by simp [hx])
          rw [hx'] at this
          exact absurd this (by simp)
        · intro f hf
          simp only [Except.error.injEq] at hf
          exact ⟨msg, hf.symm⟩
      | ok r =>
        obtain ⟨m, n⟩ := r
        have hnone : ¬ ∃ x ∈ tl, recognisedReceiver x.2 = false := by
          intro hex
          obtain ⟨msg, hmsg⟩ := ih1.mpr hex
          rw [hrest] at hmsg
          exact absurd hmsg (by simp)
        have hall : ∀ x ∈ tl, recognisedReceiver x.2 = true := by
          intro x hx
          cases hr : recognisedReceiver x.2 with
          | true => rfl
          | false => exact absurd ⟨x, hx, hr⟩ hnone
        obtain ⟨m', hm', hkeys, haddrs, hkey⟩ := ih2 hall
        rw [hrest] at hm'
        simp only [Except.ok.injEq, Prod.mk.injEq] at hm'
        obtain ⟨rfl, rfl⟩ := hm'
        refine ⟨⟨fun h => ?_, fun h => ?_⟩, ?_, ?_⟩
        · obtain ⟨msg, hmsg⟩ := h
          exact absurd hmsg (by simp)
        · obtain ⟨x, hx, hx'⟩ := h
          rcases List.mem_cons.mp hx with rfl | hx
          · rw [hrec] at hx'
            exact absurd hx' (by simp)
          · exact absurd ⟨x, hx, hx'⟩ hnone
        · intro _
          refine ⟨_, by simp only [List.length_cons]; congr 2; omega, by simp [hkeys], ?_, ?_⟩
          · simp only [List.map_cons, List.length_cons, haddrs]
            rw [List.range_succ_eq_map]
            simp [Function.comp_def, Nat.add_assoc, Nat.add_comm 1]
          · intro x hx
            rcases List.mem_cons.mp hx with rfl | hx
            · rfl
            · exact hkey x hx
        · intro f hf
          exact absurd hf (by simp)

theorem buildProcessorsFrom_spec (l : List (String × ProcessorCfg)) (next : Nat) :
    ((∃ msg, buildProcessorsFrom l next = .error (.error msg)) ↔
      ∃ x ∈ l, x.2.Type_ ∉ processorTypes) ∧
    ((∀ x ∈ l, x.2.Type_ ∈ processorTypes) → ∃ m n, buildProcessorsFrom l next = .ok (m, n)) ∧
    (∀ f, buildProcessorsFrom l next = .error f → ∃ msg, f = .error msg) := by
  induction l generalizing next with
  | nil => simp [buildProcessorsFrom]
  | cons hd tl ih =>
    obtain ⟨key, pc⟩ := hd
    obtain ⟨ih1, ih2, ih3⟩ := ih (next + 1)
    simp only [buildProcessorsFrom]
    by_cases hty : pc.Type_ ∈ processorTypes
    · simp only [hty, if_true]
      cases hrest : buildProcessorsFrom tl (next + 1) with
      | error f =>
        obtain ⟨msg, rfl⟩ := ih3 f hrest
        obtain ⟨x, hx, hx'⟩ := ih1.mp ⟨msg, hrest⟩
        refine ⟨⟨fun _ => ⟨x, by simp [hx], hx'⟩, fun _ => ⟨msg, rfl⟩⟩, ?_, ?_⟩
        · intro hall
          exact absurd (hall x (by simp [hx])) hx'
        · intro f hf
          simp only [Except.error.injEq] at hf
          exact ⟨msg, hf.symm⟩
      | ok r =>
        obtain ⟨m, n⟩ := r
        have hnone : ¬ ∃ x ∈ tl, x.2.Type_ ∉ processorTypes := by
          intro hex
          obtain ⟨msg, hmsg⟩ := ih1.mpr hex
          rw [hrest] at hmsg
          exact absurd hmsg (by simp)
        refine ⟨⟨fun h => ?_, fun h => ?_⟩, fun _ => ⟨_, _, rfl⟩, ?_⟩
        · obtain ⟨msg, hmsg⟩ := h
          exact absurd hmsg (by simp)
        · obtain ⟨x, hx, hx'⟩ := h
          rcases List.mem_cons.mp hx with rfl | hx
          · exact absurd hty hx'
          · exact absurd ⟨x, hx, hx'⟩ hnone
        · intro f hf
          exact absurd hf (by simp)
    · simp only [hty, if_false]
      refine ⟨⟨fun _ => ⟨(key, pc), by simp, hty⟩, fun _ => ⟨_, rfl⟩⟩, ?_, ?_⟩
      · intro hall
        exact absurd (hall (key, pc) (by simp)) hty
      · intro f hf
        simp only [Except.error.injEq] at hf
        exact ⟨_, hf.symm⟩

theorem buildExportersFrom_spec (parses : String → Bool) (l : List (String × ExporterCfg))
    (next : Nat)
    (hparse : ∀ x ∈ l, x.2.Type_ = "weaviate" → templateParses parses x.2 = true) :
    ((∃ msg, buildExportersFrom parses l next = .error (.error msg)) ↔
      ∃ x ∈ l, x.2.Type_ ≠ "weaviate") ∧
    ((∀ x ∈ l, x.2.Type_ = "weaviate") →
      ∃ m n, buildExportersFrom parses l next = .ok (m, n)) ∧
    (∀ f, buildExportersFrom parses l next = .error f → ∃ msg, f = .error msg) := by
  induction l generalizing next with
  | nil => simp [buildExportersFrom]
  | cons hd tl ih =>
    obtain ⟨key, ec⟩ := hd
    obtain ⟨ih1, ih2, ih3⟩ := ih (next + 1) (fun x hx => hparse x (by simp [hx]))
    simp only [buildExportersFrom]
    by_cases hty : ec.Type_ = "weaviate"
    · simp only [hty, if_true]
      cases hnew : newExporter parses ec with
      | none =>
        have := hparse (key, ec) (by simp) hty
        simp [templateParses, hnew] at this
      | some e =>
        simp only []
        cases hrest : buildExportersFrom parses tl (next + 1) with
        | error f =>
          obtain ⟨msg, rfl⟩ := ih3 f hrest
          obtain ⟨x, hx, hx'⟩ := ih1.mp ⟨msg, hrest⟩
          refine ⟨⟨fun _ => ⟨x, by simp [hx], hx'⟩, fun _ => ⟨msg, rfl⟩⟩, ?_, ?_⟩
          · intro hall
            exact absurd (hall x (by simp [hx])) hx'
          · intro f hf
            simp only [Except.error.injEq] at hf
            exact ⟨msg, hf.symm⟩
        | ok r =>
          obtain ⟨m, n⟩ := r
          have hnone : ¬ ∃ x ∈ tl, x.2.Type_ ≠ "weaviate" := by
            intro hex
            obtain ⟨msg, hmsg⟩ := ih1.mpr hex
            rw [hrest] at hmsg
            exact absurd hmsg (by simp)
          refine ⟨⟨fun h => ?_, fun h => ?_⟩, fun _ => ⟨_, _, rfl⟩, ?_⟩
          · obtain ⟨msg, hmsg⟩ := h
            exact absurd hmsg (by simp)
          · obtain ⟨x, hx, hx'⟩ := h
            rcases List.mem_cons.mp hx with rfl | hx
            · exact absurd hty hx'
            · exact absurd ⟨x, hx, hx'⟩ hnone
          · intro f hf
            exact absurd hf (by simp)
    · simp only [hty, if_false]
      refine ⟨⟨fun _ => ⟨(key, ec), by simp, hty⟩, fun _ => ⟨_, rfl⟩⟩, ?_, ?_⟩
      · intro hall
        exact absurd (hall (key, ec) (by simp)) hty
      · intro f hf
        simp only [Except.error.injEq] at hf
        exact ⟨_, hf.symm⟩

theorem buildExportersFrom_fatal (parses : String → Bool) (l : List (String × ExporterCfg))
    (next : Nat) (hall : ∀ x ∈ l, x.2.Type_ = "weaviate")
    (hbad : ∃ x ∈ l, templateParses parses x.2 = false) :
    buildExportersFrom parses l next
      = .error (.fatal "weaviate exporter: invalid id_template") := by
  induction l generalizing next with
  | nil => simp at hbad
  | cons hd tl ih =>
    obtain ⟨key, ec⟩ := hd
    have hty : ec.Type_ = "weaviate" := hall (key, ec) (by simp)
    simp only [buildExportersFrom, hty, if_true]
    cases hnew : newExporter parses ec with
    | none => rfl
    | some e =>
      have htl : ∃ x ∈ tl, templateParses parses x.2 = false := by
        obtain ⟨x, hx, hx'⟩ := hbad
        rcases List.mem_cons.mp hx with rfl | hx
        · simp [templateParses, hnew] at hx'
        · exact ⟨x, hx, hx'⟩
      simp only []
      rw [ih (next + 1) (fun x hx => hall x (by simp [hx])) htl]

/-- Counterexample to C13 as stated: the one exporter of `unclosedTemplateCfg` has the
recognised type `weaviate` and an id template with an action that is never closed, which
`template.Parse` rejects; `buildExporters` returns neither an error nor a map, because
`weaviate.New` ends the process in `log.Fatalf`. -/
theorem buildExporters_fatal_on_template :
    (∀ x ∈ unclosedTemplateCfg.Exporters, x.2.Type_ = "weaviate") ∧
    Template.Parse "\x7b\x7b.Service" = .error ∧
    buildExporters (fun _ => true) unclosedTemplateCfg 0
      = .error (.fatal "weaviate exporter: invalid id_template") ∧
    buildExporters (fun _ => false) unclosedTemplateCfg 0
      = .error (.fatal "weaviate exporter: invalid id_template") :=
  ⟨by decide, by decide, rfl, rfl⟩

/-- C13, amended. An unknown component type is a configuration error: `buildReceivers` and
`buildProcessors` each return an error if and only if some configured entry has a type tag
outside the recognised set, and otherwise return a map with exactly the configured keys;
`buildExporters` does the same for every configuration in which `template.Parse` accepts the
id template of each `weaviate` entry, and when every entry is of type `weaviate` and the id
template of one does not parse it returns nothing: `weaviate.New` ends the process. -/
theorem builders_reject_unknown_types (parses : String → Bool) (cfg : Config) (next : Nat) :
    ((∃ msg, buildReceivers cfg next = .error (.error msg)) ↔
      ∃ x ∈ cfg.Receivers, recognisedReceiver x.2 = false) ∧
    ((¬ ∃ x ∈ cfg.Receivers, recognisedReceiver x.2 = false) →
      ∃ m n, buildReceivers cfg next = .ok (m, n) ∧
        m.map Prod.fst = cfg.Receivers.map Prod.fst) ∧
    ((∃ msg, buildProcessors cfg next = .error (.error msg)) ↔
      ∃ x ∈ cfg.Processors, x.2.Type_ ∉
        ["spanmetrics", "summarizer", "iforest", "vectorizer", "logsum", "otlplogs",
          "filter"]) ∧
    ((¬ ∃ x ∈ cfg.Processors, x.2.Type_ ∉
        ["spanmetrics", "summarizer", "iforest", "vectorizer", "logsum", "otlplogs",
          "filter"]) →
      ∃ m n, buildProcessors cfg next = .ok (m, n) ∧
        m.map Prod.fst = cfg.Processors.map Prod.fst) ∧
    ((∀ x ∈ cfg.Exporters, x.2.Type_ = "weaviate" → templateParses parses x.2 = true) →
      ((∃ msg, buildExporters parses cfg next = .error (.error msg)) ↔
        ∃ x ∈ cfg.Exporters, x.2.Type_ ≠ "weaviate") ∧
      ((¬ ∃ x ∈ cfg.Exporters, x.2.Type_ ≠ "weaviate") →
        ∃ m n, buildExporters parses cfg next = .ok (m, n) ∧
          m.map Prod.fst = cfg.Exporters.map Prod.fst)) ∧
    ((∀ x ∈ cfg.Exporters, x.2.Type_ = "weaviate") →
      (∃ x ∈ cfg.Exporters, templateParses parses x.2 = false) →
      buildExporters parses cfg next
        = .error (.fatal "weaviate exporter: invalid id_template")) := by
  obtain ⟨r1, r2, -⟩ := buildReceiversFrom_spec cfg.Receivers next
  obtain ⟨p1, p2, -⟩ := buildProcessorsFrom_spec cfg.Processors next
  refine ⟨r1, ?_, p1, ?_, ?_, buildExportersFrom_fatal parses cfg.Exporters next⟩
  · intro hnone
    have hall : ∀ x ∈ cfg.Receivers, recognisedReceiver x.2 = true := by
      intro x hx
      cases hr : recognisedReceiver x.2 with
      | true => rfl
      | false => exact absurd ⟨x, hx, hr⟩ hnone
    obtain ⟨m, hm, hkeys, -⟩ := r2 hall
    exact ⟨m, _, hm, hkeys⟩
  · intro hnone
    have hall : ∀ x ∈ cfg.Processors, x.2.Type_ ∈ processorTypes := by
      intro x hx
      by_contra hne
      exact hnone ⟨x, hx, hne⟩
    obtain ⟨m, n, hm⟩ := p2 hall
    exact ⟨m, n, hm, (buildProcessorsFrom_ok _ _ _ _ hm).2.1⟩
  · intro hparse
    obtain ⟨e1, e2, -⟩ := buildExportersFrom_spec parses cfg.Exporters next hparse
    refine ⟨e1, ?_⟩
    intro hnone
    have hall : ∀ x ∈ cfg.Exporters, x.2.Type_ = "weaviate" := by
      intro x hx
      by_contra hne
      exact hnone ⟨x, hx, hne⟩
    obtain ⟨m, n, hm⟩ := e2 hall
    exact ⟨m, n, hm, (buildExportersFrom_ok _ _ _ _ _ hm).2.1⟩

/-- Witness of C13 amended: the three builders return maps with the configured keys for
`twoReceiverCfg`; `buildExporters` returns the map for the id template `{{.Count}}`, which
is outside the embedded fragment, when `template.Parse` accepts it; and `buildProcessors`
returns an error for the type `dedup`. -/
theorem builders_reject_unknown_types_witness :
    (∃ m n, buildReceivers twoReceiverCfg 0 = .ok (m, n) ∧ m.map Prod.fst = ["otlp", "kafka"]) ∧
    (∃ m n, buildExporters (fun _ => false) twoReceiverCfg 0 = .ok (m, n) ∧
      m.map Prod.fst = ["weaviate"]) ∧
    (∃ m n, buildExporters (fun t => t == "\x7b\x7b.Count\x7d\x7d") countTemplateCfg 0
        = .ok (m, n) ∧ m.map Prod.fst = ["weaviate"]) ∧
    (∃ msg, buildProcessors unknownProcessorCfg 0 = .error (.error msg)) :=
  ⟨(builders_reject_unknown_types (fun _ => false) twoReceiverCfg 0).2.1 (by decide),
    ((builders_reject_unknown_types (fun _ => false) twoReceiverCfg 0).2.2.2.2.1
      (by decide)).2 (by decide),
    ((builders_reject_unknown_types (fun t => t == "\x7b\x7b.Count\x7d\x7d")
      countTemplateCfg 0).2.2.2.2.1 (by decide)).2 (by decide),
    (builders_reject_unknown_types (fun _ => false) unknownProcessorCfg 0).2.2.1.mpr
      ⟨("dedupe", ⟨"dedup"⟩), by decide, by decide⟩⟩

end Pipeline

/-! ### Phase 1: one receiver per key -/

namespace Pipeline

theorem keys_appendSub (m : List (String × List RxSub)) (k : String) (s : RxSub) :
    (appendSub m k s).map Prod.fst
      = if k ∈ m.map Prod.fst then m.map Prod.fst else m.map Prod.fst ++ [k] := by
  induction m with
  | nil => simp [appendSub]
  | cons hd tl ih =>
    obtain ⟨k0, subs⟩ := hd
    by_cases h0 : k0 = k
    · simp [appendSub, h0]
    · have h1 : ¬ k = k0 := fun h => h0 h.symm
      simp only [appendSub, h0, if_false, List.map_cons, ih, List.mem_cons, h1, false_or]
      split_ifs <;> simp

theorem nodup_keys_appendSub (m : List (String × List RxSub)) (k : String) (s : RxSub)
    (h : (m.map Prod.fst).Nodup) : ((appendSub m k s).map Prod.fst).Nodup := by
  rw [keys_appendSub]
  split_ifs with hk
  · exact h
  · exact List.Nodup.append h (by simp) (by simpa using hk)

theorem mem_keys_appendSub (m : List (String × List RxSub)) (k k' : String) (s : RxSub) :
    k' ∈ (appendSub m k s).map Prod.fst ↔ k' ∈ m.map Prod.fst ∨ k' = k := by
  rw [keys_appendSub]
  split_ifs with hk
  · constructor
    · exact Or.inl
    · rintro (h | rfl)
      · exact h
      · exact hk
  · simp

theorem keys_foldl_appendSub (rs : List String) (m : List (String × List RxSub)) (s : RxSub)
    (h : (m.map Prod.fst).Nodup) :
    ((rs.foldl (fun m rkey => appendSub m rkey s) m).map Prod.fst).Nodup ∧
    ∀ k', k' ∈ (rs.foldl (fun m rkey => appendSub m rkey s) m).map Prod.fst ↔
      k' ∈ m.map Prod.fst ∨ k' ∈ rs := by
  induction rs generalizing m with
  | nil => simp [h]
  | cons r rest ih =>
    obtain ⟨h1, h2⟩ := ih (appendSub m r s) (nodup_keys_appendSub m r s h)
    refine ⟨h1, fun k' => ?_⟩
    simp only [List.foldl_cons]
    rw [h2, mem_keys_appendSub]
    simp only [List.mem_cons]
    tauto

theorem keys_prepareInputs (pls : List (String × PipelineCfg)) (st : Inputs)
    (h : (st.rxSubs.map Prod.fst).Nodup) :
    ((prepareInputs pls st).rxSubs.map Prod.fst).Nodup ∧
    ∀ k', k' ∈ (prepareInputs pls st).rxSubs.map Prod.fst ↔
      k' ∈ st.rxSubs.map Prod.fst ∨ k' ∈ pls.flatMap (fun x => x.2.Receivers) := by
  induction pls generalizing st with
  | nil => simp [prepareInputs, h]
  | cons hd tl ih =>
    obtain ⟨pname, p⟩ := hd
    obtain ⟨f1, f2⟩ := keys_foldl_appendSub p.Receivers st.rxSubs ⟨st.nextChan, pname⟩ h
    simp only [prepareInputs]
    obtain ⟨h1, h2⟩ := ih
      { rxSubs := p.Receivers.foldl (fun m rkey => appendSub m rkey ⟨st.nextChan, pname⟩)
          st.rxSubs
        pipelineInputs := setInput st.pipelineInputs pname st.nextChan
        nextChan := st.nextChan + 1 } f1
    refine ⟨h1, fun k' => ?_⟩
    rw [h2]
    simp only [f2, List.flatMap_cons, List.mem_append]
    tauto

theorem lookupSubs_of_mem (m : List (String × List RxSub)) (k : String) (v : List RxSub)
    (hnodup : (m.map Prod.fst).Nodup) (h : (k, v) ∈ m) : lookupSubs m k = v := by
  induction m with
  | nil => simp at h
  | cons hd tl ih =>
    obtain ⟨k0, v0⟩ := hd
    simp only [List.map_cons, List.nodup_cons] at hnodup
    rcases List.mem_cons.mp h with heq | hmem
    · simp only [Prod.mk.injEq] at heq
      obtain ⟨rfl, rfl⟩ := heq
      simp [lookupSubs]
    · have hne : k0 ≠ k := by
        rintro rfl
        exact hnodup.1 (List.mem_map.mpr ⟨(k0, v), hmem, rfl⟩)
      simp [lookupSubs, hne, ih hnodup.2 hmem]

theorem lookupReceiver_mem (m : List (String × ReceiverInstance)) (k : String)
    (r : ReceiverInstance) (h : lookupReceiver m k = some r) : (k, r) ∈ m := by
  induction m with
  | nil => simp [lookupReceiver] at h
  | cons hd tl ih =>
    obtain ⟨k0, r0⟩ := hd
    simp only [lookupReceiver] at h
    split_ifs at h with hk
    · simp only [Option.some.injEq] at h
      subst h hk
      simp
    · simp [ih h]

theorem lookupReceiver_isSome (m : List (String × ReceiverInstance)) (k : String)
    (h : k ∈ m.map Prod.fst) : ∃ r, lookupReceiver m k = some r := by
  induction m with
  | nil => simp at h
  | cons hd tl ih =>
    obtain ⟨k0, r0⟩ := hd
    by_cases hk : k0 = k
    · exact ⟨r0, by simp [lookupReceiver, hk]⟩
    · have : k ∈ tl.map Prod.fst := by
        simp only [List.map_cons, List.mem_cons] at h
        rcases h with h | h
        · exact absurd h.symm hk
        · exact h
      obtain ⟨r, hr⟩ := ih this
      exact ⟨r, by simp [lookupReceiver, hk, hr]⟩

theorem lookupReceiver_none (m : List (String × ReceiverInstance)) (k : String)
    (h : k ∉ m.map Prod.fst) : lookupReceiver m k = none := by
  cases hl : lookupReceiver m k with
  | none => rfl
  | some r => exact absurd (List.mem_map.mpr ⟨(k, r), lookupReceiver_mem m k r hl, rfl⟩) h

theorem startReceivers_ok (rxFactory : List (String × ReceiverInstance))
    (l : List (String × List RxSub)) (next : Nat)
    (h : ∀ x ∈ l, ∃ r, lookupReceiver rxFactory x.1 = some r) :
    (startReceivers rxFactory l next).failure = none ∧
    (startReceivers rxFactory l next).started.map ReceiverTask.key = l.map Prod.fst ∧
    (startReceivers rxFactory l next).started.map ReceiverTask.shared
      = (List.range l.length).map (next + ·) ∧
    ∀ t ∈ (startReceivers rxFactory l next).started,
      lookupReceiver rxFactory t.key = some t.receiver ∧ (t.key, t.subscribers) ∈ l := by
  induction l generalizing next with
  | nil => simp [startReceivers]
  | cons hd tl ih =>
    obtain ⟨rkey, subs⟩ := hd
    obtain ⟨r, hr⟩ := h (rkey, subs) (by simp)
    obtain ⟨h1, h2, h3, h4⟩ := ih (next + 1) (fun x hx => h x (by simp [hx]))
    simp only [startReceivers, hr]
    refine ⟨h1, by simp [h2], ?_, ?_⟩
    · simp only [List.map_cons, List.length_cons, h3]
      rw [List.range_succ_eq_map]
      simp [Function.comp_def, Nat.add_assoc, Nat.add_comm 1]
    · intro t ht
      rcases List.mem_cons.mp ht with rfl | ht
      · exact ⟨hr, by simp⟩
      · exact ⟨(h4 t ht).1, by simp [(h4 t ht).2]⟩

theorem startReceivers_missing (rxFactory : List (String × ReceiverInstance))
    (l : List (String × List RxSub)) (next : Nat)
    (h : ∃ x ∈ l, lookupReceiver rxFactory x.1 = none) :
    ∃ msg, (startReceivers rxFactory l next).failure = some (.error msg) := by
  induction l generalizing next with
  | nil => simp at h
  | cons hd tl ih =>
    obtain ⟨rkey, subs⟩ := hd
    simp only [startReceivers]
    cases hr : lookupReceiver rxFactory rkey with
    | none => exact ⟨_, rfl⟩
    | some r =>
      obtain ⟨x, hx, hx'⟩ := h
      rcases List.mem_cons.mp hx with rfl | hx
      · rw [hr] at hx'
        exact absurd hx' (by simp)
      · exact ih (next + 1) ⟨x, hx, hx'⟩

theorem buildReceiversFrom_ok (l : List (String × ReceiverCfg)) (next n : Nat)
    (m : List (String × ReceiverInstance)) (h : buildReceiversFrom l next = .ok (m, n)) :
    m.map Prod.fst = l.map Prod.fst ∧ (m.map (fun x => x.2.addr)).Nodup ∧
    ∀ x ∈ m, x.2.key = x.1 := by
  obtain ⟨h1, h2, -⟩ := buildReceiversFrom_spec l next
  have hall : ∀ x ∈ l, recognisedReceiver x.2 = true := by
    intro x hx
    cases hr : recognisedReceiver x.2 with
    | true => rfl
    | false =>
      obtain ⟨msg, hmsg⟩ := h1.mpr ⟨x, hx, hr⟩
      rw [h] at hmsg
      exact absurd hmsg (by simp)
  obtain ⟨m', hm', hkeys, haddrs, hkey⟩ := h2 hall
  rw [h] at hm'
  simp only [Except.ok.injEq, Prod.mk.injEq] at hm'
  obtain ⟨rfl, -⟩ := hm'
  refine ⟨hkeys, ?_, hkey⟩
  rw [haddrs]
  exact (List.nodup_range _).map (fun a b hab => by simpa using hab)

theorem started_of_build (parses : String → Bool) (cfg : Config) (rxFactory : List (String × ReceiverInstance))
    (next : Nat) (hbuild : buildReceivers cfg 0 = .ok (rxFactory, next))
    (hresolve : ∀ rkey ∈ referencedReceivers cfg, rkey ∈ cfg.Receivers.map Prod.fst) :
    (BuildAndRun parses cfg).receivers
      = (startReceivers rxFactory (subscriptions cfg).rxSubs (subscriptions cfg).nextChan).started ∧
    ∀ x ∈ (subscriptions cfg).rxSubs, ∃ r, lookupReceiver rxFactory x.1 = some r := by
  have hkeys := (buildReceiversFrom_ok _ _ _ _ hbuild).1
  have hsub := (keys_prepareInputs cfg.Pipelines ⟨[], [], 0⟩ (by simp)).2
  have hall : ∀ x ∈ (subscriptions cfg).rxSubs, ∃ r, lookupReceiver rxFactory x.1 = some r := by
    intro x hx
    apply lookupReceiver_isSome
    rw [hkeys]
    apply hresolve
    have := (hsub x.1).mp (List.mem_map.mpr ⟨x, hx, rfl⟩)
    simpa [referencedReceivers] using this
  refine ⟨?_, hall⟩
  have hf := (startReceivers_ok rxFactory _ (subscriptions cfg).nextChan hall).1
  simp only [BuildAndRun, hbuild]
  split
  · rename_i f hfail
    simp [hf] at hfail
  · rfl

/-- C11. For every configuration whose receiver factory builds and whose pipelines list only
configured receiver keys, `BuildAndRun` starts one receiver task (one `Start` goroutine on one
shared channel, with one fan-out goroutine) for each receiver key that some pipeline lists:
the keys of the tasks are distinct and are exactly the keys listed, so a configured receiver
that no pipeline lists is not started; the shared channels are distinct, the receiver
instances are distinct, each task runs the instance built for its key and fans out to the
subscribers collected under its key. -/
theorem one_receiver_task_per_key (parses : String → Bool) (cfg : Config)
    (rxFactory : List (String × ReceiverInstance)) (next : Nat)
    (hbuild : buildReceivers cfg 0 = .ok (rxFactory, next))
    (hresolve : ∀ rkey ∈ referencedReceivers cfg, rkey ∈ cfg.Receivers.map Prod.fst) :
    ((BuildAndRun parses cfg).receivers.map ReceiverTask.key).Nodup ∧
    (∀ rkey, rkey ∈ (BuildAndRun parses cfg).receivers.map ReceiverTask.key ↔
      rkey ∈ referencedReceivers cfg) ∧
    ((BuildAndRun parses cfg).receivers.map ReceiverTask.shared).Nodup ∧
    ((BuildAndRun parses cfg).receivers.map (fun t => t.receiver.addr)).Nodup ∧
    ∀ t ∈ (BuildAndRun parses cfg).receivers,
      lookupReceiver rxFactory t.key = some t.receiver ∧
      t.subscribers = lookupSubs (subscriptions cfg).rxSubs t.key := by
  obtain ⟨hrecv, hall⟩ := started_of_build parses cfg rxFactory next hbuild hresolve
  obtain ⟨-, hkeys, hshared, htask⟩ :=
    startReceivers_ok rxFactory _ (subscriptions cfg).nextChan hall
  obtain ⟨hnodup, hmem⟩ := keys_prepareInputs cfg.Pipelines ⟨[], [], 0⟩ (by simp)
  obtain ⟨-, haddr, hkey⟩ := buildReceiversFrom_ok _ _ _ _ hbuild
  rw [hrecv]
  have hknodup : ((startReceivers rxFactory (subscriptions cfg).rxSubs
      (subscriptions cfg).nextChan).started.map ReceiverTask.key).Nodup := by
    rw [hkeys]
    exact hnodup
  refine ⟨hknodup, ?_, ?_, ?_, ?_⟩
  · intro rkey
    rw [hkeys]
    have := hmem rkey
    simpa [referencedReceivers, subscriptions] using this
  · rw [hshared]
    exact (List.nodup_range _).map (fun a b hab => by simpa using hab)
  · rw [List.nodup_iff_injective_get]
    intro i j hij
    simp only [List.get_eq_getElem, List.getElem_map] at hij
    have hi := i.2
    have hj := j.2
    simp only [List.length_map] at hi hj
    have hti := htask _ (List.getElem_mem hi)
    have htj := htask _ (List.getElem_mem hj)
    have hmi := lookupReceiver_mem _ _ _ hti.1
    have hmj := lookupReceiver_mem _ _ _ htj.1
    have heq := List.inj_on_of_nodup_map haddr hmi hmj hij
    simp only [Prod.mk.injEq] at heq
    have hinj := List.nodup_iff_injective_get.mp hknodup
    have hget := @hinj ⟨i.1, by simpa using hi⟩ ⟨j.1, by simpa using hj⟩
      (by simpa using heq.1)
    exact Fin.ext (by simpa using congrArg Fin.val hget)
  · intro t ht
    exact ⟨(htask t ht).1, (lookupSubs_of_mem _ _ _ hnodup (htask t ht).2).symm⟩

/-- Witness of C11: in `spareReceiverCfg` two pipelines list `otlp` and nothing lists
`kafka` or `logs`; one task is started, for `otlp`. -/
theorem one_receiver_task_per_key_witness :
    (BuildAndRun (fun _ => true) spareReceiverCfg).receivers.map ReceiverTask.key = ["otlp"] ∧
    (∀ rkey,
      rkey ∈ (BuildAndRun (fun _ => true) spareReceiverCfg).receivers.map ReceiverTask.key ↔
      rkey ∈ referencedReceivers spareReceiverCfg) ∧
    "logs" ∈ spareReceiverCfg.Receivers.map Prod.fst :=
  ⟨by decide,
    (one_receiver_task_per_key (fun _ => true) spareReceiverCfg
      [("otlp", ⟨0, "otlp", .otlpgrpc⟩), ("kafka", ⟨1, "kafka", .kafka "metrics"⟩),
        ("logs", ⟨2, "logs", .jsonlogsHTTP⟩)] 3 rfl (by decide)).2.1,
    by decide⟩

end Pipeline

/-! ### Unresolved keys -/

namespace Pipeline

theorem startProcessors_error (procFactory : List (String × Instance)) (keys : List String)
    (h : ∃ k ∈ keys, lookupProc procFactory k = none) :
    ∃ msg, startProcessors procFactory keys = .error msg := by
  induction keys with
  | nil => simp at h
  | cons k rest ih =>
    simp only [startProcessors]
    cases hk : lookupProc procFactory k with
    | none => exact ⟨_, rfl⟩
    | some p =>
      obtain ⟨k', hk', hnone⟩ := h
      rcases List.mem_cons.mp hk' with rfl | hmem
      · rw [hk] at hnone
        exact absurd hnone (by simp)
      · obtain ⟨msg, hmsg⟩ := ih ⟨k', hmem, hnone⟩
        exact ⟨msg, by simp [hmsg]⟩

theorem startProcessors_ok (procFactory : List (String × Instance)) (keys : List String)
    (h : ∀ k ∈ keys, lookupProc procFactory k ≠ none) :
    ∃ chain, startProcessors procFactory keys = .ok chain ∧ chain.length = keys.length := by
  induction keys with
  | nil => exact ⟨[], rfl, rfl⟩
  | cons k rest ih =>
    obtain ⟨chain, hc, hl⟩ := ih (fun k' hk' => h k' (by simp [hk']))
    cases hk : lookupProc procFactory k with
    | none => exact absurd hk (h k (by simp))
    | some p => exact ⟨p :: chain, by simp [startProcessors, hk, hc], by simp [hl]⟩

theorem startExporters_error (expFactory : List (String × ExporterInstance))
    (keys : List String) (h : ∃ k ∈ keys, lookupExporter expFactory k = none) :
    ∃ msg, startExporters expFactory keys = .error msg := by
  induction keys with
  | nil => simp at h
  | cons k rest ih =>
    simp only [startExporters]
    cases hk : lookupExporter expFactory k with
    | none => exact ⟨_, rfl⟩
    | some p =>
      obtain ⟨k', hk', hnone⟩ := h
      rcases List.mem_cons.mp hk' with rfl | hmem
      · rw [hk] at hnone
        exact absurd hnone (by simp)
      · obtain ⟨msg, hmsg⟩ := ih ⟨k', hmem, hnone⟩
        exact ⟨msg, by simp [hmsg]⟩

theorem startExporters_ok (expFactory : List (String × ExporterInstance))
    (keys : List String) (h : ∀ k ∈ keys, lookupExporter expFactory k ≠ none) :
    ∃ exps, startExporters expFactory keys = .ok exps ∧ exps.length = keys.length := by
  induction keys with
  | nil => exact ⟨[], rfl, rfl⟩
  | cons k rest ih =>
    obtain ⟨exps, hc, hl⟩ := ih (fun k' hk' => h k' (by simp [hk']))
    cases hk : lookupExporter expFactory k with
    | none => exact absurd hk (h k (by simp))
    | some p => exact ⟨p :: exps, by simp [startExporters, hk, hc], by simp [hl]⟩

theorem wire_ok (pl : PipelineCfg) (procFactory : List (String × Instance))
    (expFactory : List (String × ExporterInstance))
    (hp : ∀ k ∈ pl.Processors, lookupProc procFactory k ≠ none)
    (he : ∀ k ∈ pl.Exporters, lookupExporter expFactory k ≠ none) :
    ∃ st, wire pl procFactory expFactory = .ok st ∧
      st.chain.length = pl.Processors.length ∧ st.exporters.length = pl.Exporters.length := by
  obtain ⟨chain, hc, hcl⟩ := startProcessors_ok procFactory pl.Processors hp
  obtain ⟨exps, hx, hxl⟩ := startExporters_ok expFactory pl.Exporters he
  exact ⟨⟨chain, exps⟩, by simp [wire, hc, hx], hcl, hxl⟩

theorem wire_error (pl : PipelineCfg) (procFactory : List (String × Instance))
    (expFactory : List (String × ExporterInstance))
    (h : (∃ k ∈ pl.Processors, lookupProc procFactory k = none) ∨
      (∃ k ∈ pl.Exporters, lookupExporter expFactory k = none)) :
    ∃ msg, wire pl procFactory expFactory = .error msg := by
  unfold wire
  cases hc : startProcessors procFactory pl.Processors with
  | error msg => exact ⟨msg, rfl⟩
  | ok chain =>
    rcases h with h | h
    · obtain ⟨msg, hmsg⟩ := startProcessors_error procFactory pl.Processors h
      rw [hc] at hmsg
      exact absurd hmsg (by simp)
    · obtain ⟨msg, hmsg⟩ := startExporters_error expFactory pl.Exporters h
      exact ⟨msg, by simp [hmsg]⟩

theorem BuildAndRun_missing_receiver (parses : String → Bool) (cfg : Config)
    (h : ∃ rkey ∈ referencedReceivers cfg, rkey ∉ cfg.Receivers.map Prod.fst) :
    ∃ msg, (BuildAndRun parses cfg).failure = some (.error msg) ∧
      (BuildAndRun parses cfg).pipelines = [] := by
  obtain ⟨rkey, href, hmiss⟩ := h
  unfold BuildAndRun
  cases hb : buildReceivers cfg 0 with
  | error f =>
    obtain ⟨msg, rfl⟩ := (buildReceiversFrom_spec cfg.Receivers 0).2.2 f hb
    exact ⟨msg, rfl, rfl⟩
  | ok r =>
    obtain ⟨rxFactory, next⟩ := r
    have hkeys := (buildReceiversFrom_ok _ _ _ _ hb).1
    have hsub := (keys_prepareInputs cfg.Pipelines ⟨[], [], 0⟩ (by simp)).2 rkey
    have hin : rkey ∈ (subscriptions cfg).rxSubs.map Prod.fst := by
      rw [subscriptions, hsub]
      exact Or.inr href
    obtain ⟨x, hx, hx1⟩ := List.mem_map.mp hin
    have hnone : lookupReceiver rxFactory x.1 = none := by
      apply lookupReceiver_none
      rw [hkeys, hx1]
      exact hmiss
    obtain ⟨msg, hmsg⟩ := startReceivers_missing rxFactory (subscriptions cfg).rxSubs
      (subscriptions cfg).nextChan ⟨x, hx, hnone⟩
    refine ⟨msg, ?_, ?_⟩ <;> simp [hmsg]

/-- C14. An unresolved key reference is an error.  `BuildAndRun` returns a non-nil error,
before it starts any pipeline, when some pipeline lists a receiver key that is not a defined
receiver.  `runSinglePipeline` returns a non-nil error when the pipeline lists a processor key
absent from its processor map, and when it lists an exporter key absent from its exporter
map.  When every listed key is found, `runSinglePipeline` waits for the context to be done
and then returns nil. -/
theorem unresolved_key_is_error :
    (∀ (parses : String → Bool) (cfg : Config),
      (∃ rkey ∈ referencedReceivers cfg, rkey ∉ cfg.Receivers.map Prod.fst) →
      ∃ msg, (BuildAndRun parses cfg).failure = some (.error msg) ∧
        (BuildAndRun parses cfg).pipelines = []) ∧
    (∀ (pl : PipelineCfg) (procFactory : List (String × Instance))
        (expFactory : List (String × ExporterInstance)) (ctxDone : Bool),
      (∃ k ∈ pl.Processors, lookupProc procFactory k = none) →
      ∃ msg, runSinglePipeline pl procFactory expFactory ctxDone = .returned (some msg)) ∧
    (∀ (pl : PipelineCfg) (procFactory : List (String × Instance))
        (expFactory : List (String × ExporterInstance)) (ctxDone : Bool),
      (∃ k ∈ pl.Exporters, lookupExporter expFactory k = none) →
      ∃ msg, runSinglePipeline pl procFactory expFactory ctxDone = .returned (some msg)) ∧
    (∀ (pl : PipelineCfg) (procFactory : List (String × Instance))
        (expFactory : List (String × ExporterInstance)),
      (∀ k ∈ pl.Processors, lookupProc procFactory k ≠ none) →
      (∀ k ∈ pl.Exporters, lookupExporter expFactory k ≠ none) →
      runSinglePipeline pl procFactory expFactory true = .returned none ∧
      runSinglePipeline pl procFactory expFactory false = .waiting) := by
  refine ⟨BuildAndRun_missing_receiver, ?_, ?_, ?_⟩
  · intro pl pf ef ctxDone h
    obtain ⟨msg, hmsg⟩ := wire_error pl pf ef (Or.inl h)
    exact ⟨msg, by simp [runSinglePipeline, hmsg]⟩
  · intro pl pf ef ctxDone h
    obtain ⟨msg, hmsg⟩ := wire_error pl pf ef (Or.inr h)
    exact ⟨msg, by simp [runSinglePipeline, hmsg]⟩
  · intro pl pf ef hp he
    obtain ⟨st, hst, -⟩ := wire_ok pl pf ef hp he
    simp [runSinglePipeline, hst]

/-- Witness of C14: `danglingReceiverCfg` lists the undefined receiver `pulsar`; a pipeline
listing the undefined processor `dedupe` fails; the pipeline of `twoReceiverCfg`, run on the
maps phase 2 builds, returns nil once the context is done. -/
theorem unresolved_key_is_error_witness :
    (∃ msg, (BuildAndRun (fun _ => true) danglingReceiverCfg).failure = some (.error msg) ∧
      (BuildAndRun (fun _ => true) danglingReceiverCfg).pipelines = []) ∧
    (∃ msg, runSinglePipeline ⟨["otlp"], ["spans", "dedupe"], ["weaviate"]⟩
      [("spans", ⟨0, "spans", "spanmetrics"⟩)] [] true = .returned (some msg)) ∧
    runSinglePipeline ⟨["otlp"], ["spans"], ["weaviate"]⟩
      [("spans", ⟨0, "spans", "spanmetrics"⟩)]
      [("weaviate", ⟨1, "weaviate", some Weaviate.sampleExporter⟩)] true = .returned none :=
  ⟨unresolved_key_is_error.1 (fun _ => true) danglingReceiverCfg
      ⟨"pulsar", by decide, by decide⟩,
    unresolved_key_is_error.2.1 _ _ _ true ⟨"dedupe", by decide, by decide⟩,
    (unresolved_key_is_error.2.2.2 _ _ _ (by decide) (by decide)).1⟩

end Pipeline

/-! ### The bridge and the dispatcher -/

namespace Pipeline

theorem bridge_eq_filter (vs : List Value) :
    (bridge vs).map Value.aggregate = vs.filter Value.isAggregate := by
  induction vs with
  | nil => rfl
  | cons v rest ih =>
    cases v <;> simp [bridge, Value.isAggregate, ih]

theorem broadcast_never (a : Aggregate) (chs : List Nat) (k : Nat)
    (sent : List (Nat × Aggregate)) :
    broadcast never a chs k sent
      = (false, k + chs.length, sent ++ chs.map (fun ch => (ch, a))) := by
  induction chs generalizing k sent with
  | nil => simp [broadcast]
  | cons ch rest ih =>
    simp only [broadcast, never, Bool.false_eq_true, if_false]
    rw [ih]
    simp
    omega

theorem dispatcher_never (chs : List Nat) (as : List Aggregate) (finalClosed : Bool) (k : Nat)
    (sent : List (Nat × Aggregate)) :
    (dispatcher never chs as finalClosed k sent).sent
      = sent ++ as.flatMap (fun a => chs.map (fun ch => (ch, a))) ∧
    (dispatcher never chs as finalClosed k sent).returned = finalClosed ∧
    (dispatcher never chs as finalClosed k sent).closed = if finalClosed then chs else [] := by
  induction as generalizing k sent with
  | nil => cases finalClosed <;> simp [dispatcher]
  | cons a rest ih =>
    simp only [dispatcher, broadcast_never]
    obtain ⟨h1, h2, h3⟩ := ih (k + chs.length) (sent ++ chs.map (fun ch => (ch, a)))
    exact ⟨by rw [h1]; simp, h2, h3⟩

theorem received_once (i : Nat) (chs : List Nat) (as : List Aggregate)
    (hcount : chs.count i = 1) :
    (((as.flatMap (fun a => chs.map (fun ch => (ch, a)))).filter
      (fun p => p.1 == i)).map Prod.snd) = as := by
  have hone : ∀ a : Aggregate,
      ((chs.map (fun ch => (ch, a))).filter (fun p => p.1 == i)).map Prod.snd
        = List.replicate (chs.count i) a := by
    intro a
    clear hcount
    induction chs with
    | nil => rfl
    | cons ch rest ih =>
      by_cases h : ch = i
      · subst h
        simp [List.filter_cons, ih, List.replicate_succ]
      · have hb : (ch == i) = false := by simpa using h
        simp [List.filter_cons, hb, ih, List.count_cons, h]
  induction as with
  | nil => rfl
  | cons a rest ih =>
    simp only [List.flatMap_cons, List.filter_append, List.map_append, hone, hcount, ih]
    rfl

theorem startExporters_length (expFactory : List (String × ExporterInstance))
    (keys : List String) (exps : List ExporterInstance)
    (h : startExporters expFactory keys = .ok exps) : exps.length = keys.length := by
  induction keys generalizing exps with
  | nil =>
    simp only [startExporters, Except.ok.injEq] at h
    subst h
    rfl
  | cons k rest ih =>
    simp only [startExporters] at h
    cases hk : lookupExporter expFactory k with
    | none => simp [hk] at h
    | some e =>
      cases hr : startExporters expFactory rest with
      | error msg => simp [hk, hr] at h
      | ok es =>
        simp only [hk, hr, Except.ok.injEq] at h
        subst h
        simp [ih es hr]

/-- C12. Final-stage filtering and broadcast. When `runSinglePipeline` has wired its stages
and the context is never done, then for every sequence of values the last processor emits,
the exporter on each input is sent exactly the values of that sequence that are aggregates,
in the same order, so every exporter is sent the same sequence, and values of any other type
reach no exporter; there is one input per exporter key listed, and the dispatcher closes
them all once the final channel is closed. -/
theorem exporters_receive_aggregates (pl : PipelineCfg)
    (procFactory : List (String × Instance)) (expFactory : List (String × ExporterInstance))
    (st : Stages) (vs : List Value) (finalClosed : Bool)
    (hwire : wire pl procFactory expFactory = .ok st) :
    st.exporters.length = pl.Exporters.length ∧
    (∀ i, i < st.exporters.length →
      ((dispatcher never (List.range st.exporters.length) (bridge vs) finalClosed 0
          []).received i).map Value.aggregate = vs.filter Value.isAggregate) ∧
    (finalClosed = true →
      (dispatcher never (List.range st.exporters.length) (bridge vs) finalClosed 0 []).closed
        = List.range st.exporters.length) := by
  refine ⟨?_, ?_, ?_⟩
  · unfold wire at hwire
    cases hc : startProcessors procFactory pl.Processors with
    | error msg => simp [hc] at hwire
    | ok chain =>
      cases hx : startExporters expFactory pl.Exporters with
      | error msg => simp [hc, hx] at hwire
      | ok exps =>
        simp only [hc, hx, Except.ok.injEq] at hwire
        subst hwire
        exact startExporters_length _ _ _ hx
  · intro i hi
    have hcount : (List.range st.exporters.length).count i = 1 :=
      List.count_eq_one_of_mem (List.nodup_range _) (List.mem_range.mpr hi)
    rw [Dispatch.received, (dispatcher_never _ _ _ _ _).1, List.nil_append,
      received_once i _ _ hcount, bridge_eq_filter]
  · intro hf
    rw [(dispatcher_never _ _ _ _ _).2.2, hf]
    rfl

/-- Witness of C12: a pipeline with two exporter entries; of an aggregate, a value of
another type and a second aggregate, the exporter on input 1 is sent the two aggregates. -/
theorem exporters_receive_aggregates_witness :
    ((dispatcher never (List.range 2)
        (bridge [.aggregate Weaviate.sampleAggregate, .other "*model.Aggregate",
          .aggregate Weaviate.sampleTwin]) true 0 []).received 1).map Value.aggregate
      = [.aggregate Weaviate.sampleAggregate, .aggregate Weaviate.sampleTwin] :=
  (exporters_receive_aggregates ⟨["otlp"], ["spans"], ["weaviate", "backup"]⟩
    [("spans", ⟨0, "spans", "spanmetrics"⟩)]
    [("weaviate", ⟨1, "weaviate", some Weaviate.sampleExporter⟩),
      ("backup", ⟨2, "backup", some Weaviate.sampleExporter⟩)]
    ⟨[⟨0, "spans", "spanmetrics"⟩],
      [⟨1, "weaviate", some Weaviate.sampleExporter⟩,
        ⟨2, "backup", some Weaviate.sampleExporter⟩]⟩
    [.aggregate Weaviate.sampleAggregate, .other "*model.Aggregate",
      .aggregate Weaviate.sampleTwin] true rfl).2.1 1 (by decide)

end Pipeline

/-! ### The Grafana plugin: the client of the registered handler -/

namespace Backend

theorem CheckHealth_of_client {σ : Type} (c : Client) (net : Net σ) (s : σ)
    (req : CheckHealthRequest) :
    ∃ res s1, Plugin.CheckHealth ⟨some c⟩ net s req = (.returned (res, none), s1) ∧
      (res.Status = .Ok ↔ (Client.CheckHealth net s (some c)).1 = .returned none) ∧
      (res.Status = .Error ↔ ∃ err, (Client.CheckHealth net s (some c)).1
        = .returned (some err)) := by
  unfold Plugin.CheckHealth
  rcases h : Client.CheckHealth net s (some c) with ⟨r, s1⟩
  cases r with
  | panic msg =>
    exfalso
    simp only [Client.CheckHealth] at h
    split at h
    · simp at h
    · split at h
      · simp at h
      · split_ifs at h <;> simp at h
  | returned v =>
    cases v with
    | none => exact ⟨_, s1, rfl, by simp, by simp⟩
    | some err => exact ⟨_, s1, rfl, by simp, by simp⟩

theorem NewDataSourceInstance_client {σ : Type} (p : Plugin) (net : Net σ)
    (settings : DataSourceInstanceSettings) (inst : instanceSettings)
    (h : p.NewDataSourceInstance net settings = .ok inst) : inst.client ≠ none := by
  unfold Plugin.NewDataSourceInstance at h
  cases hc : NewClient net settings with
  | error e => simp [hc] at h
  | ok c =>
    simp only [hc, Except.ok.injEq] at h
    subst h
    simp

/-- With the client `NewClient` builds from `sampleSettings` in its `client` field, the
health check against `healthyNet` sends one request and returns the status `Ok` and a nil
error; the same check on the value `New` returns panics and sends none. -/
theorem CheckHealth_ok_with_client :
    NewClient healthyNet sampleSettings = .ok ⟨"http://mirador-core:8080", ""⟩ ∧
    Plugin.CheckHealth ⟨some ⟨"http://mirador-core:8080", ""⟩⟩ healthyNet 0 ⟨[]⟩
      = (.returned (⟨.Ok, "Success: Connected to Mirador Core"⟩, none), 1) ∧
    New.CheckHealth healthyNet 0 ⟨[]⟩ = (.panic nilDereference, 0) :=
  ⟨rfl, by decide, by decide⟩

/-- C21, at the failing input. The value `New` returns has a nil `client`, and `main`
registers that value as health and query handler.  For every request, every network and
every state of it, the health check served panics with a nil pointer dereference
(`Client.CheckHealth` reads `c.baseURL` on its nil receiver) and returns no result, with no
request sent; so does the handling of every query of type `metrics`, `logs` or `traces`. -/
theorem CheckHealth_panics_on_New {σ : Type} (net : Net σ) (s : σ) (req : CheckHealthRequest)
    (query : DataQuery) (expr from_ to_ : String) :
    New.client = none ∧
    main.CheckHealthHandler = New ∧ main.QueryDataHandler = New ∧
    serveCheckHealth main net s req = (.panic nilDereference, s) ∧
    New.CheckHealth net s req = (.panic nilDereference, s) ∧
    New.handleQuery net s query ⟨"metrics", expr, from_, to_⟩ = (.panic nilDereference, s) ∧
    New.handleQuery net s query ⟨"logs", expr, from_, to_⟩ = (.panic nilDereference, s) ∧
    New.handleQuery net s query ⟨"traces", expr, from_, to_⟩ = (.panic nilDereference, s) :=
  ⟨rfl, rfl, rfl, rfl, rfl, by simp [Plugin.handleQuery, Plugin.handleMetricsQuery, New,
      Client.GetMetrics],
    by simp [Plugin.handleQuery, Plugin.handleLogsQuery, New, Client.GetLogs],
    by simp [Plugin.handleQuery, Plugin.handleTracesQuery, New, Client.GetTraces]⟩

end Backend
